import Mathlib

/-!
# Playback and waveform engine of SqualusShiraii

Shallow embedding of `app/static/js/components/waveform.js` (class
`WaveformRenderer`), `app/static/js/components/player.js` (class `Player`) and of
the two URL builders of `app/static/js/api.js` that the player uses.

Conventions of the embedding.

* An object is a structure holding its fields; a method is a function from the
  state before the call to the state after it.  JavaScript keeps every mutation
  made before an exception is thrown, so a method returns an `Outcome`: the state
  it leaves behind together with the exception, if one escaped.
* What the browser answers during a call (which handle `requestAnimationFrame`
  hands out, whether `new AudioContext()` throws, whether `audio.play()` is
  accepted, what the analyser measures) is an explicit argument or a ghost field;
  what the code asks of the browser (draws, scheduled frames, play and pause
  requests, node constructions) is recorded in ghost fields so that it can be
  counted.
* The leading underscore of `_resize`, `_animate`, `_draw`, `_initAudioCtx` and
  `_fmt` is dropped.
* A finite number is a rational.  The arithmetic of `_draw` whose result decides a
  colour, a buffer index or where a bar lies (the fraction of a bar, the sample
  index, the width and the position of a bar, the idle height) is rounded to the
  nearest double by `toDouble`, operation by operation.  The seek position, the
  progress quotient, the live bar height and the vertical offset of a bar are kept
  in exact arithmetic.
-/

namespace Squalus

/-! ## JavaScript values -/

/-- The exceptions the modelled code can meet. -/
inductive JSError where
  /-- A property was read or a method called on `null`. -/
  | typeError
  /-- The platform refused an audio-graph operation. -/
  | platformError
  deriving DecidableEq, Repr

/-- State after a call, and the exception that escaped it (`none`: the call returned). -/
structure Outcome (σ : Type) where
  st : σ
  err : Option JSError

/-- JavaScript number: `NaN`, the two infinities, or a finite value.  Finite values are
exact rationals; the zero sign is not tracked (no modelled operation observes it). -/
inductive JSNum where
  | nan
  | negInf
  | fin (q : ℚ)
  | posInf
  deriving DecidableEq

namespace JSNum

instance : OfNat JSNum 0 := ⟨fin 0⟩

instance : OfNat JSNum 1 := ⟨fin 1⟩

/-- The `<` operator on numbers: false as soon as one side is `NaN`. -/
def lt : JSNum → JSNum → Bool
  | nan, _ => false
  | _, nan => false
  | negInf, negInf => false
  | negInf, _ => true
  | fin _, negInf => false
  | fin a, fin b => decide (a < b)
  | fin _, posInf => true
  | posInf, _ => false

/-- The `<=` operator on numbers: false as soon as one side is `NaN`. -/
def le : JSNum → JSNum → Bool
  | nan, _ => false
  | _, nan => false
  | negInf, _ => true
  | fin _, negInf => false
  | fin a, fin b => decide (a ≤ b)
  | fin _, posInf => true
  | posInf, posInf => true
  | posInf, _ => false

/-- Function `Math.min(a, b)`: `NaN` if an argument is `NaN`, else the smaller argument. -/
def mathMin (a b : JSNum) : JSNum :=
  match a, b with
  | nan, _ => nan
  | _, nan => nan
  | a, b => if lt b a then b else a

/-- Function `Math.max(a, b)`: `NaN` if an argument is `NaN`, else the larger argument. -/
def mathMax (a b : JSNum) : JSNum :=
  match a, b with
  | nan, _ => nan
  | _, nan => nan
  | a, b => if lt a b then b else a

/-- Truthiness of a number (`if (x)`): false for `0` and `NaN`. -/
def truthy : JSNum → Bool
  | nan => false
  | fin q => decide (q ≠ 0)
  | _ => true

end JSNum

/-! ## Web Audio nodes -/

/-- An `AnalyserNode`; `fftSize` is the transform size. -/
structure AnalyserNode where
  fftSize : Nat
  deriving DecidableEq, Repr

/-- The property `frequencyBinCount` of an analyser: half the transform size. -/
def AnalyserNode.frequencyBinCount (a : AnalyserNode) : Nat := a.fftSize / 2

/-- Method `analyser.getByteFrequencyData(array)`: overwrites the array, keeping its length, with the
byte magnitudes `spectrum` the node currently measures (missing buckets read as 0). -/
def AnalyserNode.getByteFrequencyData (_a : AnalyserNode) (spectrum : List Nat)
    (array : List Nat) : List Nat :=
  (List.range array.length).map fun i => spectrum.getD i 0 % 256

/-! ## WaveformRenderer (waveform.js) -/

/-- What one call of `_draw` reads from the renderer: whether the live branch
`this.data && this.analyser` is taken, the buffer, the progress and the logical size. -/
structure DrawCall where
  live : Bool
  data : Option (List Nat)
  progress : JSNum
  w : ℚ
  h : ℚ
  deriving DecidableEq

/-- The on-screen box of the canvas as `getBoundingClientRect()` reports it. -/
structure Rect where
  left : ℚ
  width : ℚ
  height : ℚ
  deriving DecidableEq

/-- State of a `WaveformRenderer`.  `analyser` … `h` are the fields of the class and
`canvasWidth`, `canvasHeight`, `scale` the backing store of its canvas; the remaining fields
are ghost state of the browser: the draws performed so far, the number of analyser reads,
the last handle `requestAnimationFrame` handed out and the handles of the frames that are
scheduled and not cancelled (each of them runs `_animate`). -/
structure WaveformRenderer where
  analyser : Option AnalyserNode
  data : Option (List Nat)
  progress : JSNum
  animId : Option Nat
  w : ℚ
  h : ℚ
  canvasWidth : Nat
  canvasHeight : Nat
  scale : ℚ
  draws : List DrawCall
  reads : Nat
  lastHandle : Nat
  frames : List Nat
  deriving DecidableEq

namespace WaveformRenderer

/-- Method `_draw()`: repaints the 40 bars; recorded as one draw together with everything the
painting reads (lines 52-85). -/
def draw (s : WaveformRenderer) : WaveformRenderer :=
  { s with draws := s.draws ++
      [{ live := s.data.isSome && s.analyser.isSome, data := s.data,
         progress := s.progress, w := s.w, h := s.h }] }

/-- Method `_resize()` with the box and the pixel density the browser reports (lines 15-24);
`window.devicePixelRatio || 1` replaces a zero density by 1 and the canvas attributes are
integers. -/
def resize (rect : Rect) (devicePixelRatio : ℚ) (s : WaveformRenderer) : WaveformRenderer :=
  let dpr := if devicePixelRatio = 0 then 1 else devicePixelRatio
  draw { s with
    canvasWidth := ⌊rect.width * dpr⌋.toNat
    canvasHeight := ⌊rect.height * dpr⌋.toNat
    scale := dpr
    w := rect.width
    h := rect.height }

/-- Call `requestAnimationFrame(() => this._animate())`: the browser hands out the next handle
(a positive integer) and queues the frame. -/
def requestAnimationFrame (s : WaveformRenderer) : Nat × WaveformRenderer :=
  (s.lastHandle + 1,
   { s with lastHandle := s.lastHandle + 1, frames := s.frames ++ [s.lastHandle + 1] })

/-- Call `cancelAnimationFrame(id)`: the frame with that handle will not run. -/
def cancelAnimationFrame (id : Nat) (s : WaveformRenderer) : WaveformRenderer :=
  { s with frames := s.frames.filter fun f => f ≠ id }

/-- Method `_animate()` (lines 45-50); `spectrum` is what the analyser measures at that moment.
Reading into a `null` buffer throws. -/
def animate (spectrum : List Nat) (s : WaveformRenderer) : Outcome WaveformRenderer :=
  match s.analyser with
  | none => ⟨s, none⟩
  | some a =>
    match s.data with
    | none => ⟨s, some .typeError⟩
    | some d =>
      let s1 := draw { s with data := some (a.getByteFrequencyData spectrum d),
                              reads := s.reads + 1 }
      let (id, s2) := requestAnimationFrame s1
      ⟨{ s2 with animId := some id }, none⟩

/-- Method `connectAnalyser(analyser)` (lines 26-30); the buffer `new Uint8Array(n)` is `n` zeros. -/
def connectAnalyser (analyser : AnalyserNode) (spectrum : List Nat)
    (s : WaveformRenderer) : Outcome WaveformRenderer :=
  animate spectrum { s with
    analyser := some analyser
    data := some (List.replicate analyser.frequencyBinCount 0) }

/-- Method `disconnect()` (lines 32-38); `if (this.animId)` is false for `null` and for `0`. -/
def disconnect (s : WaveformRenderer) : Outcome WaveformRenderer :=
  let s1 := { s with analyser := none, data := none }
  let s2 := match s1.animId with
    | some id => if id ≠ 0 then cancelAnimationFrame id s1 else s1
    | none => s1
  ⟨draw { s2 with animId := none }, none⟩

/-- Method `setProgress(p)` (lines 40-43); `!this.animId` is true for `null` and for `0`. -/
def setProgress (p : JSNum) (s : WaveformRenderer) : Outcome WaveformRenderer :=
  let s1 := { s with progress := JSNum.mathMax 0 (JSNum.mathMin 1 p) }
  match s1.animId with
  | some id => ⟨if id ≠ 0 then s1 else draw s1, none⟩
  | none => ⟨draw s1, none⟩

/-- The browser runs the frame with handle `id`: nothing happens unless that frame is
scheduled and not cancelled; otherwise it leaves the queue and `_animate` runs. -/
def tick (id : Nat) (spectrum : List Nat) (s : WaveformRenderer) : Outcome WaveformRenderer :=
  if id ∈ s.frames then animate spectrum { s with frames := s.frames.erase id }
  else ⟨s, none⟩

/-- The constructor (lines 2-13): the fields are initialised and `_resize` runs once. -/
def new (rect : Rect) (devicePixelRatio : ℚ) : WaveformRenderer :=
  resize rect devicePixelRatio
    { analyser := none, data := none, progress := 0, animId := none, w := 0, h := 0,
      canvasWidth := 0, canvasHeight := 0, scale := 1, draws := [], reads := 0,
      lastHandle := 0, frames := [] }

end WaveformRenderer

/-- What can happen to a renderer: a method call, a resize notification or a frame. -/
inductive RendererAction where
  | connectAnalyser (analyser : AnalyserNode) (spectrum : List Nat)
  | disconnect
  | setProgress (p : JSNum)
  | resize (rect : Rect) (devicePixelRatio : ℚ)
  | tick (id : Nat) (spectrum : List Nat)

/-- One action on a renderer. -/
def RendererAction.apply (s : WaveformRenderer) : RendererAction → Outcome WaveformRenderer
  | .connectAnalyser a sp => s.connectAnalyser a sp
  | .disconnect => s.disconnect
  | .setProgress p => s.setProgress p
  | .resize r d => ⟨s.resize r d, none⟩
  | .tick id sp => s.tick id sp

/-- A sequence of actions, each on the state the previous one left (an exception does not
undo anything); the result also tells whether any action threw. -/
def runRenderer (s : WaveformRenderer) : List RendererAction → WaveformRenderer × Bool
  | [] => (s, false)
  | a :: as =>
    let o := a.apply s
    let r := runRenderer o.st as
    (r.1, o.err.isSome || r.2)

/-- The draw of a renderer without live data: the idle branch of `_draw` with the
progress and size of `s`. -/
def idleDraw (s : WaveformRenderer) : DrawCall :=
  { live := false, data := none, progress := s.progress, w := s.w, h := s.h }

/-- The state `disconnect()` leaves behind. -/
def afterDisconnect (s : WaveformRenderer) : WaveformRenderer := s.disconnect.st

/-! ## api.js -/

/-- Function `api.audioUrl(id)` (api.js line 30). -/
def api.audioUrl (id : Nat) : String := "/api/songs/" ++ toString id ++ "/audio"

/-- Function `api.artUrl(id)` (api.js line 31). -/
def api.artUrl (id : Nat) : String := "/api/songs/" ++ toString id ++ "/art"

/-! ## Player (player.js) -/

/-- The state of an `AudioContext`. -/
inductive ContextState where
  | suspended
  | running
  | closed
  deriving DecidableEq, Repr

/-- An `AudioContext`: `id` tells the objects apart (the n-th context ever constructed by
the player has id n, counting from 0), `state` is its current power state. -/
structure AudioContext where
  id : Nat
  state : ContextState
  deriving DecidableEq, Repr

/-- The `MediaElementAudioSourceNode` made from the audio element. -/
structure MediaElementSource where
  toAnalyser : Bool
  deriving DecidableEq, Repr

/-- The HTML audio element: `src` is the empty string until one is bound, `duration` is
`NaN` while unknown. -/
structure AudioElement where
  src : String
  paused : Bool
  currentTime : ℚ
  duration : JSNum
  deriving DecidableEq

/-- Content of the artwork element: the note icon written by `render`, or an image. -/
inductive ArtContent where
  | placeholder
  | image (src : String)
  deriving DecidableEq, Repr

/-- Content of the toggle button: `ICON_PLAY` or `ICON_PAUSE`. -/
inductive Icon where
  | play
  | pause
  deriving DecidableEq, Repr

/-- What the player asks of the platform, in the order it asks. -/
inductive Effect where
  | contextCreated
  | analyserCreated
  | sourceCreated
  | sourceConnected
  | analyserConnected
  | rendererConnected
  | resumeRequested
  | playRequested
  | pauseRequested
  deriving DecidableEq, Repr

/-- The platform calls of `_initAudioCtx` that can throw. -/
inductive InitStep where
  | newContext
  | createAnalyser
  | createSource
  | connectSource
  | connectDestination
  deriving DecidableEq, Repr

/-- What the platform answers during one call of `play` or `togglePlay`: which step of the
graph construction throws (if one does), the state a new context is born in, what the
analyser measures, and whether `audio.play()` is accepted. -/
structure Platform where
  failAt : Option InitStep
  contextState : ContextState
  spectrum : List Nat
  playAccepted : Bool

/-- State of the `Player`: the fields of the class, the content of the elements `render`
creates (`bar` hidden or not, artwork, title, time, toggle button), whether the analyser is
wired to the destination, and the trace of requests to the platform. -/
structure Player where
  audio : AudioElement
  audioCtx : Option AudioContext
  analyser : Option AnalyserNode
  source : Option MediaElementSource
  waveform : WaveformRenderer
  currentSongId : Option Nat
  barHidden : Bool
  art : ArtContent
  title : String
  timeText : String
  toggleIcon : Icon
  analyserToDestination : Bool
  trace : List Effect
  deriving DecidableEq

namespace AudioElement

/-- Assignment to `audio.src`: the element takes the new address and runs the load algorithm
of the platform, which pauses the element and forgets position and duration. -/
def setSrc (url : String) (_a : AudioElement) : AudioElement :=
  { src := url, paused := true, currentTime := 0, duration := .nan }

end AudioElement

namespace Player

/-- The constructor with `render()` (lines 8-46): a new audio element, no graph, no track,
the bar hidden with its initial content, and a new renderer on the canvas. -/
def new (rect : Rect) (devicePixelRatio : ℚ) : Player :=
  { audio := { src := "", paused := true, currentTime := 0, duration := .nan }
    audioCtx := none
    analyser := none
    source := none
    waveform := WaveformRenderer.new rect devicePixelRatio
    currentSongId := none
    barHidden := true
    art := .placeholder
    title := "No song playing"
    timeText := "0:00"
    toggleIcon := .play
    analyserToDestination := false
    trace := [] }

/-- Appends a request to the trace. -/
def emit (e : Effect) (p : Player) : Player := { p with trace := p.trace ++ [e] }

/-- How many times the request `e` was made. -/
def count (e : Effect) (p : Player) : Nat := p.trace.count e

/-- Call `this.audio.play()`: a playback-start request; when the platform accepts it the element
is no longer paused. -/
def audioPlay (accepted : Bool) (p : Player) : Player :=
  emit .playRequested { p with audio := { p.audio with paused := p.audio.paused && !accepted } }

/-- Call `this.audio.pause()`: a pause request; the element is paused afterwards. -/
def audioPause (p : Player) : Player :=
  emit .pauseRequested { p with audio := { p.audio with paused := true } }

/-- Method `_initAudioCtx()` (lines 78-87).  A step the platform refuses throws and the steps
before it stay done. -/
def initAudioCtx (env : Platform) (p : Player) : Outcome Player :=
  if p.audioCtx.isSome then ⟨p, none⟩
  else if env.failAt = some .newContext then ⟨p, some .platformError⟩
  else
    let p1 := emit .contextCreated
      { p with audioCtx := some { id := p.count .contextCreated, state := env.contextState } }
    if env.failAt = some .createAnalyser then ⟨p1, some .platformError⟩
    else
      let node : AnalyserNode := { fftSize := 128 }
      let p2 := emit .analyserCreated { p1 with analyser := some node }
      if env.failAt = some .createSource then ⟨p2, some .platformError⟩
      else
        let p3 := emit .sourceCreated { p2 with source := some { toAnalyser := false } }
        if env.failAt = some .connectSource then ⟨p3, some .platformError⟩
        else
          let p4 := emit .sourceConnected { p3 with source := some { toAnalyser := true } }
          if env.failAt = some .connectDestination then ⟨p4, some .platformError⟩
          else
            let p5 := emit .analyserConnected { p4 with analyserToDestination := true }
            let o := p5.waveform.connectAnalyser node env.spectrum
            ⟨emit .rendererConnected { p5 with waveform := o.st }, o.err⟩

/-- The lines `if (this.audioCtx.state === 'suspended') this.audioCtx.resume();
this.audio.play();` that end both `play` and `togglePlay`. -/
def resumeAndPlay (env : Platform) (p : Player) : Outcome Player :=
  match p.audioCtx with
  | none => ⟨p, some .typeError⟩
  | some ctx =>
    let p1 := if ctx.state = .suspended then emit .resumeRequested p else p
    ⟨audioPlay env.playAccepted p1, none⟩

/-- The expression `title || 'Untitled'`; `none` is a `null` or missing title. -/
def titleOrUntitled : Option String → String
  | some t => if t = "" then "Untitled" else t
  | none => "Untitled"

/-- Method `play(songId, title, hasArt)` (lines 89-109). -/
def play (songId : Nat) (title : Option String) (hasArt : Bool) (env : Platform)
    (p : Player) : Outcome Player :=
  if p.currentSongId = some songId ∧ p.audio.paused = false then ⟨p, none⟩
  else
    let p1 := { p with barHidden := false }
    let p2 :=
      if p1.currentSongId ≠ some songId then
        let q := { p1 with
          currentSongId := some songId
          audio := p1.audio.setSrc (api.audioUrl songId)
          title := titleOrUntitled title }
        if hasArt then { q with art := .image (api.artUrl songId) } else q
      else p1
    let o := initAudioCtx env p2
    match o.err with
    | some e => ⟨o.st, some e⟩
    | none => resumeAndPlay env o.st

/-- Method `togglePlay()` (lines 111-120). -/
def togglePlay (env : Platform) (p : Player) : Outcome Player :=
  if p.audio.src = "" then ⟨p, none⟩
  else if p.audio.paused then
    let o := initAudioCtx env p
    match o.err with
    | some e => ⟨o.st, some e⟩
    | none => resumeAndPlay env o.st
  else ⟨audioPause p, none⟩

end Player

/-- The sequence that ends `play` (lines 106-108) and is repeated in the paused branch of
`togglePlay` (lines 114-116): build the graph if needed, resume a suspended context, issue
the playback-start request; an exception of the construction ends the sequence. -/
def Player.graphResumePlay (env : Platform) (p : Player) : Outcome Player :=
  match (p.initAudioCtx env).err with
  | some e => ⟨(p.initAudioCtx env).st, some e⟩
  | none => Player.resumeAndPlay env (p.initAudioCtx env).st

/-- The track binding of `play` (lines 94-104) for a track other than the current one. -/
def Player.bindTrack (songId : Nat) (title : Option String) (hasArt : Bool) (p : Player) :
    Player :=
  { p with
    barHidden := false
    currentSongId := some songId
    audio := p.audio.setSrc (api.audioUrl songId)
    title := Player.titleOrUntitled title
    art := if hasArt then .image (api.artUrl songId) else p.art }

/-- The graph objects are built at most once: each of the four constructions occurs at most
once in the trace, and not at all while `audioCtx` is null. -/
def Player.GraphOnce (p : Player) : Prop :=
  (p.audioCtx = none →
    p.count .contextCreated = 0 ∧ p.count .analyserCreated = 0 ∧
    p.count .sourceCreated = 0 ∧ p.count .rendererConnected = 0) ∧
  p.count .contextCreated ≤ 1 ∧ p.count .analyserCreated ≤ 1 ∧
  p.count .sourceCreated ≤ 1 ∧ p.count .rendererConnected ≤ 1

instance (p : Player) : Decidable p.GraphOnce := by
  unfold Player.GraphOnce
  infer_instance

/-- What can happen to a player between two notifications: one of its two commands, or the
platform changing what the commands read (the element starts or stops being paused, the
context changes state, the canvas is resized, a frame of the render loop runs). -/
inductive PlayerAction where
  | play (songId : Nat) (title : Option String) (hasArt : Bool) (env : Platform)
  | togglePlay (env : Platform)
  | audioPaused (paused : Bool)
  | contextState (state : ContextState)
  | resized (rect : Rect) (devicePixelRatio : ℚ)
  | frame (id : Nat) (spectrum : List Nat)

/-- Whether an action is a call of `play`. -/
def PlayerAction.isPlay : PlayerAction → Bool
  | .play _ _ _ _ => true
  | _ => false

/-- One action on a player. -/
def PlayerAction.apply (p : Player) : PlayerAction → Outcome Player
  | .play id t a env => p.play id t a env
  | .togglePlay env => p.togglePlay env
  | .audioPaused b => ⟨{ p with audio := { p.audio with paused := b } }, none⟩
  | .contextState st =>
    ⟨{ p with audioCtx := p.audioCtx.map fun c => { c with state := st } }, none⟩
  | .resized r d => ⟨{ p with waveform := p.waveform.resize r d }, none⟩
  | .frame id sp =>
    let o := p.waveform.tick id sp
    ⟨{ p with waveform := o.st }, o.err⟩

/-- A sequence of actions on a player; an exception ends the action that threw, not the
sequence. -/
def runPlayer (p : Player) : List PlayerAction → Player
  | [] => p
  | a :: as => runPlayer (a.apply p).st as

/-! ## Arithmetic on numbers -/

namespace JSNum

/-- Unary minus. -/
def neg : JSNum → JSNum
  | nan => nan
  | negInf => posInf
  | fin q => fin (-q)
  | posInf => negInf

/-- The `+` operator on numbers; opposite infinities add up to `NaN`. -/
def add : JSNum → JSNum → JSNum
  | nan, _ => nan
  | _, nan => nan
  | posInf, negInf => nan
  | negInf, posInf => nan
  | posInf, _ => posInf
  | _, posInf => posInf
  | negInf, _ => negInf
  | _, negInf => negInf
  | fin a, fin b => fin (a + b)

/-- The binary `-` operator on numbers. -/
def sub (a b : JSNum) : JSNum := add a (neg b)

/-- The infinity of the given sign. -/
def infOfSign (positive : Bool) : JSNum := if positive then posInf else negInf

/-- The `*` operator on numbers; zero times an infinity is `NaN`. -/
def mul : JSNum → JSNum → JSNum
  | nan, _ => nan
  | _, nan => nan
  | fin a, fin b => fin (a * b)
  | fin a, posInf => if a = 0 then nan else infOfSign (decide (0 < a))
  | fin a, negInf => if a = 0 then nan else infOfSign (decide (a < 0))
  | posInf, fin b => if b = 0 then nan else infOfSign (decide (0 < b))
  | negInf, fin b => if b = 0 then nan else infOfSign (decide (b < 0))
  | posInf, posInf => posInf
  | negInf, negInf => posInf
  | posInf, negInf => negInf
  | negInf, posInf => negInf

/-- The `/` operator on numbers.  A zero divisor counts as `+0` (the divisors of the modelled
code are a box width and a duration, which are never `-0`): `0/0` is `NaN` and `a/0` the
infinity of the sign of `a`. -/
def div : JSNum → JSNum → JSNum
  | nan, _ => nan
  | _, nan => nan
  | fin a, fin b =>
    if b = 0 then (if a = 0 then nan else infOfSign (decide (0 < a))) else fin (a / b)
  | fin _, posInf => fin 0
  | fin _, negInf => fin 0
  | posInf, fin b => infOfSign (decide (0 ≤ b))
  | negInf, fin b => infOfSign (decide (b < 0))
  | posInf, posInf => nan
  | posInf, negInf => nan
  | negInf, posInf => nan
  | negInf, negInf => nan

end JSNum

/-- The `%` operator on finite numbers with a non-zero divisor: the remainder has the sign of
the dividend, `a - n * trunc(a / n)`. -/
def jsRem (a n : ℚ) : ℚ := a - n * (if 0 ≤ a / n then ⌊a / n⌋ else ⌈a / n⌉)

/-- The call `s.padStart(2, '0')`: zeros in front of a string shorter than two characters. -/
def padStart2 (s : String) : String :=
  String.mk (List.replicate (2 - s.length) '0') ++ s

/-! ## Double-precision arithmetic

JavaScript numbers are IEEE 754 binary64 values.  A finite double is a rational number, and
an arithmetic operation returns the double nearest to its exact result.  The painting below
rounds where the outcome of a comparison, the sample index or the exact position of a bar
depends on it. -/

/-- The integer nearest to `x`; half-way between two integers, the even one. -/
def roundEven (x : ℚ) : ℤ :=
  if x - ⌊x⌋ < 1 / 2 then ⌊x⌋
  else if 1 / 2 < x - ⌊x⌋ then ⌊x⌋ + 1
  else if ⌊x⌋ % 2 = 0 then ⌊x⌋ else ⌊x⌋ + 1

/-- The double nearest to `q` (round to nearest, ties to even): with `2 ^ k <= |q| < 2 ^ (k+1)`
the multiple of `2 ^ (k - 52)` nearest to `q`, a significand of 53 bits.  The exponent is not
bounded: overflow to an infinity and the subnormal numbers are not modelled. -/
def toDouble (q : ℚ) : ℚ :=
  if q = 0 then 0 else roundEven (q / 2 ^ (Int.log 2 |q| - 52)) * 2 ^ (Int.log 2 |q| - 52)

/-! ## The painting of `_draw` (waveform.js lines 52-85) -/

/-- The two custom properties `_draw` reads from the computed style of the document, as
`getPropertyValue` returns them (the empty string when the property is not set). -/
structure Theme where
  accent : String
  textMuted : String

/-- The constant `accent` of `_draw`: the trimmed property, or `#6c5ce7` when that is
empty. -/
def Theme.accentColor (t : Theme) : String :=
  if t.accent.trim = "" then "#6c5ce7" else t.accent.trim

/-- The constant `muted` of `_draw`: the trimmed property, or `#666` when that is empty. -/
def Theme.mutedColor (t : Theme) : String :=
  if t.textMuted.trim = "" then "#666" else t.textMuted.trim

/-- One filled rounded rectangle: the arguments of `roundRect(x, y, barW, barH, 1)` and
the fill colour and opacity in force when `fill()` runs. -/
structure Bar where
  x : ℚ
  y : JSNum
  width : ℚ
  height : JSNum
  fillStyle : String
  globalAlpha : ℚ

/-- The part of the 2D context `_draw` writes: current fill colour, current opacity and
the rectangles filled since the surface was last cleared. -/
structure Canvas2D where
  fillStyle : String
  globalAlpha : ℚ
  rects : List Bar

namespace WaveformRenderer

/-- The constant `bars` of `_draw`. -/
def bars : Nat := 40

/-- The constant `gap` of `_draw`. -/
def gap : ℚ := 2

/-- The constant `barW` of `_draw` for a surface of logical width `w` (line 62): the
subtraction and the division are rounded; `gap * (bars - 1)` is the integer 78. -/
def barW (w : ℚ) : ℚ := toDouble (toDouble (w - gap * (bars - 1)) / bars)

/-- The variable `x` of bar `i` (line 65): the sum and the product are rounded. -/
def barX (w : ℚ) (i : Nat) : ℚ := toDouble (i * toDouble (barW w + gap))

/-- The variable `frac` of bar `i` (line 66): the double nearest to `i / 40`. -/
def frac (i : Nat) : ℚ := toDouble (i / bars)

/-- The index `Math.floor(frac * this.data.length)` for a buffer of `n` buckets (line 70);
the product is rounded before the floor is taken. -/
def sampleIndex (i n : Nat) : Nat := ⌊toDouble (frac i * n)⌋.toNat

/-- The live height `(this.data[idx] / 255) * h * 0.9 + h * 0.1` for the byte `b`, in exact
arithmetic (the rounding of this height is not modelled). -/
def liveBarH (b h : ℚ) : ℚ := b / 255 * h * (9 / 10) + h * (1 / 10)

/-- The factor `0.15 + 0.2 * Math.sin(frac * Math.PI)` of line 73 for the value `sine` of the
sine: the literals are the doubles nearest to 0.15 and 0.2, product and sum are rounded. -/
def idleFactor (sine : ℚ) : ℚ :=
  toDouble (toDouble (15 / 100) + toDouble (toDouble (2 / 10) * sine))

/-- The idle height `h * (0.15 + 0.2 * Math.sin(frac * Math.PI))` of line 73, given the value
`sine` of the sine. -/
def idleBarH (sine h : ℚ) : ℚ := toDouble (h * idleFactor sine)

/-- The values of `Math.sin(frac * Math.PI)` for the forty fractions `frac = i / 40` of
`_draw`, in the order of the bars.  `frac * Math.PI` is the rounded product of the double
`frac` and the double nearest to pi; the sine is the double nearest to the sine of that
argument.  The port of fdlibm that V8 uses returns these values at these forty arguments. -/
def sinPiTable : List ℚ :=
  [0, -- bar 0: 0.0
   5653573668539977 / 72057594037927936, -- bar 1: 0.07845909572784494
   5636145587704693 / 36028797018963968, -- bar 2: 0.15643446504023087
   8410755629382603 / 36028797018963968, -- bar 3: 0.2334453638559054
   5566755282872655 / 18014398509481984, -- bar 4: 0.3090169943749474
   6893811853601123 / 18014398509481984, -- bar 5: 0.3826834323650898
   15973370667631 / 35184372088832, -- bar 6: 0.45399049973954675
   1176562170678183 / 2251799813685248, -- bar 7: 0.5224985647159488
   2647149443198255 / 4503599627370496, -- bar 8: 0.5877852522924731
   2924853988456311 / 4503599627370496, -- bar 9: 0.6494480483301837
   1592262918131443 / 2251799813685248, -- bar 10: 0.7071067811865475
   1712282011663301 / 2251799813685248, -- bar 11: 0.760405965600031
   910872158600853 / 1125899906842624, -- bar 12: 0.8090169943749475
   119998435202069 / 140737488355328, -- bar 13: 0.8526401643540922
   2006368325159707 / 2251799813685248, -- bar 14: 0.8910065241883678
   4160783518353059 / 4503599627370496, -- bar 15: 0.9238795325112867
   8566355544790271 / 9007199254740992, -- bar 16: 0.9510565162951535
   4379164811169255 / 4503599627370496, -- bar 17: 0.9723699203976766
   2224076421331223 / 2251799813685248, -- bar 18: 0.9876883405951378
   8979433065439407 / 9007199254740992, -- bar 19: 0.996917333733128
   1, -- bar 20: 1.0
   8979433065439407 / 9007199254740992, -- bar 21: 0.996917333733128
   8896305685324891 / 9007199254740992, -- bar 22: 0.9876883405951377
   8758329622338511 / 9007199254740992, -- bar 23: 0.9723699203976767
   33462326346837 / 35184372088832, -- bar 24: 0.9510565162951536
   4160783518353059 / 4503599627370496, -- bar 25: 0.9238795325112867
   8025473300638829 / 9007199254740992, -- bar 26: 0.8910065241883679
   7679899852932417 / 9007199254740992, -- bar 27: 0.8526401643540923
   910872158600853 / 1125899906842624, -- bar 28: 0.8090169943749475
   1712282011663301 / 2251799813685248, -- bar 29: 0.760405965600031
   6369051672525773 / 9007199254740992, -- bar 30: 0.7071067811865476
   5849707976912623 / 9007199254740992, -- bar 31: 0.6494480483301838
   5294298886396511 / 9007199254740992, -- bar 32: 0.5877852522924732
   4706248682712733 / 9007199254740992, -- bar 33: 0.5224985647159489
   4089182890913537 / 9007199254740992, -- bar 34: 0.45399049973954686
   6893811853601125 / 18014398509481984, -- bar 35: 0.3826834323650899
   5566755282872657 / 18014398509481984, -- bar 36: 0.3090169943749475
   525672226836413 / 2251799813685248, -- bar 37: 0.23344536385590553
   5636145587704697 / 36028797018963968, -- bar 38: 0.15643446504023098
   2826786834269993 / 36028797018963968] -- bar 39: 0.07845909572784507

/-- The platform function `frac => Math.sin(frac * Math.PI)` on the fractions of `_draw`: the
entry of `sinPiTable` for the bar whose fraction is `f`.  `_draw` calls it on no other
argument. -/
def mathSinPi (f : ℚ) : ℚ := sinPiTable.getD ⌊40 * f + 1 / 2⌋.toNat 0

/-- The variable `barH` of bar `i`.  `sinPi frac` is the value the platform returns for
`Math.sin(frac * Math.PI)` (`mathSinPi` on a real platform); a read past the end of the
buffer gives `undefined`, which the arithmetic turns into `NaN`. -/
def barH (sinPi : ℚ → ℚ) (c : DrawCall) (i : Nat) : JSNum :=
  if c.live then
    match c.data with
    | some d =>
      match d[sampleIndex i d.length]? with
      | some b => .fin (liveBarH b c.h)
      | none => .nan
    | none => .nan
  else .fin (idleBarH (sinPi (frac i)) c.h)

/-- One turn of the loop of `_draw` (lines 64-82) for bar `i`.  The comparison
`frac <= this.progress` is between the double `frac` and the stored progress. -/
def paintBar (theme : Theme) (sinPi : ℚ → ℚ) (c : DrawCall) (ctx : Canvas2D) (i : Nat) :
    Canvas2D :=
  let reached := JSNum.le (.fin (frac i)) c.progress
  let ctx1 := { ctx with fillStyle := if reached then theme.accentColor else theme.mutedColor }
  let ctx2 := { ctx1 with globalAlpha := if reached then 1 else 3 / 10 }
  { ctx2 with rects := ctx2.rects ++
      [{ x := barX c.w i
         y := JSNum.div (JSNum.sub (.fin c.h) (barH sinPi c i)) (.fin 2)
         width := barW c.w
         height := barH sinPi c i
         fillStyle := ctx2.fillStyle
         globalAlpha := ctx2.globalAlpha }] }

/-- What a call of `_draw` does to the 2D context, for the renderer fields recorded in `c`:
clear the surface, paint the bars in order, reset the opacity to 1 (lines 52-85). -/
def paint (theme : Theme) (sinPi : ℚ → ℚ) (c : DrawCall) (ctx : Canvas2D) : Canvas2D :=
  let cleared := { ctx with rects := [] }
  let painted := (List.range bars).foldl (paintBar theme sinPi c) cleared
  { painted with globalAlpha := 1 }

/-- The bar `_draw` paints at position `i`: geometry from the width, height from the data or
the idle pattern, colour and opacity from the comparison of `frac` with the progress. -/
def barAt (theme : Theme) (sinPi : ℚ → ℚ) (c : DrawCall) (i : Nat) : Bar :=
  { x := barX c.w i
    y := JSNum.div (JSNum.sub (.fin c.h) (barH sinPi c i)) (.fin 2)
    width := barW c.w
    height := barH sinPi c i
    fillStyle := if JSNum.le (.fin (frac i)) c.progress then theme.accentColor
      else theme.mutedColor
    globalAlpha := if JSNum.le (.fin (frac i)) c.progress then 1 else 3 / 10 }

end WaveformRenderer

/-! ## The notification handlers of the player (player.js lines 48-76, 122-126) -/

namespace AudioElement

/-- Assignment to `audio.currentTime`: the element takes the requested position; a value
that is not finite is refused with a `TypeError`.  The bounding of the position the
platform then seeks to is not modelled. -/
def setCurrentTime (v : JSNum) (a : AudioElement) : Outcome AudioElement :=
  match v with
  | .fin q => ⟨{ a with currentTime := q }, none⟩
  | _ => ⟨a, some .typeError⟩

end AudioElement

namespace Player

/-- Method `_fmt(s)` (lines 122-126).  Times are exact rationals and integers print as
decimal numerals. -/
def fmt (s : ℚ) : String :=
  let m : Int := ⌊s / 60⌋
  let sec : Int := ⌊jsRem s 60⌋
  toString m ++ ":" ++ padStart2 (toString sec)

/-- The `timeupdate` listener (lines 51-56). -/
def onTimeUpdate (p : Player) : Outcome Player :=
  if p.audio.duration.truthy then
    let o := p.waveform.setProgress (JSNum.div (.fin p.audio.currentTime) p.audio.duration)
    match o.err with
    | some e => ⟨{ p with waveform := o.st }, some e⟩
    | none => ⟨{ p with waveform := o.st, timeText := fmt p.audio.currentTime }, none⟩
  else ⟨p, none⟩

/-- The `click` listener of the canvas (lines 70-75) for a click at `clientX` while the
canvas occupies `rect`. -/
def onCanvasClick (clientX : ℚ) (rect : Rect) (p : Player) : Outcome Player :=
  if p.audio.duration.truthy = false then ⟨p, none⟩
  else
    let fraction := JSNum.div (.fin (clientX - rect.left)) (.fin rect.width)
    let o := p.audio.setCurrentTime (JSNum.mul fraction p.audio.duration)
    ⟨{ p with audio := o.st }, o.err⟩

/-- A click of the pointer at the horizontal position `clientX` while the canvas occupies
`rect`.  The listener of lines 70-75 is registered on the canvas element (line 70) and
nothing in the code dispatches a click of its own, so the platform runs the listener only
for a click that hits the box of the canvas, from its left edge up to but not including its
right edge; a click elsewhere runs no code of the player.  Only the horizontal coordinate is
modelled. -/
def pointerClick (clientX : ℚ) (rect : Rect) (p : Player) : Outcome Player :=
  if rect.left ≤ clientX ∧ clientX < rect.left + rect.width then p.onCanvasClick clientX rect
  else ⟨p, none⟩

end Player

/-- A player in the middle of a track: song 7 bound and playing, 10 seconds into its 100
seconds, otherwise as constructed. -/
def Player.midTrack : Player :=
  { Player.new ⟨0, 400, 100⟩ 1 with
    audio := { src := api.audioUrl 7, paused := false, currentTime := 10, duration := .fin 100 }
    currentSongId := some 7
    barHidden := false
    title := "Song B" }

/-- The two-digit numeral of `n`: the digit of the tens, then the digit of the units. -/
def twoDigits (n : Nat) : String := String.mk [Nat.digitChar (n / 10), Nat.digitChar (n % 10)]

/-! ## The remaining listeners and the module interface (player.js lines 58-68, 129-138) -/

namespace Player

/-- The `ended` listener (lines 58-60). -/
def onEnded (p : Player) : Outcome Player := ⟨{ p with toggleIcon := .play }, none⟩

/-- The `play` listener (lines 62-64). -/
def onPlay (p : Player) : Outcome Player := ⟨{ p with toggleIcon := .pause }, none⟩

/-- The `pause` listener (lines 66-68). -/
def onPause (p : Player) : Outcome Player := ⟨{ p with toggleIcon := .play }, none⟩

end Player

/-- Everything that runs code of the player or changes what that code reads: the actions
of `PlayerAction` (the two commands and the changes made by the platform) and the five
listeners bound in `_bindEvents`. -/
inductive PlayerEvent where
  | action (a : PlayerAction)
  | timeupdate
  | played
  | paused
  | ended
  | canvasClick (clientX : ℚ) (rect : Rect)

/-- One event on a player. -/
def PlayerEvent.apply (p : Player) : PlayerEvent → Outcome Player
  | .action a => a.apply p
  | .timeupdate => p.onTimeUpdate
  | .played => p.onPlay
  | .paused => p.onPause
  | .ended => p.onEnded
  | .canvasClick x rect => p.onCanvasClick x rect

/-- What the caller of a method that returns no value receives: the normal return (of
`undefined`) or the exception. -/
def Outcome.completion {σ : Type} (o : Outcome σ) : Except JSError Unit :=
  match o.err with
  | none => .ok ()
  | some e => .error e

/-- The module state of player.js: the players constructed so far (a handle is the position
of its player in `heap`) and the variable `instance` (line 129), `none` for `null`. -/
structure PlayerModule where
  heap : List Player
  instanceRef : Option Nat

namespace PlayerModule

/-- The module as loaded: `let instance = null`. -/
def loaded : PlayerModule := { heap := [], instanceRef := none }

/-- Function `initPlayer(container)` (lines 131-134): constructs a player on the container
(whose canvas has the given box and pixel density), stores it in `instance` and returns
it. -/
def initPlayer (rect : Rect) (devicePixelRatio : ℚ) (m : PlayerModule) : Nat × PlayerModule :=
  (m.heap.length,
   { heap := m.heap ++ [Player.new rect devicePixelRatio], instanceRef := some m.heap.length })

/-- Function `getPlayer()` (lines 136-138): returns `instance`. -/
def getPlayer (m : PlayerModule) : Option Nat × PlayerModule := (m.instanceRef, m)

end PlayerModule

/-- The audio graph is fully built: a context exists, the analyser has transform size 128,
the source feeds the analyser, the analyser feeds the destination, and the renderer holds
the analyser and a loop handle. -/
def Player.GraphBuilt (p : Player) : Prop :=
  p.audioCtx ≠ none ∧ p.analyser = some { fftSize := 128 } ∧
  p.source = some { toAnalyser := true } ∧ p.analyserToDestination = true ∧
  p.waveform.analyser = some { fftSize := 128 } ∧ p.waveform.animId ≠ none

instance (p : Player) : Decidable p.GraphBuilt := by
  unfold Player.GraphBuilt
  infer_instance

end Squalus

/-! ## Theorems: WaveformRenderer -/

namespace Squalus

open WaveformRenderer

theorem mathMax_mathMin_fin (q : ℚ) :
    JSNum.mathMax 0 (JSNum.mathMin 1 (.fin q)) = .fin (max 0 (min 1 q)) := by
  show JSNum.mathMax (.fin 0) (JSNum.mathMin (.fin 1) (.fin q)) = _
  by_cases h1 : q < 1
  · have hm : min 1 q = q := min_eq_right h1.le
    by_cases h0 : 0 < q
    · simp [JSNum.mathMax, JSNum.mathMin, JSNum.lt, h1, h0, hm, max_eq_right h0.le]
    · have h0' : q ≤ 0 := not_lt.mp h0
      simp [JSNum.mathMax, JSNum.mathMin, JSNum.lt, h1, h0, hm, max_eq_left h0']
  · have h1' : 1 ≤ q := not_lt.mp h1
    simp [JSNum.mathMax, JSNum.mathMin, JSNum.lt, h1, min_eq_left h1']

theorem setProgress_progress (p : JSNum) (s : WaveformRenderer) :
    (s.setProgress p).st.progress = JSNum.mathMax 0 (JSNum.mathMin 1 p) := by
  unfold setProgress
  cases h : s.animId with
  | none => simp [h, draw]
  | some id => by_cases hid : id = 0 <;> simp [h, hid, draw]

theorem setProgress_nan (s : WaveformRenderer) :
    (s.setProgress .nan).st.progress = .nan := by
  rw [setProgress_progress]; rfl

/-- C1. For every number `f` other than `NaN`, `setProgress(f)` stores `clamp(f, 0, 1)`:
`0` when `f < 0`, `f` itself when `0 <= f <= 1`, `1` when `f > 1`; for a finite `f = q` that
is `max 0 (min 1 q)`; the stored progress always lies in `[0, 1]`. -/
theorem setProgress_clamps (f : JSNum) (s : WaveformRenderer) (hf : f ≠ JSNum.nan) :
    (f.lt 0 = true → (s.setProgress f).st.progress = 0) ∧
    (JSNum.le 0 f = true → f.le 1 = true → (s.setProgress f).st.progress = f) ∧
    (JSNum.lt 1 f = true → (s.setProgress f).st.progress = 1) ∧
    (∀ q : ℚ, f = .fin q → (s.setProgress f).st.progress = .fin (max 0 (min 1 q))) ∧
    JSNum.le 0 (s.setProgress f).st.progress = true ∧
    (s.setProgress f).st.progress.le 1 = true := by
  rw [setProgress_progress]
  cases f with
  | nan => exact absurd rfl hf
  | negInf =>
    refine ⟨fun _ => rfl, fun h => ?_, fun h => ?_, fun q h => ?_, rfl, ?_⟩
    · exact absurd h (by decide)
    · exact absurd h (by decide)
    · exact absurd h (by simp)
    · decide
  | posInf =>
    refine ⟨fun h => ?_, fun _ h => ?_, fun _ => rfl, fun q h => ?_, ?_, ?_⟩
    · exact absurd h (by decide)
    · exact absurd h (by decide)
    · exact absurd h (by simp)
    · decide
    · decide
  | fin q =>
    rw [mathMax_mathMin_fin]
    refine ⟨fun h => ?_, fun h0 h1 => ?_, fun h => ?_, fun q' h => ?_, ?_, ?_⟩
    · have hq : q < 0 := by simpa [JSNum.lt] using h
      have : max 0 (min 1 q) = 0 := max_eq_left ((min_le_right 1 q).trans hq.le)
      rw [this]; rfl
    · have hq0 : 0 ≤ q := by simpa [JSNum.le] using h0
      have hq1 : q ≤ 1 := by simpa [JSNum.le] using h1
      rw [min_eq_right hq1, max_eq_right hq0]
    · have hq : 1 < q := by simpa [JSNum.lt] using h
      rw [min_eq_left hq.le, max_eq_right zero_le_one]; rfl
    · cases h; rfl
    · show JSNum.le (.fin 0) (.fin (max 0 (min 1 q))) = true
      simp [JSNum.le]
    · show JSNum.le (.fin (max 0 (min 1 q))) (.fin 1) = true
      simp [JSNum.le]

/-- Witness of C1 at `f = 3/2` on a new renderer: the stored progress is `1`. -/
theorem setProgress_clamps_witness :
    JSNum.fin (3 / 2) ≠ JSNum.nan ∧
    ((WaveformRenderer.new ⟨0, 400, 100⟩ 1).setProgress (.fin (3 / 2))).st.progress = 1 :=
  ⟨by simp, (setProgress_clamps (.fin (3 / 2)) _ (by simp)).2.2.1 (by simp [JSNum.lt]; norm_num)⟩

end Squalus

namespace Squalus

open WaveformRenderer

theorem disconnect_st (s : WaveformRenderer) :
    s.disconnect.st =
      { s with
        analyser := none
        data := none
        animId := none
        frames := match s.animId with
          | some id => if id ≠ 0 then s.frames.filter (fun f => f ≠ id) else s.frames
          | none => s.frames
        draws := s.draws ++ [idleDraw s] } := by
  unfold disconnect
  cases h : s.animId with
  | none => simp [h, draw, idleDraw]
  | some id =>
    by_cases hid : id = 0
    · simp [h, hid, draw, idleDraw]
    · simp [h, hid, draw, idleDraw, cancelAnimationFrame]

theorem afterDisconnect_of_idle (t : WaveformRenderer) (ha : t.analyser = none)
    (hd : t.data = none) (hi : t.animId = none) :
    afterDisconnect t = { t with draws := t.draws ++ [idleDraw t] } := by
  unfold afterDisconnect
  rw [disconnect_st]
  cases t
  simp_all

theorem connectAnalyser_st (a : AnalyserNode) (sp : List Nat) (s : WaveformRenderer) :
    (s.connectAnalyser a sp).st =
      { s with
        analyser := some a
        data := some (a.getByteFrequencyData sp (List.replicate a.frequencyBinCount 0))
        reads := s.reads + 1
        draws := s.draws ++
          [{ live := true
             data := some (a.getByteFrequencyData sp (List.replicate a.frequencyBinCount 0))
             progress := s.progress, w := s.w, h := s.h }]
        lastHandle := s.lastHandle + 1
        frames := s.frames ++ [s.lastHandle + 1]
        animId := some (s.lastHandle + 1) } ∧
    (s.connectAnalyser a sp).err = none := by
  simp [connectAnalyser, animate, draw, requestAnimationFrame]

/-- C8. From every renderer state `disconnect()` returns without an exception, leaves
`analyser`, `data` and `animId` null, removes the frame `animId` names from the scheduled
frames and schedules none, and performs exactly one draw, in idle mode.  So
`connectAnalyser` followed by `disconnect` on a renderer with no frame scheduled leaves no
frame scheduled, a null handle and one idle draw after the draws of the connection; and
`k + 1` calls in a row leave the state of one call with `k + 1` idle draws. -/
theorem disconnect_postcondition (s : WaveformRenderer) (a : AnalyserNode) (sp : List Nat)
    (k : Nat) :
    s.disconnect.err = none ∧
    s.disconnect.st.analyser = none ∧ s.disconnect.st.data = none ∧
    s.disconnect.st.animId = none ∧
    (∀ id, s.animId = some id → id ≠ 0 → id ∉ s.disconnect.st.frames) ∧
    (∀ id, id ∈ s.disconnect.st.frames → id ∈ s.frames) ∧
    s.disconnect.st.draws = s.draws ++ [idleDraw s] ∧ (idleDraw s).live = false ∧
    (s.frames = [] →
      (s.connectAnalyser a sp).st.disconnect.st.frames = [] ∧
      (s.connectAnalyser a sp).st.disconnect.st.animId = none ∧
      (s.connectAnalyser a sp).st.disconnect.st.draws =
        (s.connectAnalyser a sp).st.draws ++ [idleDraw s]) ∧
    afterDisconnect^[k + 1] s =
      { afterDisconnect s with draws := s.draws ++ List.replicate (k + 1) (idleDraw s) } := by
  refine ⟨rfl, by rw [disconnect_st], by rw [disconnect_st], by rw [disconnect_st],
    ?_, ?_, by rw [disconnect_st], rfl, ?_, ?_⟩
  · intro id h hid
    rw [disconnect_st]
    simp [h, hid]
  · intro id
    rw [disconnect_st]
    cases h : s.animId with
    | none => simp
    | some j =>
      by_cases hj : j = 0
      · simp [hj]
      · simp only [ne_eq, hj, not_false_eq_true, if_true]
        intro hmem
        exact (List.mem_filter.mp hmem).1
  · intro hf
    rw [disconnect_st, (connectAnalyser_st a sp s).1]
    simp [hf, idleDraw]
  · induction k with
    | zero =>
      simp only [zero_add, Function.iterate_one, List.replicate_one]
      unfold afterDisconnect
      rw [disconnect_st]
    | succ n ih =>
      rw [Function.iterate_succ_apply', ih, afterDisconnect_of_idle]
      · simp only [List.replicate_succ' (n + 1), List.append_assoc]
        unfold afterDisconnect
        rw [disconnect_st]
        simp [idleDraw]
      · unfold afterDisconnect; rw [disconnect_st]
      · unfold afterDisconnect; rw [disconnect_st]
      · unfold afterDisconnect; rw [disconnect_st]

end Squalus

namespace Squalus

open WaveformRenderer

/-- Witness of C8: on a new renderer, connecting and disconnecting leaves no frame
scheduled. -/
theorem disconnect_postcondition_witness :
    (WaveformRenderer.new ⟨0, 400, 100⟩ 1).frames = [] ∧
    ((WaveformRenderer.new ⟨0, 400, 100⟩ 1).connectAnalyser ⟨128⟩ []).st.disconnect.st.frames
      = [] :=
  ⟨rfl, ((disconnect_postcondition (WaveformRenderer.new ⟨0, 400, 100⟩ 1) ⟨128⟩ []
    0).2.2.2.2.2.2.2.2.1 rfl).1⟩

theorem setProgress_frame (p : JSNum) (s : WaveformRenderer) :
    (s.setProgress p).err = none ∧ (s.setProgress p).st.animId = s.animId ∧
    (s.setProgress p).st.analyser = s.analyser ∧ (s.setProgress p).st.data = s.data := by
  unfold setProgress
  cases h : s.animId with
  | none => simp [h, draw]
  | some id => by_cases hid : id = 0 <;> simp [h, hid, draw]

theorem animate_inv (sp : List Nat) (s : WaveformRenderer)
    (h1 : s.animId ≠ none ↔ s.analyser ≠ none) (h2 : s.analyser ≠ none → s.data ≠ none) :
    (s.animate sp).err = none ∧
    ((s.animate sp).st.animId ≠ none ↔ (s.animate sp).st.analyser ≠ none) ∧
    ((s.animate sp).st.analyser ≠ none → (s.animate sp).st.data ≠ none) := by
  unfold animate
  cases ha : s.analyser with
  | none => simp [ha] at h1 ⊢; exact h1
  | some a =>
    cases hd : s.data with
    | none => simp [ha, hd] at h2
    | some d => simp [requestAnimationFrame, draw]

theorem rendererAction_inv (a : RendererAction) (s : WaveformRenderer)
    (h1 : s.animId ≠ none ↔ s.analyser ≠ none) (h2 : s.analyser ≠ none → s.data ≠ none) :
    (a.apply s).err = none ∧
    ((a.apply s).st.animId ≠ none ↔ (a.apply s).st.analyser ≠ none) ∧
    ((a.apply s).st.analyser ≠ none → (a.apply s).st.data ≠ none) := by
  cases a with
  | connectAnalyser n sp =>
    simp only [RendererAction.apply]
    rw [(connectAnalyser_st n sp s).1, (connectAnalyser_st n sp s).2]
    simp
  | disconnect =>
    simp only [RendererAction.apply]
    rw [disconnect_st]
    simp [disconnect]
  | setProgress p =>
    obtain ⟨e, f1, f2, f3⟩ := setProgress_frame p s
    simp only [RendererAction.apply]
    rw [e, f1, f2, f3]
    exact ⟨rfl, h1, h2⟩
  | resize r d =>
    simpa [RendererAction.apply, resize, draw] using ⟨h1, h2⟩
  | tick id sp =>
    simp only [RendererAction.apply, tick]
    by_cases hm : id ∈ s.frames
    · simp only [hm, if_true]
      exact animate_inv sp _ h1 h2
    · simpa [hm] using ⟨h1, h2⟩

theorem runRenderer_inv (acts : List RendererAction) (s : WaveformRenderer)
    (h1 : s.animId ≠ none ↔ s.analyser ≠ none) (h2 : s.analyser ≠ none → s.data ≠ none) :
    (runRenderer s acts).2 = false ∧
    ((runRenderer s acts).1.animId ≠ none ↔ (runRenderer s acts).1.analyser ≠ none) := by
  induction acts generalizing s with
  | nil => exact ⟨rfl, h1⟩
  | cons a as ih =>
    obtain ⟨he, i1, i2⟩ := rendererAction_inv a s h1 h2
    obtain ⟨j1, j2⟩ := ih (a.apply s).st i1 i2
    simp only [runRenderer, he, j1, Option.isSome_none, Bool.or_self, true_and]
    exact j2

/-- C9. Whatever sequence of `connectAnalyser`, `disconnect`, `setProgress`, resize
notifications and frames runs on a newly constructed renderer, no call throws and in the
state reached `animId` is non-null if and only if `analyser` is non-null. -/
theorem animId_iff_analyser (rect : Rect) (devicePixelRatio : ℚ)
    (acts : List RendererAction) :
    (runRenderer (WaveformRenderer.new rect devicePixelRatio) acts).2 = false ∧
    ((runRenderer (WaveformRenderer.new rect devicePixelRatio) acts).1.animId ≠ none ↔
      (runRenderer (WaveformRenderer.new rect devicePixelRatio) acts).1.analyser ≠ none) :=
  runRenderer_inv acts _ (by simp [WaveformRenderer.new, resize, draw])
    (by simp [WaveformRenderer.new, resize, draw])

/-- C10, as stated, fails: on a new renderer a second `connectAnalyser` with no `disconnect`
in between leaves two scheduled frames, not one. -/
theorem double_connect_schedules_two_frames :
    (((WaveformRenderer.new ⟨0, 400, 100⟩ 1).connectAnalyser ⟨128⟩ []).st.connectAnalyser
      ⟨128⟩ []).st.frames = [1, 2] ∧
    (((WaveformRenderer.new ⟨0, 400, 100⟩ 1).connectAnalyser ⟨128⟩ []).st.connectAnalyser
      ⟨128⟩ []).st.frames.length ≠ 1 := by
  constructor <;> decide

/-- C10, amended.  On a renderer with no frame scheduled, one `connectAnalyser` schedules
exactly one frame; a second one without `disconnect` schedules a further frame and cancels
none, so two are scheduled, `animId` names the newer, and after the older frame has run two
are still scheduled; with a `disconnect` between the two calls exactly one is scheduled. -/
theorem connectAnalyser_twice (s : WaveformRenderer) (a b : AnalyserNode)
    (sp sq sr : List Nat) (h : s.frames = []) :
    (s.connectAnalyser a sp).st.frames = [s.lastHandle + 1] ∧
    ((s.connectAnalyser a sp).st.connectAnalyser b sq).st.frames
      = [s.lastHandle + 1, s.lastHandle + 2] ∧
    ((s.connectAnalyser a sp).st.connectAnalyser b sq).st.animId = some (s.lastHandle + 2) ∧
    ((((s.connectAnalyser a sp).st.connectAnalyser b sq).st.tick (s.lastHandle + 1)
      sr).st.frames = [s.lastHandle + 2, s.lastHandle + 3]) ∧
    ((s.connectAnalyser a sp).st.disconnect.st.connectAnalyser b sq).st.frames
      = [s.lastHandle + 2] := by
  refine ⟨?_, ?_, ?_, ?_, ?_⟩
  · rw [(connectAnalyser_st a sp s).1]; simp [h]
  · rw [(connectAnalyser_st b sq _).1, (connectAnalyser_st a sp s).1]; simp [h]
  · rw [(connectAnalyser_st b sq _).1, (connectAnalyser_st a sp s).1]
  · rw [(connectAnalyser_st b sq _).1, (connectAnalyser_st a sp s).1]
    simp [h, tick, animate, draw, requestAnimationFrame]
  · rw [(connectAnalyser_st b sq _).1, disconnect_st, (connectAnalyser_st a sp s).1]
    simp [h]

/-- Witness of the amended C10 on a new renderer. -/
theorem connectAnalyser_twice_witness :
    (WaveformRenderer.new ⟨0, 400, 100⟩ 1).frames = [] ∧
    (((WaveformRenderer.new ⟨0, 400, 100⟩ 1).connectAnalyser ⟨128⟩
      []).st.disconnect.st.connectAnalyser ⟨128⟩ []).st.frames
      = [(WaveformRenderer.new ⟨0, 400, 100⟩ 1).lastHandle + 2] :=
  ⟨rfl, (connectAnalyser_twice (WaveformRenderer.new ⟨0, 400, 100⟩ 1) ⟨128⟩ ⟨128⟩ [] [] []
    rfl).2.2.2.2⟩

end Squalus

/-! ## Theorems: Player -/

namespace Squalus

open Player

theorem connectAnalyser_err (a : AnalyserNode) (sp : List Nat) (s : WaveformRenderer) :
    (s.connectAnalyser a sp).err = none := (connectAnalyser_st a sp s).2

theorem initAudioCtx_of_built (env : Platform) (p : Player) (h : p.audioCtx ≠ none) :
    p.initAudioCtx env = ⟨p, none⟩ := by
  unfold initAudioCtx
  cases hc : p.audioCtx with
  | none => exact absurd hc h
  | some c => simp

theorem initAudioCtx_frame (env : Platform) (p : Player) :
    (p.initAudioCtx env).st.audio = p.audio ∧
    (p.initAudioCtx env).st.currentSongId = p.currentSongId ∧
    (p.initAudioCtx env).st.title = p.title ∧
    (p.initAudioCtx env).st.art = p.art ∧
    (p.initAudioCtx env).st.barHidden = p.barHidden ∧
    (p.initAudioCtx env).st.timeText = p.timeText ∧
    (p.initAudioCtx env).st.toggleIcon = p.toggleIcon ∧
    (p.initAudioCtx env).st.count .playRequested = p.count .playRequested ∧
    (p.initAudioCtx env).st.count .pauseRequested = p.count .pauseRequested ∧
    (p.initAudioCtx env).st.count .resumeRequested = p.count .resumeRequested := by
  unfold initAudioCtx
  split_ifs <;> simp [emit, count]

theorem initAudioCtx_err (env : Platform) (p : Player) :
    ((p.initAudioCtx env).err = none → (p.initAudioCtx env).st.audioCtx ≠ none) ∧
    (env.failAt = none → (p.initAudioCtx env).err = none) := by
  unfold initAudioCtx
  split_ifs with h1 h2 h3 h4 h5 h6
  · refine ⟨fun _ => ?_, fun _ => rfl⟩
    cases hc : p.audioCtx with
    | none => simp [hc] at h1
    | some c => simp
  all_goals simp_all [emit, connectAnalyser_err]

end Squalus

namespace Squalus

open Player

theorem play_eq (songId : Nat) (title : Option String) (hasArt : Bool) (env : Platform)
    (p : Player) :
    p.play songId title hasArt env =
      if p.currentSongId = some songId ∧ p.audio.paused = false then ⟨p, none⟩
      else if p.currentSongId = some songId then
        graphResumePlay env { p with barHidden := false }
      else graphResumePlay env (bindTrack songId title hasArt p) := by
  unfold play graphResumePlay bindTrack
  by_cases hg : p.currentSongId = some songId ∧ p.audio.paused = false
  · simp only [hg, and_self, if_true]
  · simp only [hg, if_false]
    by_cases hc : p.currentSongId = some songId
    · simp only [hc, ne_eq, not_true_eq_false, if_false, if_true]
    · simp only [hc, ne_eq, not_false_eq_true, if_true, if_false]
      cases hasArt <;> rfl

theorem play_same (songId : Nat) (title : Option String) (hasArt : Bool) (env : Platform)
    (p : Player) (hg : ¬(p.currentSongId = some songId ∧ p.audio.paused = false))
    (hc : p.currentSongId = some songId) :
    p.play songId title hasArt env = graphResumePlay env { p with barHidden := false } := by
  rw [play_eq, if_neg hg, if_pos hc]

theorem play_other (songId : Nat) (title : Option String) (hasArt : Bool) (env : Platform)
    (p : Player) (hc : p.currentSongId ≠ some songId) :
    p.play songId title hasArt env = graphResumePlay env (bindTrack songId title hasArt p) := by
  rw [play_eq, if_neg (fun h => hc h.1), if_neg hc]

theorem togglePlay_eq (env : Platform) (p : Player) :
    p.togglePlay env =
      if p.audio.src = "" then ⟨p, none⟩
      else if p.audio.paused = true then graphResumePlay env p
      else ⟨audioPause p, none⟩ := rfl

theorem resumeAndPlay_frame (env : Platform) (p : Player) :
    (resumeAndPlay env p).st.audio.src = p.audio.src ∧
    (resumeAndPlay env p).st.currentSongId = p.currentSongId ∧
    (resumeAndPlay env p).st.title = p.title ∧
    (resumeAndPlay env p).st.art = p.art ∧
    (resumeAndPlay env p).st.barHidden = p.barHidden ∧
    (resumeAndPlay env p).st.audioCtx = p.audioCtx ∧
    (resumeAndPlay env p).st.count .pauseRequested = p.count .pauseRequested ∧
    (resumeAndPlay env p).st.count .contextCreated = p.count .contextCreated ∧
    (resumeAndPlay env p).st.count .analyserCreated = p.count .analyserCreated ∧
    (resumeAndPlay env p).st.count .sourceCreated = p.count .sourceCreated ∧
    (resumeAndPlay env p).st.count .rendererConnected = p.count .rendererConnected := by
  unfold resumeAndPlay
  cases hc : p.audioCtx with
  | none => simp [hc]
  | some c =>
    by_cases hs : c.state = .suspended <;> simp [hs, hc, audioPlay, emit, count]

theorem resumeAndPlay_ok (env : Platform) (p : Player) (c : AudioContext)
    (hc : p.audioCtx = some c) :
    (resumeAndPlay env p).err = none ∧
    (resumeAndPlay env p).st.count .playRequested = p.count .playRequested + 1 ∧
    (resumeAndPlay env p).st.count .resumeRequested =
      p.count .resumeRequested + (if c.state = .suspended then 1 else 0) ∧
    (resumeAndPlay env p).st.audio.paused = (p.audio.paused && !env.playAccepted) := by
  unfold resumeAndPlay
  by_cases hs : c.state = .suspended <;> simp [hs, hc, audioPlay, emit, count]

theorem graphResumePlay_frame (env : Platform) (p : Player) :
    (graphResumePlay env p).st.audio.src = p.audio.src ∧
    (graphResumePlay env p).st.currentSongId = p.currentSongId ∧
    (graphResumePlay env p).st.title = p.title ∧
    (graphResumePlay env p).st.art = p.art ∧
    (graphResumePlay env p).st.barHidden = p.barHidden ∧
    (graphResumePlay env p).st.count .pauseRequested = p.count .pauseRequested := by
  obtain ⟨i1, i2, i3, i4, i5, -, -, -, i9, -⟩ := initAudioCtx_frame env p
  unfold graphResumePlay
  cases he : (p.initAudioCtx env).err with
  | some e => simp only [i1, i2, i3, i4, i5, i9, and_self]
  | none =>
    obtain ⟨r1, r2, r3, r4, r5, -, r7, -⟩ := resumeAndPlay_frame env (p.initAudioCtx env).st
    simp only [r1, r2, r3, r4, r5, r7, i1, i2, i3, i4, i5, i9, and_self]

theorem graphResumePlay_requests (env : Platform) (p : Player) :
    ((graphResumePlay env p).err = none →
      (graphResumePlay env p).st.count .playRequested = p.count .playRequested + 1 ∧
      (graphResumePlay env p).st.audio.paused = (p.audio.paused && !env.playAccepted) ∧
      ∀ c, (graphResumePlay env p).st.audioCtx = some c →
        (graphResumePlay env p).st.count .resumeRequested =
          p.count .resumeRequested + (if c.state = .suspended then 1 else 0)) ∧
    ((graphResumePlay env p).err ≠ none →
      (graphResumePlay env p).st.count .playRequested = p.count .playRequested) ∧
    (env.failAt = none ∨ p.audioCtx ≠ none → (graphResumePlay env p).err = none) := by
  obtain ⟨i1, -, -, -, -, -, -, i8, -, i10⟩ := initAudioCtx_frame env p
  obtain ⟨e1, e2⟩ := initAudioCtx_err env p
  unfold graphResumePlay
  cases he : (p.initAudioCtx env).err with
  | some e =>
    refine ⟨fun h => by simp at h, fun _ => i8, fun h => ?_⟩
    rcases h with h | h
    · rw [e2 h] at he; cases he
    · rw [initAudioCtx_of_built env p h] at he; cases he
  | none =>
    cases hc : (p.initAudioCtx env).st.audioCtx with
    | none => exact absurd hc (e1 he)
    | some c =>
      obtain ⟨r1, r2, r3, r4⟩ := resumeAndPlay_ok env _ c hc
      have r6 := (resumeAndPlay_frame env (p.initAudioCtx env).st).2.2.2.2.2.1
      refine ⟨fun _ => ⟨by simp only [r2, i8], by simp only [r4, i1], fun c' hc' => ?_⟩,
        fun h => absurd r1 h, fun _ => r1⟩
      simp only at hc'
      rw [r6, hc] at hc'
      cases hc'
      simp only [r3, i10]

end Squalus

namespace Squalus

open Player

/-- C2. When the requested track is the current one and the element is not paused, `play`
returns at once: the whole state, trace of requests included, is unchanged.  Consequently,
from a state where that track is not yet playing, a first `play(id, ...)` that runs to its
end and whose start the platform accepts issues one playback-start request, and a second
`play(id, ...)` right after it changes nothing: one request in total. -/
theorem play_noop_guard (p : Player) (songId : Nat) (t u : Option String) (a b : Bool)
    (env env2 : Platform) :
    (p.currentSongId = some songId → p.audio.paused = false →
      p.play songId t a env = ⟨p, none⟩) ∧
    (¬(p.currentSongId = some songId ∧ p.audio.paused = false) →
      (p.play songId t a env).err = none → env.playAccepted = true →
      (p.play songId t a env).st.count .playRequested = p.count .playRequested + 1 ∧
      (p.play songId t a env).st.play songId u b env2 = ⟨(p.play songId t a env).st, none⟩ ∧
      ((p.play songId t a env).st.play songId u b env2).st.count .playRequested
        = p.count .playRequested + 1) := by
  constructor
  · intro h1 h2
    rw [play_eq]
    simp only [h1, h2, and_self, if_true]
  · intro hg he hacc
    have key : (p.play songId t a env).st.count .playRequested = p.count .playRequested + 1 ∧
        (p.play songId t a env).st.currentSongId = some songId ∧
        (p.play songId t a env).st.audio.paused = false := by
      by_cases hc : p.currentSongId = some songId
      · rw [play_same songId t a env p hg hc] at he ⊢
        obtain ⟨q1, q2, -⟩ := (graphResumePlay_requests env { p with barHidden := false }).1 he
        obtain ⟨-, f2, -⟩ := graphResumePlay_frame env { p with barHidden := false }
        refine ⟨q1, by rw [f2]; exact hc, ?_⟩
        rw [q2, hacc]; simp
      · rw [play_other songId t a env p hc] at he ⊢
        obtain ⟨q1, q2, -⟩ := (graphResumePlay_requests env (bindTrack songId t a p)).1 he
        obtain ⟨-, f2, -⟩ := graphResumePlay_frame env (bindTrack songId t a p)
        refine ⟨q1, by rw [f2]; rfl, ?_⟩
        rw [q2, hacc]; simp
    obtain ⟨k1, k2, k3⟩ := key
    have hno : (p.play songId t a env).st.play songId u b env2
        = ⟨(p.play songId t a env).st, none⟩ := by
      rw [play_eq songId u b env2]
      simp only [k2, k3, and_self, if_true]
    refine ⟨k1, hno, ?_⟩
    rw [hno]
    exact k1

/-- Witness of C2 on a new player: `play(42, "Song A", true)` twice issues one
playback-start request, the second call being the no-op. -/
theorem play_noop_guard_witness :
    (((Player.new ⟨0, 400, 100⟩ 1).play 42 (some "Song A") true
        ⟨none, .running, [], true⟩).st.play 42 (some "Song A") true
        ⟨none, .running, [], true⟩).st.count .playRequested = 1 ∧
    ((Player.new ⟨0, 400, 100⟩ 1).play 42 (some "Song A") true
        ⟨none, .running, [], true⟩).st.play 42 (some "Song A") true ⟨none, .running, [], true⟩
      = ⟨((Player.new ⟨0, 400, 100⟩ 1).play 42 (some "Song A") true
        ⟨none, .running, [], true⟩).st, none⟩ :=
  ⟨((play_noop_guard (Player.new ⟨0, 400, 100⟩ 1) 42 (some "Song A") (some "Song A") true true
      ⟨none, .running, [], true⟩ ⟨none, .running, [], true⟩).2
      (by decide) (by decide) rfl).2.2,
   (play_noop_guard ((Player.new ⟨0, 400, 100⟩ 1).play 42 (some "Song A") true
      ⟨none, .running, [], true⟩).st 42 (some "Song A") (some "Song A") true true
      ⟨none, .running, [], true⟩ ⟨none, .running, [], true⟩).1 (by decide) (by decide)⟩

/-- C3. Outside the no-op case `play(id, title, hasArt)` leaves the bar visible and, when
the call runs to its end (it does whenever the graph construction is not refused), exactly
one more playback-start request.  For a track other than the current one, afterwards
`currentSongId` is `id`, the source is `audioUrl(id) = "/api/songs/<id>/audio"` and the
title is `title`, or `"Untitled"` for an empty or missing title; for the current track
(paused) source and title are unchanged. -/
theorem play_outside_noop (p : Player) (songId : Nat) (t : Option String) (a : Bool)
    (env : Platform) (h : ¬(p.currentSongId = some songId ∧ p.audio.paused = false)) :
    (p.play songId t a env).st.barHidden = false ∧
    ((p.play songId t a env).err = none →
      (p.play songId t a env).st.count .playRequested = p.count .playRequested + 1) ∧
    (env.failAt = none ∨ p.audioCtx ≠ none → (p.play songId t a env).err = none) ∧
    (p.currentSongId ≠ some songId →
      (p.play songId t a env).st.currentSongId = some songId ∧
      (p.play songId t a env).st.audio.src = api.audioUrl songId ∧
      api.audioUrl songId = "/api/songs/" ++ toString songId ++ "/audio" ∧
      (t = none ∨ t = some "" → (p.play songId t a env).st.title = "Untitled") ∧
      (∀ x, t = some x → x ≠ "" → (p.play songId t a env).st.title = x)) ∧
    (p.currentSongId = some songId →
      (p.play songId t a env).st.currentSongId = p.currentSongId ∧
      (p.play songId t a env).st.audio.src = p.audio.src ∧
      (p.play songId t a env).st.title = p.title) := by
  by_cases hc : p.currentSongId = some songId
  · rw [play_same songId t a env p h hc]
    obtain ⟨f1, f2, f3, -, f5, -⟩ := graphResumePlay_frame env { p with barHidden := false }
    obtain ⟨q1, -, q3⟩ := graphResumePlay_requests env { p with barHidden := false }
    exact ⟨f5, fun he => (q1 he).1, q3, fun hn => absurd hc hn, fun _ => ⟨f2, f1, f3⟩⟩
  · rw [play_other songId t a env p hc]
    obtain ⟨f1, f2, f3, -, f5, -⟩ := graphResumePlay_frame env (bindTrack songId t a p)
    obtain ⟨q1, -, q3⟩ := graphResumePlay_requests env (bindTrack songId t a p)
    refine ⟨f5, fun he => (q1 he).1, q3, fun _ => ⟨f2, f1, rfl, ?_, ?_⟩, fun hn => absurd hn hc⟩
    · intro ht
      rw [f3]
      rcases ht with ht | ht <;> subst ht <;> rfl
    · intro x hx hne
      rw [f3]
      subst hx
      simp [bindTrack, titleOrUntitled, hne]

/-- Witness of C3: on a new player no track is current, so `play(7, "", false)` is outside
the no-op case; it shows the bar and binds `/api/songs/7/audio`. -/
theorem play_outside_noop_witness :
    ¬((Player.new ⟨0, 400, 100⟩ 1).currentSongId = some 7 ∧
      (Player.new ⟨0, 400, 100⟩ 1).audio.paused = false) ∧
    ((Player.new ⟨0, 400, 100⟩ 1).play 7 (some "") false
      ⟨none, .suspended, [], true⟩).st.barHidden = false :=
  ⟨by decide, (play_outside_noop (Player.new ⟨0, 400, 100⟩ 1) 7 (some "") false
    ⟨none, .suspended, [], true⟩ (by decide)).1⟩

theorem play_false_art (p : Player) (songId : Nat) (t : Option String) (env : Platform) :
    (p.play songId t false env).st.art = p.art := by
  rw [play_eq]
  split_ifs
  · rfl
  · exact (graphResumePlay_frame env _).2.2.2.1
  · exact (graphResumePlay_frame env _).2.2.2.1

/-- C4 on the code: after `play(42, "Song A", true)`, a repeated `play(42, "Song A", true)`
and then `play(7, "Song B", false)`, track and title are those of song 7 but the artwork
element still holds the image of song 42, not the placeholder. -/
theorem play_without_art_keeps_previous_art :
    ((((Player.new ⟨0, 400, 100⟩ 1).play 42 (some "Song A") true
        ⟨none, .running, [], true⟩).st.play 42 (some "Song A") true
        ⟨none, .running, [], true⟩).st.play 7 (some "Song B") false
        ⟨none, .running, [], true⟩).st.currentSongId = some 7 ∧
    ((((Player.new ⟨0, 400, 100⟩ 1).play 42 (some "Song A") true
        ⟨none, .running, [], true⟩).st.play 42 (some "Song A") true
        ⟨none, .running, [], true⟩).st.play 7 (some "Song B") false
        ⟨none, .running, [], true⟩).st.title = "Song B" ∧
    ((((Player.new ⟨0, 400, 100⟩ 1).play 42 (some "Song A") true
        ⟨none, .running, [], true⟩).st.play 42 (some "Song A") true
        ⟨none, .running, [], true⟩).st.play 7 (some "Song B") false
        ⟨none, .running, [], true⟩).st.art = .image "/api/songs/42/art" ∧
    ((((Player.new ⟨0, 400, 100⟩ 1).play 42 (some "Song A") true
        ⟨none, .running, [], true⟩).st.play 42 (some "Song A") true
        ⟨none, .running, [], true⟩).st.play 7 (some "Song B") false
        ⟨none, .running, [], true⟩).st.art ≠ .placeholder := by
  refine ⟨?_, ?_, ?_, ?_⟩ <;> decide

end Squalus

namespace Squalus

open Player

theorem graphOnce_congr (p q : Player) (h1 : q.audioCtx = p.audioCtx)
    (h2 : q.trace = p.trace) (h : p.GraphOnce) : q.GraphOnce := by
  unfold GraphOnce count at h ⊢
  rw [h1, h2]
  exact h

theorem initAudioCtx_graphOnce (env : Platform) (p : Player) (h : p.GraphOnce) :
    (p.initAudioCtx env).st.GraphOnce := by
  cases hc : p.audioCtx with
  | some c =>
    rw [initAudioCtx_of_built env p (by simp [hc])]
    exact h
  | none =>
    obtain ⟨h1, h2, h3, h4⟩ := h.1 hc
    unfold count at h1 h2 h3 h4
    unfold initAudioCtx GraphOnce
    split_ifs <;> simp_all [emit, count]

theorem initAudioCtx_built (env : Platform) (p : Player) :
    (p.audioCtx = none → (p.initAudioCtx env).err = none →
      (p.initAudioCtx env).st.count .contextCreated = p.count .contextCreated + 1 ∧
      (p.initAudioCtx env).st.count .analyserCreated = p.count .analyserCreated + 1 ∧
      (p.initAudioCtx env).st.count .sourceCreated = p.count .sourceCreated + 1 ∧
      (p.initAudioCtx env).st.count .rendererConnected = p.count .rendererConnected + 1) := by
  intro hc
  unfold initAudioCtx
  split_ifs <;> simp_all [emit, count]

theorem graphResumePlay_graphOnce (env : Platform) (p : Player) (h : p.GraphOnce) :
    (graphResumePlay env p).st.GraphOnce := by
  have hi := initAudioCtx_graphOnce env p h
  unfold graphResumePlay
  cases he : (p.initAudioCtx env).err with
  | some e => exact hi
  | none =>
    obtain ⟨-, -, -, -, -, r6, -, r8, r9, r10, r11⟩ :=
      resumeAndPlay_frame env (p.initAudioCtx env).st
    unfold GraphOnce at hi ⊢
    simp only [r6, r8, r9, r10, r11]
    exact hi

theorem graphResumePlay_of_built (env : Platform) (p : Player) (h : p.audioCtx ≠ none) :
    (graphResumePlay env p).st.audioCtx = p.audioCtx ∧
    (graphResumePlay env p).st.count .contextCreated = p.count .contextCreated ∧
    (graphResumePlay env p).st.count .analyserCreated = p.count .analyserCreated ∧
    (graphResumePlay env p).st.count .sourceCreated = p.count .sourceCreated ∧
    (graphResumePlay env p).st.count .rendererConnected = p.count .rendererConnected := by
  unfold graphResumePlay
  rw [initAudioCtx_of_built env p h]
  obtain ⟨-, -, -, -, -, r6, -, r8, r9, r10, r11⟩ := resumeAndPlay_frame env p
  exact ⟨r6, r8, r9, r10, r11⟩

theorem playerAction_graphOnce (a : PlayerAction) (p : Player) (h : p.GraphOnce) :
    (a.apply p).st.GraphOnce := by
  cases a with
  | play songId t ar env =>
    simp only [PlayerAction.apply]
    rw [play_eq]
    split_ifs
    · exact h
    · exact graphResumePlay_graphOnce env _ (graphOnce_congr p _ rfl rfl h)
    · exact graphResumePlay_graphOnce env _ (graphOnce_congr p _ rfl rfl h)
  | togglePlay env =>
    simp only [PlayerAction.apply]
    rw [togglePlay_eq]
    split_ifs
    · exact h
    · exact graphResumePlay_graphOnce env _ h
    · unfold GraphOnce at h ⊢
      simpa [audioPause, emit, count] using h
  | audioPaused b => exact graphOnce_congr p _ rfl rfl h
  | contextState st =>
    unfold GraphOnce at h ⊢
    simpa [PlayerAction.apply, count] using h
  | resized r d => exact graphOnce_congr p _ rfl rfl h
  | frame id sp => exact graphOnce_congr p _ rfl rfl h

theorem playerAction_keeps_context (a : PlayerAction) (p : Player) (c : AudioContext)
    (h : p.audioCtx = some c) :
    ∃ d, (a.apply p).st.audioCtx = some d ∧ d.id = c.id := by
  have hne : p.audioCtx ≠ none := by simp [h]
  cases a with
  | play songId t ar env =>
    simp only [PlayerAction.apply]
    rw [play_eq]
    split_ifs
    · exact ⟨c, h, rfl⟩
    · exact ⟨c, ((graphResumePlay_of_built env { p with barHidden := false } hne).1).trans h,
        rfl⟩
    · exact ⟨c, ((graphResumePlay_of_built env (bindTrack songId t ar p) hne).1).trans h, rfl⟩
  | togglePlay env =>
    simp only [PlayerAction.apply]
    rw [togglePlay_eq]
    split_ifs
    · exact ⟨c, h, rfl⟩
    · exact ⟨c, by rw [(graphResumePlay_of_built env _ hne).1]; exact h, rfl⟩
    · exact ⟨c, h, rfl⟩
  | audioPaused b => exact ⟨c, h, rfl⟩
  | contextState st => exact ⟨{ c with state := st }, by simp [PlayerAction.apply, h], rfl⟩
  | resized r d => exact ⟨c, h, rfl⟩
  | frame id sp => exact ⟨c, h, rfl⟩

theorem runPlayer_graphOnce (acts : List PlayerAction) (p : Player) (h : p.GraphOnce) :
    (runPlayer p acts).GraphOnce := by
  induction acts generalizing p with
  | nil => exact h
  | cons a as ih => exact ih _ (playerAction_graphOnce a p h)

theorem runPlayer_keeps_context (acts : List PlayerAction) (p : Player) (c : AudioContext)
    (h : p.audioCtx = some c) :
    ∃ d, (runPlayer p acts).audioCtx = some d ∧ d.id = c.id := by
  induction acts generalizing p c with
  | nil => exact ⟨c, h, rfl⟩
  | cons a as ih =>
    obtain ⟨d, hd, hid⟩ := playerAction_keeps_context a p c h
    obtain ⟨e, he, hie⟩ := ih _ d hd
    exact ⟨e, he, hie.trans hid⟩

theorem runPlayer_append (p : Player) (xs ys : List PlayerAction) :
    runPlayer p (xs ++ ys) = runPlayer (runPlayer p xs) ys := by
  induction xs generalizing p with
  | nil => rfl
  | cons a as ih => exact ih _

/-- C5. After any sequence of `play` and `togglePlay` calls on a new player, interleaved
with whatever the platform does in between, the audio context, the analyser and the
media-element source have each been constructed at most once and `connectAnalyser` has been
called at most once; and once `audioCtx` holds a context it holds that same context (same
identity) after any further actions, never null and never another one. -/
theorem graph_built_at_most_once (rect : Rect) (devicePixelRatio : ℚ)
    (acts more : List PlayerAction) :
    (runPlayer (Player.new rect devicePixelRatio) acts).count .contextCreated ≤ 1 ∧
    (runPlayer (Player.new rect devicePixelRatio) acts).count .analyserCreated ≤ 1 ∧
    (runPlayer (Player.new rect devicePixelRatio) acts).count .sourceCreated ≤ 1 ∧
    (runPlayer (Player.new rect devicePixelRatio) acts).count .rendererConnected ≤ 1 ∧
    (∀ c, (runPlayer (Player.new rect devicePixelRatio) acts).audioCtx = some c →
      ∃ d, (runPlayer (Player.new rect devicePixelRatio) (acts ++ more)).audioCtx = some d ∧
        d.id = c.id) := by
  have h0 : (Player.new rect devicePixelRatio).GraphOnce := by
    simp [GraphOnce, Player.new, count]
  obtain ⟨-, g1, g2, g3, g4⟩ := runPlayer_graphOnce acts _ h0
  refine ⟨g1, g2, g3, g4, fun c hc => ?_⟩
  rw [runPlayer_append]
  exact runPlayer_keeps_context more _ c hc

end Squalus

namespace Squalus

open Player

theorem togglePlay_of_unbound (env : Platform) (p : Player) (h : p.audio.src = "") :
    p.togglePlay env = ⟨p, none⟩ := by
  rw [togglePlay_eq, if_pos h]

theorem playerAction_src_unbound (a : PlayerAction) (p : Player) (ha : a.isPlay = false)
    (h : p.audio.src = "") : (a.apply p).st.audio.src = "" := by
  cases a with
  | play songId t ar env => simp [PlayerAction.isPlay] at ha
  | togglePlay env =>
    simp only [PlayerAction.apply]
    rw [togglePlay_of_unbound env p h]
    exact h
  | audioPaused b => exact h
  | contextState st => exact h
  | resized r d => exact h
  | frame id sp => exact h

theorem runPlayer_src_unbound (acts : List PlayerAction) (p : Player)
    (hacts : ∀ a ∈ acts, a.isPlay = false) (h : p.audio.src = "") :
    (runPlayer p acts).audio.src = "" := by
  induction acts generalizing p with
  | nil => exact h
  | cons a as ih =>
    exact ih _ (fun b hb => hacts b (List.mem_cons_of_mem a hb))
      (playerAction_src_unbound a p (hacts a (List.mem_cons_self a as)) h)

/-- C6. On a player on which `play` was never called (a new player after any actions other
than `play`) the audio source is empty and `togglePlay()` returns without an exception and
leaves the whole state unchanged, trace included: no graph is built and neither a play nor
a pause request is issued.  The same holds in every state whose source is empty. -/
theorem togglePlay_unbound (rect : Rect) (devicePixelRatio : ℚ) (acts : List PlayerAction)
    (env : Platform) (p : Player) (hacts : ∀ a ∈ acts, a.isPlay = false) :
    (runPlayer (Player.new rect devicePixelRatio) acts).audio.src = "" ∧
    (runPlayer (Player.new rect devicePixelRatio) acts).togglePlay env
      = ⟨runPlayer (Player.new rect devicePixelRatio) acts, none⟩ ∧
    (p.audio.src = "" → p.togglePlay env = ⟨p, none⟩) := by
  have h := runPlayer_src_unbound acts (Player.new rect devicePixelRatio) hacts rfl
  exact ⟨h, togglePlay_of_unbound env _ h, togglePlay_of_unbound env p⟩

/-- Witness of C6: a new player that was toggled and resized, never played. -/
theorem togglePlay_unbound_witness :
    (∀ a ∈ [PlayerAction.togglePlay ⟨none, .running, [], true⟩,
        PlayerAction.resized ⟨0, 300, 80⟩ 2], a.isPlay = false) ∧
    (runPlayer (Player.new ⟨0, 400, 100⟩ 1)
        [PlayerAction.togglePlay ⟨none, .running, [], true⟩,
          PlayerAction.resized ⟨0, 300, 80⟩ 2]).togglePlay ⟨none, .running, [], true⟩
      = ⟨runPlayer (Player.new ⟨0, 400, 100⟩ 1)
        [PlayerAction.togglePlay ⟨none, .running, [], true⟩,
          PlayerAction.resized ⟨0, 300, 80⟩ 2], none⟩ :=
  ⟨by simp [PlayerAction.isPlay],
   (togglePlay_unbound ⟨0, 400, 100⟩ 1 _ ⟨none, .running, [], true⟩
      (Player.new ⟨0, 400, 100⟩ 1) (by simp [PlayerAction.isPlay])).2.1⟩

/-- C7. With a source bound, `togglePlay()` on a paused element runs the sequence that ends
`play` (for the current track `play` is that sequence after showing the bar): it builds the
graph only when `audioCtx` is null, and when it runs to its end (it does whenever the
construction is not refused) it has issued one resume request exactly if the context is
suspended, exactly one playback-start request and no pause request.  On a playing element
it issues exactly one pause request, no playback-start request, and returns.  In both cases
`currentSongId`, source and title are unchanged. -/
theorem togglePlay_bound (p : Player) (env : Platform) (h : p.audio.src ≠ "") :
    (p.audio.paused = true →
      p.togglePlay env = graphResumePlay env p ∧
      (∀ songId t a, p.currentSongId = some songId →
        p.play songId t a env = graphResumePlay env { p with barHidden := false }) ∧
      (p.audioCtx ≠ none →
        (p.togglePlay env).st.audioCtx = p.audioCtx ∧
        (p.togglePlay env).st.count .contextCreated = p.count .contextCreated ∧
        (p.togglePlay env).st.count .analyserCreated = p.count .analyserCreated ∧
        (p.togglePlay env).st.count .sourceCreated = p.count .sourceCreated ∧
        (p.togglePlay env).st.count .rendererConnected = p.count .rendererConnected) ∧
      (p.audioCtx = none → (p.togglePlay env).err = none →
        (p.togglePlay env).st.count .contextCreated = p.count .contextCreated + 1 ∧
        (p.togglePlay env).st.count .rendererConnected = p.count .rendererConnected + 1) ∧
      (env.failAt = none ∨ p.audioCtx ≠ none → (p.togglePlay env).err = none) ∧
      ((p.togglePlay env).err = none →
        (p.togglePlay env).st.count .playRequested = p.count .playRequested + 1 ∧
        (∀ c, (p.togglePlay env).st.audioCtx = some c →
          (p.togglePlay env).st.count .resumeRequested =
            p.count .resumeRequested + (if c.state = .suspended then 1 else 0))) ∧
      (p.togglePlay env).st.count .pauseRequested = p.count .pauseRequested) ∧
    (p.audio.paused = false →
      (p.togglePlay env).err = none ∧
      (p.togglePlay env).st.count .pauseRequested = p.count .pauseRequested + 1 ∧
      (p.togglePlay env).st.count .playRequested = p.count .playRequested ∧
      (p.togglePlay env).st.audio.paused = true) ∧
    (p.togglePlay env).st.currentSongId = p.currentSongId ∧
    (p.togglePlay env).st.audio.src = p.audio.src ∧
    (p.togglePlay env).st.title = p.title := by
  obtain ⟨f1, f2, f3, -, -, f6⟩ := graphResumePlay_frame env p
  obtain ⟨q1, -, q3⟩ := graphResumePlay_requests env p
  cases hp : p.audio.paused with
  | true =>
    have e : p.togglePlay env = graphResumePlay env p := by
      rw [togglePlay_eq, if_neg h, if_pos hp]
    rw [e]
    refine ⟨fun _ => ⟨rfl, ?_, graphResumePlay_of_built env p, ?_, q3,
      fun he => ⟨(q1 he).1, (q1 he).2.2⟩, f6⟩, fun hf => (by cases hf), f2, f1, f3⟩
    · intro songId t a hc
      exact play_same songId t a env p (fun hg => by rw [hp] at hg; cases hg.2) hc
    · intro hn he
      unfold graphResumePlay at he ⊢
      cases hi : (p.initAudioCtx env).err with
      | some x => rw [hi] at he; cases he
      | none =>
        obtain ⟨b1, -, -, b4⟩ := initAudioCtx_built env p hn hi
        obtain ⟨-, -, -, -, -, -, -, r8, -, -, r11⟩ :=
          resumeAndPlay_frame env (p.initAudioCtx env).st
        simp only [r8, r11, b1, b4, and_self]
  | false =>
    have e : p.togglePlay env = ⟨audioPause p, none⟩ := by
      rw [togglePlay_eq, if_neg h, if_neg (by simp [hp])]
    rw [e]
    refine ⟨fun hf => (by cases hf), fun _ => ⟨rfl, ?_, ?_, rfl⟩, rfl, rfl, rfl⟩
    · simp [audioPause, emit, count]
    · simp [audioPause, emit, count]

/-- Witness of C7 on a player that has bound song 7 and whose playback the platform
refused, so that it is paused: `togglePlay()` issues a second playback-start request. -/
theorem togglePlay_bound_witness :
    ((Player.new ⟨0, 400, 100⟩ 1).play 7 (some "Song B") false
      ⟨none, .suspended, [], false⟩).st.audio.src ≠ "" ∧
    (((Player.new ⟨0, 400, 100⟩ 1).play 7 (some "Song B") false
      ⟨none, .suspended, [], false⟩).st.togglePlay
        ⟨none, .suspended, [], true⟩).st.count .playRequested
      = ((Player.new ⟨0, 400, 100⟩ 1).play 7 (some "Song B") false
        ⟨none, .suspended, [], false⟩).st.count .playRequested + 1 :=
  ⟨by decide,
   (((togglePlay_bound ((Player.new ⟨0, 400, 100⟩ 1).play 7 (some "Song B") false
      ⟨none, .suspended, [], false⟩).st ⟨none, .suspended, [], true⟩ (by decide)).1
      (by decide)).2.2.2.2.2.1 (by decide)).1⟩

end Squalus

namespace Squalus

open Player

/-- Witness of C5: after `play(42, ...)` on a new player a context is held, and it is still
that context after `play(7, ...)` and a change of its state. -/
theorem graph_built_at_most_once_witness :
    (runPlayer (Player.new ⟨0, 400, 100⟩ 1)
      [PlayerAction.play 42 (some "Song A") true ⟨none, .suspended, [], true⟩]).audioCtx
      = some ⟨0, .suspended⟩ ∧
    ∃ d, (runPlayer (Player.new ⟨0, 400, 100⟩ 1)
      ([PlayerAction.play 42 (some "Song A") true ⟨none, .suspended, [], true⟩] ++
        [PlayerAction.contextState .running,
          PlayerAction.play 7 (some "Song B") false ⟨none, .running, [], true⟩])).audioCtx
        = some d ∧ d.id = (⟨0, .suspended⟩ : AudioContext).id :=
  ⟨by decide, (graph_built_at_most_once ⟨0, 400, 100⟩ 1
    [PlayerAction.play 42 (some "Song A") true ⟨none, .suspended, [], true⟩]
    [PlayerAction.contextState .running,
      PlayerAction.play 7 (some "Song B") false ⟨none, .running, [], true⟩]).2.2.2.2
    ⟨0, .suspended⟩ (by decide)⟩

end Squalus

/-! ## Theorems: redraw rule and painting -/

namespace Squalus

open WaveformRenderer

theorem rendererAction_handle_pos (a : RendererAction) (s : WaveformRenderer)
    (h : ∀ id, s.animId = some id → id ≠ 0) :
    ∀ id, (a.apply s).st.animId = some id → id ≠ 0 := by
  cases a with
  | connectAnalyser n sp =>
    simp only [RendererAction.apply]
    rw [(connectAnalyser_st n sp s).1]
    intro id hid
    simp only [Option.some.injEq] at hid
    omega
  | disconnect =>
    simp only [RendererAction.apply]
    rw [disconnect_st]
    intro id hid
    cases hid
  | setProgress p =>
    simp only [RendererAction.apply]
    rw [(setProgress_frame p s).2.1]
    exact h
  | resize r d => exact h
  | tick id sp =>
    simp only [RendererAction.apply, tick]
    by_cases hm : id ∈ s.frames
    · simp only [hm, if_true, animate]
      cases ha : s.analyser with
      | none => exact h
      | some a =>
        cases hd : s.data with
        | none => exact h
        | some d =>
          intro j hj
          simp only [requestAnimationFrame, draw, Option.some.injEq] at hj
          omega
    · simp only [hm, if_false]
      exact h

theorem runRenderer_handle_pos (acts : List RendererAction) (s : WaveformRenderer)
    (h : ∀ id, s.animId = some id → id ≠ 0) :
    ∀ id, (runRenderer s acts).1.animId = some id → id ≠ 0 := by
  induction acts generalizing s with
  | nil => exact h
  | cons a as ih => exact ih _ (rendererAction_handle_pos a s h)

/-- C11. A call `setProgress(p)` returns without an exception.  When the loop handle is
null it changes `progress` and performs exactly one draw (with the new progress); when the
handle names a frame (a non-zero number) it changes `progress` and performs no draw; no
other field changes in either case.  In every state reached from a new renderer a non-null
handle is non-zero, so the two cases are the only ones. -/
theorem setProgress_redraw (p : JSNum) (s : WaveformRenderer) (rect : Rect)
    (devicePixelRatio : ℚ) (acts : List RendererAction) :
    (s.setProgress p).err = none ∧
    (s.animId = none →
      (s.setProgress p).st =
        { s with
          progress := JSNum.mathMax 0 (JSNum.mathMin 1 p)
          draws := s.draws ++
            [{ live := s.data.isSome && s.analyser.isSome, data := s.data,
               progress := JSNum.mathMax 0 (JSNum.mathMin 1 p), w := s.w, h := s.h }] }) ∧
    (∀ id, s.animId = some id → id ≠ 0 →
      (s.setProgress p).st = { s with progress := JSNum.mathMax 0 (JSNum.mathMin 1 p) }) ∧
    (∀ id, (runRenderer (WaveformRenderer.new rect devicePixelRatio) acts).1.animId = some id →
      id ≠ 0) := by
  refine ⟨(setProgress_frame p s).1, ?_, ?_, ?_⟩
  · intro h
    simp [setProgress, h, draw]
  · intro id h hid
    simp [setProgress, h, hid]
  · exact runRenderer_handle_pos acts _ (by simp [WaveformRenderer.new, resize, draw])

/-- Witness of C11: on a new renderer the handle is null and `setProgress(1/2)` draws once;
after `connectAnalyser` the handle is 1 and `setProgress(1/2)` does not draw. -/
theorem setProgress_redraw_witness :
    (WaveformRenderer.new ⟨0, 400, 100⟩ 1).animId = none ∧
    ((WaveformRenderer.new ⟨0, 400, 100⟩ 1).setProgress (.fin (1 / 2))).st.draws.length = 2 ∧
    ((WaveformRenderer.new ⟨0, 400, 100⟩ 1).connectAnalyser ⟨128⟩ []).st.animId = some 1 ∧
    (((WaveformRenderer.new ⟨0, 400, 100⟩ 1).connectAnalyser ⟨128⟩ []).st.setProgress
      (.fin (1 / 2))).st.draws.length = 2 := by
  refine ⟨rfl, ?_, rfl, ?_⟩
  · rw [(setProgress_redraw (.fin (1 / 2)) (WaveformRenderer.new ⟨0, 400, 100⟩ 1) ⟨0, 0, 0⟩ 1
      []).2.1 rfl]
    rfl
  · rw [(setProgress_redraw (.fin (1 / 2))
      ((WaveformRenderer.new ⟨0, 400, 100⟩ 1).connectAnalyser ⟨128⟩ []).st ⟨0, 0, 0⟩ 1
      []).2.2.1 1 rfl (by decide)]
    rfl

theorem roundEven_le (x : ℚ) : (roundEven x : ℚ) ≤ x + 1 / 2 := by
  unfold roundEven
  have h1 := Int.floor_le x
  have h2 := Int.lt_floor_add_one x
  split_ifs with a b c
  · linarith
  · push_cast; linarith
  · linarith
  · push_cast; linarith

theorem le_roundEven (x : ℚ) : x - 1 / 2 ≤ (roundEven x : ℚ) := by
  unfold roundEven
  have h1 := Int.floor_le x
  have h2 := Int.lt_floor_add_one x
  split_ifs with a b c
  · linarith
  · push_cast; linarith
  · linarith
  · push_cast; linarith

theorem toDouble_zero : toDouble 0 = 0 := by simp [toDouble]

theorem toDouble_near (q : ℚ) (hq : 0 < q) :
    q * (1 - 1 / 2 ^ 53) ≤ toDouble q ∧ toDouble q ≤ q * (1 + 1 / 2 ^ 53) := by
  unfold toDouble
  rw [if_neg hq.ne', abs_of_pos hq]
  have hk : (2 : ℚ) ^ Int.log 2 q ≤ q := Int.zpow_log_le_self (by norm_num) hq
  have he : (0 : ℚ) < 2 ^ (Int.log 2 q - 52) := by positivity
  have hsplit : (2 : ℚ) ^ (Int.log 2 q - 52) = 2 ^ Int.log 2 q / 2 ^ 52 := by
    rw [zpow_sub₀ (by norm_num)]; norm_num
  have h1 := roundEven_le (q / 2 ^ (Int.log 2 q - 52))
  have h2 := le_roundEven (q / 2 ^ (Int.log 2 q - 52))
  have e1 : (q / 2 ^ (Int.log 2 q - 52) + 1 / 2) * 2 ^ (Int.log 2 q - 52)
      = q + 2 ^ (Int.log 2 q - 52) / 2 := by field_simp; ring
  have e2 : (q / 2 ^ (Int.log 2 q - 52) - 1 / 2) * 2 ^ (Int.log 2 q - 52)
      = q - 2 ^ (Int.log 2 q - 52) / 2 := by field_simp; ring
  have u1 := mul_le_mul_of_nonneg_right h1 he.le
  have u2 := mul_le_mul_of_nonneg_right h2 he.le
  rw [e1] at u1
  rw [e2] at u2
  rw [hsplit] at u1 u2
  constructor
  · rw [hsplit]; linarith
  · rw [hsplit]; linarith

theorem toDouble_nonneg (q : ℚ) (hq : 0 ≤ q) : 0 ≤ toDouble q := by
  rcases hq.eq_or_lt with h | h
  · rw [← h, toDouble_zero]
  · have : 0 ≤ q * (1 - 1 / 2 ^ 53) := mul_nonneg h.le (by norm_num)
    linarith [(toDouble_near q h).1]

theorem toDouble_le (q : ℚ) (hq : 0 ≤ q) : toDouble q ≤ q * (1 + 1 / 2 ^ 53) := by
  rcases hq.eq_or_lt with h | h
  · rw [← h, toDouble_zero]; norm_num
  · exact (toDouble_near q h).2

theorem le_toDouble (q : ℚ) (hq : 0 ≤ q) : q * (1 - 1 / 2 ^ 53) ≤ toDouble q := by
  rcases hq.eq_or_lt with h | h
  · rw [← h, toDouble_zero]; norm_num
  · exact (toDouble_near q h).1

theorem paintBar_eq (theme : Theme) (sinPi : ℚ → ℚ) (c : DrawCall) (ctx : Canvas2D)
    (i : Nat) :
    (paintBar theme sinPi c ctx i).rects = ctx.rects ++ [barAt theme sinPi c i] := rfl

theorem foldl_paintBar_rects (theme : Theme) (sinPi : ℚ → ℚ) (c : DrawCall)
    (l : List Nat) (ctx : Canvas2D) :
    (l.foldl (paintBar theme sinPi c) ctx).rects = ctx.rects ++ l.map (barAt theme sinPi c) := by
  induction l generalizing ctx with
  | nil => simp
  | cons i is ih =>
    rw [List.foldl_cons, ih, paintBar_eq]
    simp

theorem paint_rects (theme : Theme) (sinPi : ℚ → ℚ) (c : DrawCall) (ctx : Canvas2D) :
    (paint theme sinPi c ctx).rects = (List.range 40).map (barAt theme sinPi c) := by
  simp only [paint, bars]
  rw [foldl_paintBar_rects]
  simp

theorem paint_rects_get (theme : Theme) (sinPi : ℚ → ℚ) (c : DrawCall) (ctx : Canvas2D)
    (i : Nat) (hi : i < 40) :
    (paint theme sinPi c ctx).rects[i]? = some (barAt theme sinPi c i) := by
  rw [paint_rects]
  simp [hi]

end Squalus

namespace Squalus

open WaveformRenderer

theorem liveBarH_eq (b h : ℚ) : liveBarH b h = h * (9 * b + 255) / 2550 := by
  unfold liveBarH
  ring

/-- C12. For a surface height `H >= 0` and bytes `b <= b'` in 0..255, the live bar height
`(b / 255) * H * 0.9 + H * 0.1` lies in `[0.1 * H, H]`, does not decrease from `b` to `b'`,
is `0.1 * H` at 0 and exactly `H` at 255, and is not zero when `H > 0`; it is the height
`_draw` gives a bar whose sample is `b` when live data exists. -/
theorem live_bar_height (H : ℚ) (b b' : Nat) (hH : 0 ≤ H) (hb : b ≤ b') (hb' : b' ≤ 255) :
    liveBarH b H = b / 255 * H * (9 / 10) + H * (1 / 10) ∧
    1 / 10 * H ≤ liveBarH b H ∧ liveBarH b H ≤ 1 * H ∧
    liveBarH b H ≤ liveBarH b' H ∧
    liveBarH 0 H = 1 / 10 * H ∧ liveBarH 255 H = 1 * H ∧
    (0 < H → liveBarH b H ≠ 0) ∧
    (∀ (sinPi : ℚ → ℚ) (c : DrawCall) (i : Nat) (d : List Nat), c.live = true →
      c.data = some d → c.h = H → d[sampleIndex i d.length]? = some b →
      barH sinPi c i = .fin (liveBarH b H)) := by
  have hbq : (b : ℚ) ≤ b' := by exact_mod_cast hb
  have hbq' : (b' : ℚ) ≤ 255 := by exact_mod_cast hb'
  have hb0 : (0 : ℚ) ≤ b := by positivity
  refine ⟨rfl, ?_, ?_, ?_, ?_, ?_, ?_, ?_⟩
  · rw [liveBarH_eq]
    have : 0 ≤ H * b := mul_nonneg hH hb0
    linarith
  · rw [liveBarH_eq]
    have : H * b ≤ H * 255 := mul_le_mul_of_nonneg_left (hbq.trans hbq') hH
    linarith
  · rw [liveBarH_eq, liveBarH_eq]
    have : H * b ≤ H * b' := mul_le_mul_of_nonneg_left hbq hH
    linarith
  · rw [liveBarH_eq]; ring
  · rw [liveBarH_eq]; ring
  · intro hpos
    rw [liveBarH_eq]
    have : 0 ≤ H * b := mul_nonneg hH hb0
    have : 0 < H * (9 * b + 255) / 2550 := by linarith
    exact ne_of_gt this
  · intro sinPi c i d hl hd hh hg
    simp [barH, hl, hd, hg, hh]

/-- Witness of C12 at height 100 with the bytes 0 and 255: the bar is 10 high, the next
one 100. -/
theorem live_bar_height_witness :
    (0 : ℚ) ≤ 100 ∧ (0 : Nat) ≤ 255 ∧ (255 : Nat) ≤ 255 ∧
    liveBarH (0 : Nat) 100 ≤ liveBarH (255 : Nat) 100 :=
  ⟨by norm_num, by decide, by decide,
    (live_bar_height 100 0 255 (by norm_num) (by decide) (by decide)).2.2.2.1⟩

/-- C13, as stated, fails in the arithmetic of the code.  On a surface of width 400 the bars
have the width of the double nearest to 8.05 and the last bar starts at the double
391.95000000000005, so it does not end at 400: the exact sum of the two doubles lies
`13 / 2 ^ 48` above 400, and the rounded sum is the double 400.00000000000006. -/
theorem last_bar_ends_past_width :
    (∃ b, (paint ⟨"", ""⟩ mathSinPi
        { live := false, data := none, progress := .fin 0, w := 400, h := 100 }
        ⟨"", 1, []⟩).rects[39]? = some b ∧
      b.width = 2265873562520781 / 281474976710656 ∧
      b.x = 1723814330027213 / 4398046511104 ∧
      b.x + b.width ≠ 400 ∧
      b.x + b.width = 400 + 13 / 2 ^ 48 ∧
      toDouble (b.x + b.width) = 400 + 1 / 2 ^ 44) ∧
    barX 400 39 + barW 400 ≠ 400 := by
  have hw : barW 400 = 2265873562520781 / 281474976710656 := by decide!
  have hx : barX 400 39 = 1723814330027213 / 4398046511104 := by decide!
  refine ⟨⟨barAt ⟨"", ""⟩ mathSinPi
      { live := false, data := none, progress := .fin 0, w := 400, h := 100 } 39,
    paint_rects_get _ _ _ _ 39 (by decide), hw, hx, ?_, ?_, ?_⟩, ?_⟩
  · show barX 400 39 + barW 400 ≠ 400
    rw [hw, hx]; norm_num
  · show barX 400 39 + barW 400 = 400 + 13 / 2 ^ 48
    rw [hw, hx]; norm_num
  · show toDouble (barX 400 39 + barW 400) = 400 + 1 / 2 ^ 44
    decide!
  · rw [hw, hx]; norm_num

/-- C13, amended.  Every draw lays out exactly 40 bars; bar `i` has the width
`barW = (w - 2 * 39) / 40` and starts at `x = i * (barW + 2)`, each operation rounded to a
double.  For `w >= 78` the 40 bars and 39 gaps of 2 span the width up to that rounding: the
last bar ends within `w / 2 ^ 50` of `w`.  For `w = 400` the width of a bar is the double
nearest to 8.05, less than `2 ^ -50` away from it. -/
theorem bar_layout (theme : Theme) (sinPi : ℚ → ℚ) (c : DrawCall) (ctx : Canvas2D) :
    (paint theme sinPi c ctx).rects.length = 40 ∧
    (∀ i, i < 40 → ∃ b, (paint theme sinPi c ctx).rects[i]? = some b ∧
      b.width = barW c.w ∧ b.x = barX c.w i) ∧
    barW c.w = toDouble (toDouble (c.w - 2 * 39) / 40) ∧
    (∀ i : Nat, barX c.w i = toDouble (i * toDouble (barW c.w + 2))) ∧
    (78 ≤ c.w → |barX c.w 39 + barW c.w - c.w| ≤ c.w / 2 ^ 50) ∧
    barW 400 = toDouble (805 / 100) ∧
    |barW 400 - 805 / 100| ≤ 1 / 2 ^ 50 := by
  have hw : barW c.w = toDouble (toDouble (c.w - 2 * 39) / 40) := by
    simp only [barW, gap, bars]; norm_num
  have hx : ∀ i : Nat, barX c.w i = toDouble (i * toDouble (barW c.w + 2)) := fun i => rfl
  refine ⟨by rw [paint_rects]; simp, ?_, hw, hx, ?_, by decide!, ?_⟩
  · intro i hi
    exact ⟨barAt theme sinPi c i, paint_rects_get theme sinPi c ctx i hi, rfl, rfl⟩
  · intro h78
    have hd : (0 : ℚ) ≤ c.w - 2 * 39 := by linarith
    have hD := toDouble_nonneg _ hd
    have hD1 := toDouble_le _ hd
    have hD2 := le_toDouble _ hd
    have hq : (0 : ℚ) ≤ toDouble (c.w - 2 * 39) / 40 := by positivity
    have hb := toDouble_nonneg _ hq
    have hb1 := toDouble_le _ hq
    have hb2 := le_toDouble _ hq
    rw [← hw] at hb hb1 hb2
    have hs0 : (0 : ℚ) ≤ barW c.w + 2 := by linarith
    have hs := toDouble_nonneg _ hs0
    have hs1 := toDouble_le _ hs0
    have hs2 := le_toDouble _ hs0
    have hx0 : (0 : ℚ) ≤ ((39 : Nat) : ℚ) * toDouble (barW c.w + 2) := by positivity
    have hx1 := toDouble_le _ hx0
    have hx2 := le_toDouble _ hx0
    rw [← hx 39] at hx1 hx2
    push_cast at hx1 hx2
    rw [abs_le]
    norm_num at hD1 hD2 hb1 hb2 hs1 hs2 hx1 hx2 ⊢
    constructor <;> linarith
  · have : barW 400 = 2265873562520781 / 281474976710656 := by decide!
    rw [this, abs_le]
    constructor <;> norm_num

/-- Witness of the amended C13 at width 400: the last bar ends within `400 / 2 ^ 50` of the
width. -/
theorem bar_layout_witness :
    (78 : ℚ) ≤ 400 ∧ |barX 400 39 + barW 400 - 400| ≤ 400 / 2 ^ 50 :=
  ⟨by norm_num,
    (bar_layout ⟨"", ""⟩ mathSinPi
      { live := false, data := none, progress := .fin 0, w := 400, h := 100 }
      ⟨"", 1, []⟩).2.2.2.2.1 (by norm_num)⟩

end Squalus

namespace Squalus

open WaveformRenderer

theorem frac_range : ∀ i : Nat, i < 40 → 0 ≤ frac i ∧ frac i ≤ 39 / 40 := by decide!

theorem frac_error : ∀ i : Nat, i < 40 → |frac i - (i : ℚ) / 40| ≤ 1 / 2 ^ 54 := by decide!

theorem sampleIndex_lt (i n : Nat) (hi : i < 40) (hn : 0 < n) : sampleIndex i n < n := by
  unfold sampleIndex
  obtain ⟨f0, f1⟩ := frac_range i hi
  have hn' : (0 : ℚ) < n := by exact_mod_cast hn
  have hx : 0 ≤ frac i * n := mul_nonneg f0 hn'.le
  have h1 := toDouble_le _ hx
  have h0 := toDouble_nonneg _ hx
  rw [Int.floor_toNat, Nat.floor_lt h0]
  have h2 : frac i * n ≤ 39 / 40 * n := mul_le_mul_of_nonneg_right f1 hn'.le
  have h3 : frac i * n * (1 + 1 / 2 ^ 53) ≤ 39 / 40 * n * (1 + 1 / 2 ^ 53) :=
    mul_le_mul_of_nonneg_right h2 (by norm_num)
  have h4 : 39 / 40 * (n : ℚ) * (1 + 1 / 2 ^ 53) < n := by
    have : 39 / 40 * (n : ℚ) * (1 + 1 / 2 ^ 53) = n * (39 / 40 * (1 + 1 / 2 ^ 53)) := by ring
    rw [this]
    calc (n : ℚ) * (39 / 40 * (1 + 1 / 2 ^ 53)) < n * 1 :=
          mul_lt_mul_of_pos_left (by norm_num) hn'
      _ = n := mul_one _
  linarith

theorem barH_zero_height (sinPi : ℚ → ℚ) (c : DrawCall) (i : Nat) (hi : i < 40)
    (hh : c.h = 0) (hd : c.live = true → ∃ d, c.data = some d ∧ d ≠ []) :
    barH sinPi c i = .fin 0 := by
  unfold barH
  cases hl : c.live with
  | false => simp [idleBarH, hh, toDouble_zero]
  | true =>
    obtain ⟨d, hd1, hd2⟩ := hd hl
    have hlen : 0 < d.length := List.length_pos.mpr hd2
    have hidx := sampleIndex_lt i d.length hi hlen
    simp [hd1, List.getElem?_eq_getElem hidx, liveBarH, hh]

theorem barH_empty_buffer (sinPi : ℚ → ℚ) (c : DrawCall) (i : Nat) (hl : c.live = true)
    (hd : c.data = some []) : barH sinPi c i = .nan := by
  simp [barH, hl, hd]

/-- C14. When the surface reports width 0 and height 0, `_resize` records that size and
draws once; that draw, idle or live with whatever bytes a non-empty buffer holds, paints 40
bars and each of them has height exactly 0 (a number, not `NaN`).  Nothing in `_resize` or
`_draw` can throw: both are total functions of the state. -/
theorem zero_size_bars (s : WaveformRenderer) (left devicePixelRatio : ℚ) (theme : Theme)
    (sinPi : ℚ → ℚ) (ctx : Canvas2D) (hd : s.data ≠ some []) :
    ∃ c, (s.resize ⟨left, 0, 0⟩ devicePixelRatio).draws = s.draws ++ [c] ∧
      c.w = 0 ∧ c.h = 0 ∧ c.live = (s.data.isSome && s.analyser.isSome) ∧
      (paint theme sinPi c ctx).rects.length = 40 ∧
      ∀ b ∈ (paint theme sinPi c ctx).rects, b.height = .fin 0 := by
  refine ⟨{ live := s.data.isSome && s.analyser.isSome, data := s.data,
            progress := s.progress, w := 0, h := 0 }, ?_, rfl, rfl, rfl, ?_, ?_⟩
  · simp [resize, draw]
  · rw [paint_rects]; simp
  · intro b hb
    rw [paint_rects] at hb
    obtain ⟨i, hi, rfl⟩ := List.mem_map.mp hb
    have hi' : i < 40 := List.mem_range.mp hi
    show barH sinPi _ i = .fin 0
    apply barH_zero_height sinPi _ i hi' rfl
    intro hl
    cases hdat : s.data with
    | none => simp [hdat] at hl
    | some d =>
      refine ⟨d, rfl, ?_⟩
      intro hnil
      exact hd (by rw [hdat, hnil])

/-- Witness of C14 on a renderer with a connected analyser of 64 buckets, resized to an
empty box: its buffer is not empty and the draw of the resize is live. -/
theorem zero_size_bars_witness :
    ((WaveformRenderer.new ⟨0, 400, 100⟩ 1).connectAnalyser ⟨128⟩ [7, 200]).st.data
      ≠ some [] ∧
    ∃ c, (((WaveformRenderer.new ⟨0, 400, 100⟩ 1).connectAnalyser ⟨128⟩ [7, 200]).st.resize
        ⟨0, 0, 0⟩ 2).draws
        = ((WaveformRenderer.new ⟨0, 400, 100⟩ 1).connectAnalyser ⟨128⟩ [7, 200]).st.draws
          ++ [c] ∧
      ∀ b ∈ (paint ⟨"", ""⟩ (fun _ => 0) c ⟨"", 1, []⟩).rects, b.height = .fin 0 :=
  ⟨by decide,
    (zero_size_bars ((WaveformRenderer.new ⟨0, 400, 100⟩ 1).connectAnalyser ⟨128⟩
      [7, 200]).st 0 2 ⟨"", ""⟩ (fun _ => 0) ⟨"", 1, []⟩ (by decide)).imp
      fun _ h => ⟨h.1, h.2.2.2.2.2⟩⟩

/-- C15. For a stored progress `p` (in `[0, 1]` or any finite number) and a bar index `i` in
0..39 with `frac` the fraction of the bar as the code holds it, the double nearest to
`i / 40` (at most `2 ^ -54` away from it): bar `i` is filled in the accent colour at opacity 1 when `frac <= p` and in the
muted colour at opacity 0.3 otherwise, so it has opacity 1 if and only if `frac <= p`; after
the draw the opacity of the context is 1. -/
theorem progress_overlay (theme : Theme) (sinPi : ℚ → ℚ) (c : DrawCall) (ctx : Canvas2D)
    (p : ℚ) (i : Nat) (hc : c.progress = .fin p) (hi : i < 40) :
    (∃ b, (paint theme sinPi c ctx).rects[i]? = some b ∧
      (frac i ≤ p → b.fillStyle = theme.accentColor ∧ b.globalAlpha = 1) ∧
      (p < frac i → b.fillStyle = theme.mutedColor ∧ b.globalAlpha = 3 / 10) ∧
      (b.globalAlpha = 1 ↔ frac i ≤ p)) ∧
    frac i = toDouble ((i : ℚ) / 40) ∧
    |frac i - (i : ℚ) / 40| ≤ 1 / 2 ^ 54 ∧
    (paint theme sinPi c ctx).globalAlpha = 1 := by
  refine ⟨⟨barAt theme sinPi c i, paint_rects_get theme sinPi c ctx i hi, ?_, ?_, ?_⟩,
    by simp [frac, bars], frac_error i hi, rfl⟩
  · intro hle
    simp [barAt, hc, JSNum.le, hle]
  · intro hlt
    simp [barAt, hc, JSNum.le, not_le.mpr hlt]
  · by_cases hle : frac i ≤ p
    · simp [barAt, hc, JSNum.le, hle]
    · simp [barAt, hc, JSNum.le, hle]
      norm_num

/-- Witness of C15 at the stored progress 0.3, the double `5404319552844595 / 2 ^ 54`: the
fraction of bar 12 is that same double, so bar 12 is reached and painted at opacity 1. -/
theorem progress_overlay_witness :
    frac 12 = 5404319552844595 / 18014398509481984 ∧
    ∃ b, (paint ⟨"", ""⟩ mathSinPi
        { live := false, data := none,
          progress := .fin (5404319552844595 / 18014398509481984), w := 400, h := 100 }
        ⟨"", 1, []⟩).rects[12]? = some b ∧ b.globalAlpha = 1 :=
  ⟨by decide!,
    (progress_overlay ⟨"", ""⟩ mathSinPi
      { live := false, data := none,
        progress := .fin (5404319552844595 / 18014398509481984), w := 400, h := 100 }
      ⟨"", 1, []⟩ (5404319552844595 / 18014398509481984) 12 rfl (by decide)).1.imp
      fun _ h => ⟨h.1, (h.2.1 (by decide!)).2⟩⟩

end Squalus

/-! ## Theorems: notification handlers -/

namespace Squalus

open Player

theorem onCanvasClick_finite (p : Player) (x : ℚ) (rect : Rect) (D : ℚ) (hD : D ≠ 0)
    (hdur : p.audio.duration = .fin D) (hw : rect.width ≠ 0) :
    p.onCanvasClick x rect =
      ⟨{ p with audio := { p.audio with currentTime := (x - rect.left) / rect.width * D } },
        none⟩ := by
  simp [onCanvasClick, hdur, JSNum.truthy, hD, JSNum.div, hw, JSNum.mul,
    AudioElement.setCurrentTime]

/-- C16. With a known duration `D > 0`, a box of positive width and a click at `x` whose
offset `f = (x - left) / width` lies in `[0, 1]`, the click handler returns without an
exception, sets the playback position to exactly `f * D`, which lies in `[0, D]`, and
changes nothing else: track, title, paused state and every other field are as before. -/
theorem click_seeks (p : Player) (x : ℚ) (rect : Rect) (D : ℚ) (hD : 0 < D)
    (hdur : p.audio.duration = .fin D) (hw : 0 < rect.width)
    (hf0 : 0 ≤ (x - rect.left) / rect.width) (hf1 : (x - rect.left) / rect.width ≤ 1) :
    p.onCanvasClick x rect =
      ⟨{ p with audio := { p.audio with currentTime := (x - rect.left) / rect.width * D } },
        none⟩ ∧
    (p.onCanvasClick x rect).st.audio.currentTime = (x - rect.left) / rect.width * D ∧
    0 ≤ (x - rect.left) / rect.width * D ∧ (x - rect.left) / rect.width * D ≤ D ∧
    (p.onCanvasClick x rect).st.currentSongId = p.currentSongId ∧
    (p.onCanvasClick x rect).st.title = p.title ∧
    (p.onCanvasClick x rect).st.audio.paused = p.audio.paused ∧
    (p.onCanvasClick x rect).st.audio.src = p.audio.src := by
  have e := onCanvasClick_finite p x rect D hD.ne' hdur hw.ne'
  rw [e]
  refine ⟨rfl, rfl, mul_nonneg hf0 hD.le, ?_, rfl, rfl, rfl, rfl⟩
  calc (x - rect.left) / rect.width * D ≤ 1 * D := mul_le_mul_of_nonneg_right hf1 hD.le
    _ = D := one_mul D

/-- Witness of C16: a click at x = 100 on a box from 0 to 400 while a track of 100 seconds
is 10 seconds in moves the position to 25. -/
theorem click_seeks_witness :
    (Player.midTrack.onCanvasClick 100 ⟨0, 400, 100⟩).st.audio.currentTime
      = (100 - 0) / 400 * 100 :=
  (click_seeks Player.midTrack 100 ⟨0, 400, 100⟩ 100 (by norm_num) rfl
    (by norm_num) (by norm_num) (by norm_num)).2.1

/-- C17. With a canvas box of positive width, a click of the pointer whose offset
`f = (x - left) / width` lies outside `[0, 1]` falls outside the canvas.  The click listener
is registered on the canvas, so it does not run for that click: no seek is performed, the
playback position and every other field of the player are unchanged and nothing is thrown,
whatever the duration.  A click whose offset lies in `[0, 1)` hits the canvas and runs the
listener, which itself checks the duration only. -/
theorem click_outside_ignored (p : Player) (x : ℚ) (rect : Rect) (hw : 0 < rect.width)
    (hf : (x - rect.left) / rect.width < 0 ∨ 1 < (x - rect.left) / rect.width) :
    p.pointerClick x rect = ⟨p, none⟩ ∧
    (p.pointerClick x rect).st.audio.currentTime = p.audio.currentTime ∧
    (p.pointerClick x rect).err = none ∧
    (∀ y : ℚ, 0 ≤ (y - rect.left) / rect.width → (y - rect.left) / rect.width < 1 →
      p.pointerClick y rect = p.onCanvasClick y rect) := by
  have hmiss : ¬ (rect.left ≤ x ∧ x < rect.left + rect.width) := by
    rintro ⟨h1, h2⟩
    rcases hf with hf | hf
    · rw [div_lt_iff₀ hw] at hf
      linarith
    · rw [lt_div_iff₀ hw] at hf
      linarith
  have e : p.pointerClick x rect = ⟨p, none⟩ := by
    unfold pointerClick
    rw [if_neg hmiss]
  refine ⟨e, by rw [e], by rw [e], ?_⟩
  intro y h0 h1
  rw [le_div_iff₀ hw] at h0
  rw [div_lt_iff₀ hw] at h1
  unfold pointerClick
  rw [if_pos ⟨by linarith, by linarith⟩]

/-- Witness of C17: while a track of 100 seconds is 10 seconds in, a click at x = 600 beside
a canvas that spans 0 to 400 (offset 1.5) leaves the position at 10. -/
theorem click_outside_ignored_witness :
    (1 : ℚ) < (600 - (⟨0, 400, 100⟩ : Rect).left) / (⟨0, 400, 100⟩ : Rect).width ∧
    (Player.midTrack.pointerClick 600 ⟨0, 400, 100⟩).st.audio.currentTime = 10 :=
  ⟨by norm_num,
    (click_outside_ignored Player.midTrack 600 ⟨0, 400, 100⟩ (by norm_num)
      (Or.inr (by norm_num))).2.1⟩

end Squalus

namespace Squalus

open Player WaveformRenderer

/-- C18. While the duration is unknown (`NaN`, as the element reports an absent duration, or
0), the position-update handler returns the state unchanged (renderer progress, elapsed-time
text and list of draws are as before) and the click handler returns the state unchanged
(playback position as before); neither throws. -/
theorem unknown_duration_noop (p : Player) (x : ℚ) (rect : Rect)
    (h : p.audio.duration = .nan ∨ p.audio.duration = .fin 0) :
    p.onTimeUpdate = ⟨p, none⟩ ∧
    p.onTimeUpdate.st.waveform.progress = p.waveform.progress ∧
    p.onTimeUpdate.st.timeText = p.timeText ∧
    p.onTimeUpdate.st.waveform.draws = p.waveform.draws ∧
    p.onCanvasClick x rect = ⟨p, none⟩ ∧
    (p.onCanvasClick x rect).st.audio.currentTime = p.audio.currentTime := by
  have ht : p.audio.duration.truthy = false := by
    rcases h with h | h <;> simp [h, JSNum.truthy]
  have e1 : p.onTimeUpdate = ⟨p, none⟩ := by simp [onTimeUpdate, ht]
  have e2 : p.onCanvasClick x rect = ⟨p, none⟩ := by simp [onCanvasClick, ht]
  rw [e1, e2]
  exact ⟨rfl, rfl, rfl, rfl, rfl, rfl⟩

/-- Witness of C18: a new player has no duration (`NaN`), and a position update changes
nothing. -/
theorem unknown_duration_noop_witness :
    ((Player.new ⟨0, 400, 100⟩ 1).audio.duration = .nan ∨
      (Player.new ⟨0, 400, 100⟩ 1).audio.duration = .fin 0) ∧
    (Player.new ⟨0, 400, 100⟩ 1).onTimeUpdate = ⟨Player.new ⟨0, 400, 100⟩ 1, none⟩ :=
  ⟨Or.inl rfl, (unknown_duration_noop (Player.new ⟨0, 400, 100⟩ 1) 0 ⟨0, 400, 100⟩
    (Or.inl rfl)).1⟩

theorem onTimeUpdate_known (p : Player) (h : p.audio.duration.truthy = true) :
    p.onTimeUpdate =
      ⟨{ p with
          waveform := (p.waveform.setProgress
            (JSNum.div (.fin p.audio.currentTime) p.audio.duration)).st
          timeText := fmt p.audio.currentTime }, none⟩ := by
  simp [onTimeUpdate, h, (setProgress_frame _ p.waveform).1]

theorem setProgress_st_none (v : JSNum) (s : WaveformRenderer) (h : s.animId = none) :
    (s.setProgress v).st =
      { s with
        progress := JSNum.mathMax 0 (JSNum.mathMin 1 v)
        draws := s.draws ++
          [{ live := s.data.isSome && s.analyser.isSome, data := s.data,
             progress := JSNum.mathMax 0 (JSNum.mathMin 1 v), w := s.w, h := s.h }] } := by
  simp [setProgress, h, draw]

theorem setProgress_st_some (v : JSNum) (s : WaveformRenderer) (id : Nat)
    (h : s.animId = some id) (hid : id ≠ 0) :
    (s.setProgress v).st = { s with progress := JSNum.mathMax 0 (JSNum.mathMin 1 v) } := by
  simp [setProgress, h, hid]

theorem setProgress_twice_loop (v : JSNum) (s : WaveformRenderer) (id : Nat)
    (hid : s.animId = some id) (hne : id ≠ 0) :
    ((s.setProgress v).st.setProgress v).st = (s.setProgress v).st := by
  simp [setProgress, hid, hne]

theorem setProgress_twice_idle (v : JSNum) (s : WaveformRenderer) (hid : s.animId = none) :
    (s.setProgress v).st.draws = s.draws ++
      [{ live := s.data.isSome && s.analyser.isSome, data := s.data,
         progress := JSNum.mathMax 0 (JSNum.mathMin 1 v), w := s.w, h := s.h }] ∧
    ((s.setProgress v).st.setProgress v).st =
      { (s.setProgress v).st with
        draws := (s.setProgress v).st.draws ++
          [{ live := s.data.isSome && s.analyser.isSome, data := s.data,
             progress := JSNum.mathMax 0 (JSNum.mathMin 1 v), w := s.w, h := s.h }] } := by
  simp [setProgress, hid, draw]

theorem onTimeUpdate_frame (p : Player) (h : p.audio.duration.truthy = true) :
    p.onTimeUpdate.st.audio = p.audio ∧
    p.onTimeUpdate.st.waveform = (p.waveform.setProgress
      (JSNum.div (.fin p.audio.currentTime) p.audio.duration)).st ∧
    p.onTimeUpdate.st.timeText = fmt p.audio.currentTime := by
  rw [onTimeUpdate_known p h]
  exact ⟨rfl, rfl, rfl⟩

theorem onTimeUpdate_twice_loop (p : Player) (h : p.audio.duration.truthy = true)
    (id : Nat) (hid : p.waveform.animId = some id) (hne : id ≠ 0) :
    p.onTimeUpdate.st.onTimeUpdate = ⟨p.onTimeUpdate.st, none⟩ := by
  obtain ⟨ea, ew, et⟩ := onTimeUpdate_frame p h
  have h' : p.onTimeUpdate.st.audio.duration.truthy = true := by rw [ea]; exact h
  rw [onTimeUpdate_known p.onTimeUpdate.st h']
  have hX : (p.onTimeUpdate.st.waveform.setProgress
      (JSNum.div (.fin p.onTimeUpdate.st.audio.currentTime)
        p.onTimeUpdate.st.audio.duration)).st = p.onTimeUpdate.st.waveform := by
    rw [ea, ew]
    exact setProgress_twice_loop _ p.waveform id hid hne
  have hY : fmt p.onTimeUpdate.st.audio.currentTime = p.onTimeUpdate.st.timeText := by
    rw [ea, et]
  rw [hX, hY]

theorem onTimeUpdate_twice_idle (p : Player) (h : p.audio.duration.truthy = true)
    (hid : p.waveform.animId = none) :
    ∃ c, p.onTimeUpdate.st.waveform.draws = p.waveform.draws ++ [c] ∧
      p.onTimeUpdate.st.onTimeUpdate =
        ⟨{ p.onTimeUpdate.st with
            waveform := { p.onTimeUpdate.st.waveform with
              draws := p.onTimeUpdate.st.waveform.draws ++ [c] } }, none⟩ := by
  obtain ⟨ea, ew, et⟩ := onTimeUpdate_frame p h
  have h' : p.onTimeUpdate.st.audio.duration.truthy = true := by rw [ea]; exact h
  obtain ⟨d1, d2⟩ := setProgress_twice_idle
    (JSNum.div (.fin p.audio.currentTime) p.audio.duration) p.waveform hid
  refine ⟨_, by rw [ew]; exact d1, ?_⟩
  rw [onTimeUpdate_known p.onTimeUpdate.st h']
  have hX : (p.onTimeUpdate.st.waveform.setProgress
      (JSNum.div (.fin p.onTimeUpdate.st.audio.currentTime)
        p.onTimeUpdate.st.audio.duration)).st =
      { p.onTimeUpdate.st.waveform with
        draws := p.onTimeUpdate.st.waveform.draws ++
          [{ live := p.waveform.data.isSome && p.waveform.analyser.isSome
             data := p.waveform.data
             progress := JSNum.mathMax 0 (JSNum.mathMin 1
               (JSNum.div (.fin p.audio.currentTime) p.audio.duration))
             w := p.waveform.w, h := p.waveform.h }] } := by
    rw [ea, ew]
    exact d2
  have hY : fmt p.onTimeUpdate.st.audio.currentTime = p.onTimeUpdate.st.timeText := by
    rw [ea, et]
  rw [hX, hY]

/-- C19. On a position-update notification with a known duration (neither `NaN` nor 0) and
current time `t`, the handler returns without an exception, the renderer's progress is
`clamp(t / D, 0, 1)` for a finite duration `D` (and 0 for an endless stream) and the
elapsed-time text is `_fmt(t)`.  Handling the same notification a second time leaves that
state as it is: nothing changes while the render loop runs, and without a loop the only
effect is that the same draw is performed once more. -/
theorem position_update (p : Player) (h : p.audio.duration.truthy = true) :
    p.onTimeUpdate.err = none ∧
    (∀ D, p.audio.duration = .fin D →
      p.onTimeUpdate.st.waveform.progress = .fin (max 0 (min 1 (p.audio.currentTime / D)))) ∧
    (p.audio.duration = .posInf → p.onTimeUpdate.st.waveform.progress = .fin 0) ∧
    p.onTimeUpdate.st.timeText = fmt p.audio.currentTime ∧
    (∀ id, p.waveform.animId = some id → id ≠ 0 →
      p.onTimeUpdate.st.onTimeUpdate = ⟨p.onTimeUpdate.st, none⟩) ∧
    (p.waveform.animId = none →
      ∃ c, p.onTimeUpdate.st.waveform.draws = p.waveform.draws ++ [c] ∧
        p.onTimeUpdate.st.onTimeUpdate =
          ⟨{ p.onTimeUpdate.st with
              waveform := { p.onTimeUpdate.st.waveform with
                draws := p.onTimeUpdate.st.waveform.draws ++ [c] } }, none⟩) := by
  have e1 := onTimeUpdate_known p h
  have ew : p.onTimeUpdate.st.waveform = (p.waveform.setProgress
      (JSNum.div (.fin p.audio.currentTime) p.audio.duration)).st := by rw [e1]
  have et : p.onTimeUpdate.st.timeText = fmt p.audio.currentTime := by rw [e1]
  refine ⟨by rw [e1], ?_, ?_, et, fun id hid hne => onTimeUpdate_twice_loop p h id hid hne,
    fun hid => onTimeUpdate_twice_idle p h hid⟩
  · intro D hD
    have hD0 : D ≠ 0 := by
      intro h0
      rw [hD, h0] at h
      simp [JSNum.truthy] at h
    rw [ew, setProgress_progress, hD]
    simp only [JSNum.div, hD0, if_false]
    exact mathMax_mathMin_fin _
  · intro hD
    rw [ew, setProgress_progress, hD]
    exact mathMax_mathMin_fin 0

/-- Witness of C19 on the player 10 seconds into a track of 100 seconds: the progress
becomes 1/10. -/
theorem position_update_witness :
    Player.midTrack.audio.duration.truthy = true ∧
    Player.midTrack.onTimeUpdate.st.waveform.progress
      = .fin (max 0 (min 1 (Player.midTrack.audio.currentTime / 100))) :=
  ⟨by decide, (position_update Player.midTrack (by decide)).2.1 100 rfl⟩

end Squalus

namespace Squalus

open Player

theorem padStart2_twoDigits : ∀ n < 60, padStart2 (toString n) = twoDigits n := by decide

theorem jsRem_sixty (s : ℚ) (hs : 0 ≤ s) :
    jsRem s 60 = s - 60 * ⌊s / 60⌋ ∧ 0 ≤ jsRem s 60 ∧ jsRem s 60 < 60 := by
  have h0 : (0 : ℚ) ≤ s / 60 := by positivity
  have e : jsRem s 60 = s - 60 * ⌊s / 60⌋ := by simp [jsRem, h0]
  have h1 : (⌊s / 60⌋ : ℚ) ≤ s / 60 := Int.floor_le _
  have h2 : s / 60 < ⌊s / 60⌋ + 1 := Int.lt_floor_add_one _
  rw [e]
  refine ⟨rfl, ?_, ?_⟩ <;> linarith

theorem floor_jsRem_sixty (s : ℚ) (hs : 0 ≤ s) :
    ⌊jsRem s 60⌋ = ⌊s⌋ - 60 * ⌊s / 60⌋ ∧ 0 ≤ ⌊jsRem s 60⌋ ∧ ⌊jsRem s 60⌋ ≤ 59 := by
  obtain ⟨e, h0, h1⟩ := jsRem_sixty s hs
  refine ⟨?_, Int.floor_nonneg.mpr h0, ?_⟩
  · rw [e]
    have : (60 : ℚ) * ⌊s / 60⌋ = ((60 * ⌊s / 60⌋ : ℤ) : ℚ) := by push_cast; ring
    rw [this, Int.floor_sub_int]
  · have : ⌊jsRem s 60⌋ < 60 := Int.floor_lt.mpr (by exact_mod_cast h1)
    omega

theorem fmt_eq (s : ℚ) (hs : 0 ≤ s) :
    fmt s = toString ⌊s / 60⌋.toNat ++ ":" ++ twoDigits ⌊jsRem s 60⌋.toNat := by
  obtain ⟨-, h0, h1⟩ := floor_jsRem_sixty s hs
  have hm : 0 ≤ ⌊s / 60⌋ := Int.floor_nonneg.mpr (by positivity)
  obtain ⟨M, hM⟩ := Int.eq_ofNat_of_zero_le hm
  obtain ⟨S, hS⟩ := Int.eq_ofNat_of_zero_le h0
  have hS60 : S < 60 := by omega
  unfold fmt
  simp only [hM, hS, Int.toNat_ofNat]
  rw [← padStart2_twoDigits S hS60]
  rfl

/-- C20. For a time `s >= 0`, `_fmt(s)` is the decimal numeral of `M = floor(s / 60)`, a
colon, and the two digits (tens, units) of `SS = floor(s mod 60)`; `s mod 60` is
`s - 60 * M`, `SS` lies in 0..59 and `60 * M + SS = floor(s)`.  In particular
`_fmt(65) = "1:05"` and `_fmt(0) = "0:00"`. -/
theorem fmt_minutes_seconds (s : ℚ) (hs : 0 ≤ s) :
    fmt s = toString ⌊s / 60⌋.toNat ++ ":" ++ twoDigits ⌊jsRem s 60⌋.toNat ∧
    (twoDigits ⌊jsRem s 60⌋.toNat).length = 2 ∧
    jsRem s 60 = s - 60 * ⌊s / 60⌋ ∧
    0 ≤ ⌊s / 60⌋ ∧ 0 ≤ ⌊jsRem s 60⌋ ∧ ⌊jsRem s 60⌋ ≤ 59 ∧
    60 * ⌊s / 60⌋ + ⌊jsRem s 60⌋ = ⌊s⌋ ∧
    fmt 65 = "1:05" ∧ fmt 0 = "0:00" := by
  obtain ⟨e, h0, h1⟩ := floor_jsRem_sixty s hs
  refine ⟨fmt_eq s hs, rfl, (jsRem_sixty s hs).1, Int.floor_nonneg.mpr (by positivity),
    h0, h1, by omega, ?_, ?_⟩
  · have hm : ⌊(65 : ℚ) / 60⌋ = 1 := by
      rw [Int.floor_eq_iff]; constructor <;> norm_num
    have hf : ⌊(65 : ℚ)⌋ = 65 := by
      rw [Int.floor_eq_iff]; constructor <;> norm_num
    have hr : ⌊jsRem 65 60⌋ = 5 := by
      rw [(floor_jsRem_sixty 65 (by norm_num)).1, hm, hf]; rfl
    rw [fmt_eq 65 (by norm_num), hm, hr]
    decide
  · have hm : ⌊(0 : ℚ) / 60⌋ = 0 := by simp
    have hr : ⌊jsRem 0 60⌋ = 0 := by
      rw [(floor_jsRem_sixty 0 le_rfl).1, hm]; simp
    rw [fmt_eq 0 le_rfl, hm, hr]
    decide

/-- Witness of C20 at 125.5 seconds: two minutes, and a seconds part within 0..59. -/
theorem fmt_minutes_seconds_witness :
    (0 : ℚ) ≤ 251 / 2 ∧
    fmt (251 / 2) = toString ⌊(251 / 2 : ℚ) / 60⌋.toNat ++ ":" ++
      twoDigits ⌊jsRem (251 / 2) 60⌋.toNat ∧
    ⌊jsRem (251 / 2) 60⌋ ≤ 59 :=
  ⟨by norm_num, (fmt_minutes_seconds (251 / 2) (by norm_num)).1,
    (fmt_minutes_seconds (251 / 2) (by norm_num)).2.2.2.2.2.1⟩

end Squalus

/-! ## Theorems: track binding, icon, module interface -/

namespace Squalus

open Player

theorem resumeAndPlay_ui (env : Platform) (p : Player) :
    (resumeAndPlay env p).st.toggleIcon = p.toggleIcon ∧
    (resumeAndPlay env p).st.timeText = p.timeText ∧
    (resumeAndPlay env p).st.audio.currentTime = p.audio.currentTime := by
  unfold resumeAndPlay
  cases hc : p.audioCtx with
  | none => simp [hc]
  | some c =>
    by_cases hs : c.state = .suspended <;> simp [hs, hc, audioPlay, emit]

theorem graphResumePlay_ui (env : Platform) (p : Player) :
    (graphResumePlay env p).st.toggleIcon = p.toggleIcon ∧
    (graphResumePlay env p).st.timeText = p.timeText := by
  obtain ⟨-, -, -, -, -, i6, i7, -, -, -⟩ := initAudioCtx_frame env p
  unfold graphResumePlay
  cases he : (p.initAudioCtx env).err with
  | some e => exact ⟨i7, i6⟩
  | none =>
    obtain ⟨r1, r2, -⟩ := resumeAndPlay_ui env (p.initAudioCtx env).st
    exact ⟨r1.trans i7, r2.trans i6⟩

theorem play_currentSongId (p : Player) (songId : Nat) (t : Option String) (a : Bool)
    (env : Platform) :
    (p.play songId t a env).st.currentSongId = some songId ∨
    (p.play songId t a env).st = p := by
  rw [play_eq]
  split_ifs with hg hc
  · exact Or.inr rfl
  · left
    rw [(graphResumePlay_frame env _).2.1]
    exact hc
  · left
    rw [(graphResumePlay_frame env _).2.1]
    rfl

theorem togglePlay_frame (env : Platform) (p : Player) :
    (p.togglePlay env).st.currentSongId = p.currentSongId ∧
    (p.togglePlay env).st.toggleIcon = p.toggleIcon ∧
    (p.togglePlay env).st.timeText = p.timeText := by
  rw [togglePlay_eq]
  split_ifs
  · exact ⟨rfl, rfl, rfl⟩
  · exact ⟨(graphResumePlay_frame env p).2.1, (graphResumePlay_ui env p).1,
      (graphResumePlay_ui env p).2⟩
  · exact ⟨rfl, rfl, rfl⟩

theorem play_ui (p : Player) (songId : Nat) (t : Option String) (a : Bool)
    (env : Platform) :
    (p.play songId t a env).st.toggleIcon = p.toggleIcon ∧
    (p.play songId t a env).st.timeText = p.timeText := by
  rw [play_eq]
  split_ifs
  · exact ⟨rfl, rfl⟩
  · exact graphResumePlay_ui env _
  · exact graphResumePlay_ui env _

theorem onTimeUpdate_keeps (p : Player) :
    p.onTimeUpdate.st.currentSongId = p.currentSongId ∧
    p.onTimeUpdate.st.toggleIcon = p.toggleIcon ∧
    p.onTimeUpdate.st.audio = p.audio ∧
    p.onTimeUpdate.st.trace = p.trace := by
  unfold onTimeUpdate
  split_ifs
  · simp [(setProgress_frame _ p.waveform).1]
  · exact ⟨rfl, rfl, rfl, rfl⟩

theorem onCanvasClick_keeps (p : Player) (x : ℚ) (rect : Rect) :
    (p.onCanvasClick x rect).st.currentSongId = p.currentSongId ∧
    (p.onCanvasClick x rect).st.toggleIcon = p.toggleIcon ∧
    (p.onCanvasClick x rect).st.timeText = p.timeText ∧
    (p.onCanvasClick x rect).st.trace = p.trace := by
  unfold onCanvasClick
  split_ifs <;> exact ⟨rfl, rfl, rfl, rfl⟩

theorem playerAction_currentSongId (a : PlayerAction) (p : Player)
    (h : (a.apply p).st.currentSongId ≠ p.currentSongId) :
    ∃ songId t ar env, a = .play songId t ar env ∧ p.currentSongId ≠ some songId ∧
      (a.apply p).st.currentSongId = some songId := by
  cases a with
  | play songId t ar env =>
    refine ⟨songId, t, ar, env, rfl, ?_, ?_⟩
    · intro hc
      rcases play_currentSongId p songId t ar env with h1 | h1
      · exact h (by simp only [PlayerAction.apply]; rw [h1, hc])
      · exact h (by simp only [PlayerAction.apply]; rw [h1])
    · rcases play_currentSongId p songId t ar env with h1 | h1
      · exact h1
      · exact absurd (by simp only [PlayerAction.apply]; rw [h1]) h
  | togglePlay env => exact absurd (togglePlay_frame env p).1 h
  | audioPaused b => exact absurd rfl h
  | contextState st => exact absurd rfl h
  | resized r d => exact absurd rfl h
  | frame id sp => exact absurd rfl h

/-- C21. On a newly constructed player `currentSongId` is null.  `togglePlay()`, the
position-update, play, pause and ended listeners and the click listener leave it unchanged.
A call `play(newId, ...)` leaves it unchanged when `newId` is the current value and makes it
`newId` otherwise.  So whenever an event changes `currentSongId`, the event is a call
`play(newId, ...)` with `newId` different from the old value, and the new value is `newId`. -/
theorem currentSongId_changes_only_in_play (rect : Rect) (devicePixelRatio : ℚ) (p : Player)
    (e : PlayerEvent) (env : Platform) (songId : Nat) (t : Option String) (a : Bool)
    (x : ℚ) (box : Rect) :
    (Player.new rect devicePixelRatio).currentSongId = none ∧
    (p.togglePlay env).st.currentSongId = p.currentSongId ∧
    p.onTimeUpdate.st.currentSongId = p.currentSongId ∧
    p.onPlay.st.currentSongId = p.currentSongId ∧
    p.onPause.st.currentSongId = p.currentSongId ∧
    p.onEnded.st.currentSongId = p.currentSongId ∧
    (p.onCanvasClick x box).st.currentSongId = p.currentSongId ∧
    (p.currentSongId = some songId →
      (p.play songId t a env).st.currentSongId = p.currentSongId) ∧
    (p.currentSongId ≠ some songId →
      (p.play songId t a env).st.currentSongId = some songId) ∧
    ((e.apply p).st.currentSongId ≠ p.currentSongId →
      ∃ newId title hasArt platform, e = .action (.play newId title hasArt platform) ∧
        p.currentSongId ≠ some newId ∧ (e.apply p).st.currentSongId = some newId) := by
  refine ⟨rfl, (togglePlay_frame env p).1, (onTimeUpdate_keeps p).1, rfl, rfl, rfl,
    (onCanvasClick_keeps p x box).1, ?_, ?_, ?_⟩
  · intro hc
    rcases play_currentSongId p songId t a env with h1 | h1
    · rw [h1, hc]
    · rw [h1]
  · intro hc
    rw [play_other songId t a env p hc, (graphResumePlay_frame env _).2.1]
    rfl
  · intro h
    cases e with
    | action act =>
      obtain ⟨i, ti, ai, ei, h1, h2, h3⟩ := playerAction_currentSongId act p h
      exact ⟨i, ti, ai, ei, by rw [h1], h2, h3⟩
    | timeupdate => exact absurd (onTimeUpdate_keeps p).1 h
    | played => exact absurd rfl h
    | paused => exact absurd rfl h
    | ended => exact absurd rfl h
    | canvasClick cx r => exact absurd (onCanvasClick_keeps p cx r).1 h

/-- Witness of C21: on a new player `play(7, ...)` is an event that changes `currentSongId`
(from null to 7). -/
theorem currentSongId_changes_only_in_play_witness :
    ((PlayerEvent.action (.play 7 (some "Song B") false ⟨none, .running, [], true⟩)).apply
      (Player.new ⟨0, 400, 100⟩ 1)).st.currentSongId ≠ (Player.new ⟨0, 400, 100⟩ 1).currentSongId ∧
    ∃ newId title hasArt platform,
      PlayerEvent.action (.play 7 (some "Song B") false ⟨none, .running, [], true⟩)
        = .action (.play newId title hasArt platform) ∧
      (Player.new ⟨0, 400, 100⟩ 1).currentSongId ≠ some newId ∧
      ((PlayerEvent.action (.play 7 (some "Song B") false ⟨none, .running, [], true⟩)).apply
        (Player.new ⟨0, 400, 100⟩ 1)).st.currentSongId = some newId :=
  ⟨by decide,
    (currentSongId_changes_only_in_play ⟨0, 400, 100⟩ 1 (Player.new ⟨0, 400, 100⟩ 1)
      (.action (.play 7 (some "Song B") false ⟨none, .running, [], true⟩))
      ⟨none, .running, [], true⟩ 7 none false 0 ⟨0, 400, 100⟩).2.2.2.2.2.2.2.2.2 (by decide)⟩

end Squalus

namespace Squalus

open Player

theorem graphResumePlay_accept (env : Platform) (p : Player) :
    (graphResumePlay { env with playAccepted := false } p).err
      = (graphResumePlay { env with playAccepted := true } p).err ∧
    (graphResumePlay { env with playAccepted := false } p).st =
      { (graphResumePlay { env with playAccepted := true } p).st with
        audio := { (graphResumePlay { env with playAccepted := true } p).st.audio with
          paused := (graphResumePlay { env with playAccepted := false } p).st.audio.paused } } := by
  have hi : ∀ b, p.initAudioCtx { env with playAccepted := b } = p.initAudioCtx env :=
    fun _ => rfl
  unfold graphResumePlay
  rw [hi false, hi true]
  cases he : (p.initAudioCtx env).err with
  | some e => exact ⟨rfl, rfl⟩
  | none =>
    simp only [resumeAndPlay]
    cases hc : (p.initAudioCtx env).st.audioCtx with
    | none => exact ⟨rfl, rfl⟩
    | some c =>
      by_cases hs : c.state = .suspended <;> simp [hs, audioPlay, emit]

theorem play_accept (p : Player) (songId : Nat) (t : Option String) (a : Bool)
    (env : Platform) :
    (p.play songId t a { env with playAccepted := false }).err
      = (p.play songId t a { env with playAccepted := true }).err ∧
    (p.play songId t a { env with playAccepted := false }).st =
      { (p.play songId t a { env with playAccepted := true }).st with
        audio := { (p.play songId t a { env with playAccepted := true }).st.audio with
          paused := (p.play songId t a { env with playAccepted := false }).st.audio.paused } } := by
  rw [play_eq songId t a { env with playAccepted := false },
    play_eq songId t a { env with playAccepted := true }]
  split_ifs
  · exact ⟨rfl, rfl⟩
  · exact graphResumePlay_accept env _
  · exact graphResumePlay_accept env _

theorem play_paused_after (p : Player) (songId : Nat) (t : Option String) (a : Bool)
    (env : Platform) (hg : ¬(p.currentSongId = some songId ∧ p.audio.paused = false))
    (he : (p.play songId t a env).err = none) :
    (p.play songId t a env).st.audio.paused = !env.playAccepted := by
  by_cases hc : p.currentSongId = some songId
  · rw [play_same songId t a env p hg hc] at he ⊢
    rw [((graphResumePlay_requests env _).1 he).2.1]
    have hp : p.audio.paused = true := by
      cases hpp : p.audio.paused with
      | true => rfl
      | false => exact absurd ⟨hc, hpp⟩ hg
    simp [hp]
  · rw [play_other songId t a env p hc] at he ⊢
    rw [((graphResumePlay_requests env _).1 he).2.1]
    simp [bindTrack, AudioElement.setSrc]

/-- C22. For a call `play(newId, title, hasArt)` with `newId` other than the current track,
`play` is the binding followed by the graph/resume/play sequence: the binding writes track,
source, title, artwork (when `hasArt`) and bar visibility and issues no request, and every
request is issued on the bound state.  Afterwards these fields hold the bound values
whatever the platform answered (start accepted, start refused, construction refused), and
the state after a refused start is the state after an accepted start apart from the paused
flag of the element. -/
theorem play_binding_not_rolled_back (p : Player) (songId : Nat) (t : Option String)
    (a : Bool) (env : Platform) (h : p.currentSongId ≠ some songId) :
    p.play songId t a env = graphResumePlay env (bindTrack songId t a p) ∧
    (bindTrack songId t a p).trace = p.trace ∧
    (bindTrack songId t a p).currentSongId = some songId ∧
    (bindTrack songId t a p).audio.src = api.audioUrl songId ∧
    (bindTrack songId t a p).title = titleOrUntitled t ∧
    (bindTrack songId t a p).barHidden = false ∧
    (a = true → (bindTrack songId t a p).art = .image (api.artUrl songId)) ∧
    (p.play songId t a env).st.currentSongId = some songId ∧
    (p.play songId t a env).st.audio.src = api.audioUrl songId ∧
    (p.play songId t a env).st.title = titleOrUntitled t ∧
    (p.play songId t a env).st.barHidden = false ∧
    (p.play songId t a env).st.art = (bindTrack songId t a p).art ∧
    (p.play songId t a { env with playAccepted := false }).st =
      { (p.play songId t a { env with playAccepted := true }).st with
        audio := { (p.play songId t a { env with playAccepted := true }).st.audio with
          paused := (p.play songId t a { env with playAccepted := false }).st.audio.paused } } := by
  obtain ⟨f1, f2, f3, f4, f5, -⟩ := graphResumePlay_frame env (bindTrack songId t a p)
  rw [play_other songId t a env p h]
  refine ⟨rfl, rfl, rfl, rfl, rfl, rfl, ?_, f2, f1, f3, f5, f4, (play_accept p songId t a env).2⟩
  intro ha
  simp [bindTrack, ha]

/-- Witness of C22: on the player that plays song 7, `play(42, "Song A", true)` with a
refused start still binds song 42. -/
theorem play_binding_not_rolled_back_witness :
    Player.midTrack.currentSongId ≠ some 42 ∧
    (Player.midTrack.play 42 (some "Song A") true
      ⟨none, .running, [], false⟩).st.currentSongId = some 42 :=
  ⟨by decide, (play_binding_not_rolled_back Player.midTrack 42 (some "Song A") true
    ⟨none, .running, [], false⟩ (by decide)).2.2.2.2.2.2.2.1⟩

/-- C23, as stated, fails: on a new player `play(42, "Song A", true)` gives its caller the
same outcome, a normal return, when the platform accepts the start and when it rejects
it. -/
theorem play_rejection_not_returned :
    ((Player.new ⟨0, 400, 100⟩ 1).play 42 (some "Song A") true
        ⟨none, .running, [], false⟩).completion
      = ((Player.new ⟨0, 400, 100⟩ 1).play 42 (some "Song A") true
        ⟨none, .running, [], true⟩).completion ∧
    ((Player.new ⟨0, 400, 100⟩ 1).play 42 (some "Song A") true
        ⟨none, .running, [], false⟩).completion = .ok () := by
  constructor <;> rfl

/-- C23, amended.  What `play` returns to its caller does not depend on whether the audio
primitive accepts or rejects the playback-start request: the completion is the same in both
cases (the result of `audio.play()` is dropped).  Outside the no-op case a call that runs to
its end leaves the element paused after a rejected start and not paused after an accepted
one; that flag is the only difference between the two states. -/
theorem play_outcome_ignores_start (p : Player) (songId : Nat) (t : Option String) (a : Bool)
    (env : Platform) :
    (p.play songId t a { env with playAccepted := false }).completion
      = (p.play songId t a { env with playAccepted := true }).completion ∧
    (p.play songId t a { env with playAccepted := false }).st =
      { (p.play songId t a { env with playAccepted := true }).st with
        audio := { (p.play songId t a { env with playAccepted := true }).st.audio with
          paused := (p.play songId t a { env with playAccepted := false }).st.audio.paused } } ∧
    (¬(p.currentSongId = some songId ∧ p.audio.paused = false) →
      (p.play songId t a { env with playAccepted := true }).err = none →
      (p.play songId t a { env with playAccepted := false }).st.audio.paused = true ∧
      (p.play songId t a { env with playAccepted := true }).st.audio.paused = false) := by
  obtain ⟨e1, e2⟩ := play_accept p songId t a env
  refine ⟨?_, e2, fun hg he => ⟨?_, ?_⟩⟩
  · unfold Outcome.completion
    rw [e1]
  · rw [play_paused_after p songId t a _ hg (e1.trans he)]
    rfl
  · rw [play_paused_after p songId t a _ hg he]
    rfl

/-- Witness of the amended C23 on a new player: after a rejected start of song 42 the
element is still paused, after an accepted start it is not. -/
theorem play_outcome_ignores_start_witness :
    ((Player.new ⟨0, 400, 100⟩ 1).play 42 (some "Song A") true
        ⟨none, .running, [], false⟩).st.audio.paused = true ∧
    ((Player.new ⟨0, 400, 100⟩ 1).play 42 (some "Song A") true
        ⟨none, .running, [], true⟩).st.audio.paused = false :=
  (play_outcome_ignores_start (Player.new ⟨0, 400, 100⟩ 1) 42 (some "Song A") true
    ⟨none, .running, [], true⟩).2.2 (by decide) (by decide)

end Squalus

namespace Squalus

open Player PlayerModule

theorem getElem?_append_at_length {α : Type} (l r : List α) (i : Nat) :
    (l ++ r)[l.length + i]? = r[i]? := by
  rw [List.getElem?_append_right (Nat.le_add_right _ _)]
  simp

/-- C24. Before any `initPlayer` call `getPlayer()` returns null.  A call `initPlayer(host)`
constructs a player, and `getPlayer()` then returns the handle `initPlayer` returned;
`getPlayer()` changes nothing, so any number of later calls return that handle.
`initPlayer` has no guard: a second call constructs another player (no track, no graph)
under a new handle, which `getPlayer()` returns from then on, while the first player stays
as it was. -/
theorem singleton_accessors (rect box : Rect) (dpr dpr2 : ℚ) (m : PlayerModule) (k : Nat) :
    (getPlayer loaded).1 = none ∧
    (getPlayer (initPlayer rect dpr m).2).1 = some (initPlayer rect dpr m).1 ∧
    (getPlayer m).2 = m ∧
    (getPlayer ((fun s => (getPlayer s).2)^[k] (initPlayer rect dpr m).2)).1
      = some (initPlayer rect dpr m).1 ∧
    (initPlayer rect dpr m).2.heap[(initPlayer rect dpr m).1]? = some (Player.new rect dpr) ∧
    (initPlayer box dpr2 (initPlayer rect dpr m).2).1 ≠ (initPlayer rect dpr m).1 ∧
    (getPlayer (initPlayer box dpr2 (initPlayer rect dpr m).2).2).1
      = some (initPlayer box dpr2 (initPlayer rect dpr m).2).1 ∧
    (initPlayer box dpr2 (initPlayer rect dpr m).2).2.heap[
        (initPlayer box dpr2 (initPlayer rect dpr m).2).1]? = some (Player.new box dpr2) ∧
    (Player.new box dpr2).currentSongId = none ∧ (Player.new box dpr2).audioCtx = none ∧
    (initPlayer box dpr2 (initPlayer rect dpr m).2).2.heap[(initPlayer rect dpr m).1]?
      = some (Player.new rect dpr) := by
  have hk : ∀ (n : Nat) (s : PlayerModule), (fun s => (getPlayer s).2)^[n] s = s := by
    intro n
    induction n with
    | zero => intro s; rfl
    | succ n ih => intro s; rw [Function.iterate_succ_apply, ih]; rfl
  refine ⟨rfl, rfl, rfl, by rw [hk]; rfl, ?_, ?_, rfl, ?_, rfl, rfl, ?_⟩
  · simp [initPlayer]
  · simp [initPlayer]
  · have := getElem?_append_at_length (m.heap ++ [Player.new rect dpr]) [Player.new box dpr2] 0
    simpa [initPlayer] using this
  · have := getElem?_append_at_length m.heap [Player.new rect dpr, Player.new box dpr2] 0
    simpa [initPlayer] using this

theorem initAudioCtx_fail_first (env : Platform) (p : Player) (h0 : p.audioCtx = none)
    (h1 : env.failAt = some .newContext) :
    p.initAudioCtx env = ⟨p, some .platformError⟩ := by
  simp [initAudioCtx, h0, h1]

theorem initAudioCtx_full (env : Platform) (p : Player) (h0 : p.audioCtx = none)
    (h1 : env.failAt = none) :
    (p.initAudioCtx env).err = none ∧ (p.initAudioCtx env).st.GraphBuilt := by
  simp [initAudioCtx, h0, h1, GraphBuilt, emit, (connectAnalyser_st _ _ _).1,
    (connectAnalyser_st _ _ _).2]

theorem resumeAndPlay_graph (env : Platform) (p : Player) (h : p.GraphBuilt) :
    (resumeAndPlay env p).err = none ∧ (resumeAndPlay env p).st.GraphBuilt := by
  unfold GraphBuilt at h ⊢
  unfold resumeAndPlay
  cases hc : p.audioCtx with
  | none => exact absurd hc h.1
  | some c =>
    rw [hc] at h
    by_cases hs : c.state = .suspended <;> simpa [hs, hc, audioPlay, emit] using h

theorem graphResumePlay_fail_first (env : Platform) (p : Player) (h0 : p.audioCtx = none)
    (h1 : env.failAt = some .newContext) :
    graphResumePlay env p = ⟨p, some .platformError⟩ := by
  unfold graphResumePlay
  rw [initAudioCtx_fail_first env p h0 h1]

theorem graphResumePlay_full (env : Platform) (p : Player) (h0 : p.audioCtx = none)
    (h1 : env.failAt = none) :
    (graphResumePlay env p).err = none ∧ (graphResumePlay env p).st.GraphBuilt := by
  obtain ⟨e, g⟩ := initAudioCtx_full env p h0 h1
  unfold graphResumePlay
  rw [e]
  exact resumeAndPlay_graph env _ g

end Squalus

namespace Squalus

open Player

theorem audioUrl_ne_empty (id : Nat) : api.audioUrl id ≠ "" := by
  intro h
  have hl := congrArg String.length h
  simp only [api.audioUrl, String.length_append] at hl
  have h11 : "/api/songs/".length = 11 := by decide
  have h0 : "".length = 0 := by decide
  rw [h11, h0] at hl
  omega

theorem play_fail_first (p : Player) (songId : Nat) (t : Option String) (a : Bool)
    (env : Platform) (hg : ¬(p.currentSongId = some songId ∧ p.audio.paused = false))
    (h0 : p.audioCtx = none) (h1 : env.failAt = some .newContext) :
    (p.play songId t a env).err = some .platformError ∧
    (p.play songId t a env).st.audioCtx = none ∧
    (p.play songId t a env).st.audio.paused = true ∧
    (p.play songId t a env).st.audio.src ≠ "" ∨
    (p.play songId t a env).err = some .platformError ∧
    (p.play songId t a env).st.audioCtx = none ∧
    (p.play songId t a env).st.audio.paused = true ∧
    (p.play songId t a env).st.audio.src = p.audio.src := by
  by_cases hc : p.currentSongId = some songId
  · right
    rw [play_same songId t a env p hg hc,
      graphResumePlay_fail_first env { p with barHidden := false } h0 h1]
    refine ⟨rfl, h0, ?_, rfl⟩
    cases hpp : p.audio.paused with
    | true => rfl
    | false => exact absurd ⟨hc, hpp⟩ hg
  · left
    rw [play_other songId t a env p hc,
      graphResumePlay_fail_first env (bindTrack songId t a p) h0 h1]
    exact ⟨rfl, h0, rfl, audioUrl_ne_empty songId⟩

theorem play_full (p : Player) (songId : Nat) (t : Option String) (a : Bool)
    (env : Platform) (hp : p.audio.paused = true) (h0 : p.audioCtx = none)
    (h1 : env.failAt = none) :
    (p.play songId t a env).err = none ∧ (p.play songId t a env).st.GraphBuilt := by
  have hg : ¬(p.currentSongId = some songId ∧ p.audio.paused = false) := by
    rw [hp]; simp
  by_cases hc : p.currentSongId = some songId
  · rw [play_same songId t a env p hg hc]
    exact graphResumePlay_full env _ h0 h1
  · rw [play_other songId t a env p hc]
    exact graphResumePlay_full env _ h0 h1

/-- C25, as stated, fails: on a new player `play(42, ...)` during which `createAnalyser`
throws leaves `audioCtx` set, so the next `play(42, ...)`, though nothing fails in it,
does not build the graph: no analyser, no source, and the renderer is not connected. -/
theorem later_step_failure_not_retried :
    ((Player.new ⟨0, 400, 100⟩ 1).play 42 (some "Song A") true
      ⟨some .createAnalyser, .running, [], true⟩).err = some .platformError ∧
    (((Player.new ⟨0, 400, 100⟩ 1).play 42 (some "Song A") true
      ⟨some .createAnalyser, .running, [], true⟩).st.play 42 (some "Song A") true
      ⟨none, .running, [], true⟩).err = none ∧
    (((Player.new ⟨0, 400, 100⟩ 1).play 42 (some "Song A") true
      ⟨some .createAnalyser, .running, [], true⟩).st.play 42 (some "Song A") true
      ⟨none, .running, [], true⟩).st.analyser = none ∧
    (((Player.new ⟨0, 400, 100⟩ 1).play 42 (some "Song A") true
      ⟨some .createAnalyser, .running, [], true⟩).st.play 42 (some "Song A") true
      ⟨none, .running, [], true⟩).st.waveform.analyser = none ∧
    ¬(((Player.new ⟨0, 400, 100⟩ 1).play 42 (some "Song A") true
      ⟨some .createAnalyser, .running, [], true⟩).st.play 42 (some "Song A") true
      ⟨none, .running, [], true⟩).st.GraphBuilt := by
  refine ⟨?_, ?_, ?_, ?_, ?_⟩ <;> decide

/-- C25, amended.  If the construction of the audio context fails during a `play` or
`togglePlay` attempt, the attempt throws with `audioCtx` still null, and a later `play` or
`togglePlay` call re-attempts the construction: when no step fails in that call it returns
normally with the graph fully built and the analyser connected to the renderer. -/
theorem context_failure_recoverable (p : Player) (songId next : Nat)
    (t u : Option String) (a b : Bool) (env env2 : Platform)
    (hg : ¬(p.currentSongId = some songId ∧ p.audio.paused = false))
    (h0 : p.audioCtx = none) (h1 : env.failAt = some .newContext)
    (h2 : env2.failAt = none) :
    (p.play songId t a env).err = some .platformError ∧
    (p.play songId t a env).st.audioCtx = none ∧
    (p.play songId t a env).st.count .playRequested = p.count .playRequested ∧
    ((p.play songId t a env).st.play next u b env2).err = none ∧
    ((p.play songId t a env).st.play next u b env2).st.GraphBuilt ∧
    (p.audio.src ≠ "" →
      ((p.play songId t a env).st.togglePlay env2).err = none ∧
      ((p.play songId t a env).st.togglePlay env2).st.GraphBuilt) ∧
    (p.audio.src ≠ "" → p.audio.paused = true →
      p.togglePlay env = ⟨p, some .platformError⟩ ∧
      (p.togglePlay env2).err = none ∧ (p.togglePlay env2).st.GraphBuilt ∧
      ((p.togglePlay env).st.play next u b env2).err = none ∧
      ((p.togglePlay env).st.play next u b env2).st.GraphBuilt) := by
  have hq : (p.play songId t a env).err = some .platformError ∧
      (p.play songId t a env).st.audioCtx = none ∧
      (p.play songId t a env).st.audio.paused = true ∧
      ((p.play songId t a env).st.audio.src ≠ "" ∨
        (p.play songId t a env).st.audio.src = p.audio.src) := by
    rcases play_fail_first p songId t a env hg h0 h1 with ⟨x1, x2, x3, x4⟩ | ⟨x1, x2, x3, x4⟩
    · exact ⟨x1, x2, x3, Or.inl x4⟩
    · exact ⟨x1, x2, x3, Or.inr x4⟩
  obtain ⟨q1, q2, q3, q4⟩ := hq
  have hcount : (p.play songId t a env).st.count .playRequested = p.count .playRequested := by
    by_cases hc : p.currentSongId = some songId
    · rw [play_same songId t a env p hg hc,
        graphResumePlay_fail_first env { p with barHidden := false } h0 h1]
      rfl
    · rw [play_other songId t a env p hc,
        graphResumePlay_fail_first env (bindTrack songId t a p) h0 h1]
      rfl
  obtain ⟨r1, r2⟩ := play_full (p.play songId t a env).st next u b env2 q3 q2 h2
  refine ⟨q1, q2, hcount, r1, r2, ?_, ?_⟩
  · intro hs
    have hs' : (p.play songId t a env).st.audio.src ≠ "" := by
      rcases q4 with h | h
      · exact h
      · rw [h]; exact hs
    rw [togglePlay_eq, if_neg hs', if_pos q3]
    exact graphResumePlay_full env2 _ q2 h2
  · intro hs hp
    have e1 : p.togglePlay env = ⟨p, some .platformError⟩ := by
      rw [togglePlay_eq, if_neg hs, if_pos hp]
      exact graphResumePlay_fail_first env p h0 h1
    have e2 : p.togglePlay env2 = graphResumePlay env2 p := by
      rw [togglePlay_eq, if_neg hs, if_pos hp]
    rw [e1, e2]
    obtain ⟨g1, g2⟩ := graphResumePlay_full env2 p h0 h2
    obtain ⟨s1, s2⟩ := play_full p next u b env2 hp h0 h2
    exact ⟨rfl, g1, g2, s1, s2⟩

/-- Witness of the amended C25 on a new player: `play(42, ...)` fails at the construction
of the context, the next `play(42, ...)` builds the whole graph. -/
theorem context_failure_recoverable_witness :
    ((Player.new ⟨0, 400, 100⟩ 1).play 42 (some "Song A") true
      ⟨some .newContext, .running, [], true⟩).err = some .platformError ∧
    (((Player.new ⟨0, 400, 100⟩ 1).play 42 (some "Song A") true
      ⟨some .newContext, .running, [], true⟩).st.play 42 (some "Song A") true
      ⟨none, .running, [], true⟩).st.GraphBuilt :=
  ⟨(context_failure_recoverable (Player.new ⟨0, 400, 100⟩ 1) 42 42 (some "Song A")
      (some "Song A") true true ⟨some .newContext, .running, [], true⟩
      ⟨none, .running, [], true⟩ (by decide) rfl rfl rfl).1,
   (context_failure_recoverable (Player.new ⟨0, 400, 100⟩ 1) 42 42 (some "Song A")
      (some "Song A") true true ⟨some .newContext, .running, [], true⟩
      ⟨none, .running, [], true⟩ (by decide) rfl rfl rfl).2.2.2.2.1⟩

end Squalus

namespace Squalus

open Player WaveformRenderer

theorem playerAction_toggleIcon (a : PlayerAction) (p : Player) :
    (a.apply p).st.toggleIcon = p.toggleIcon := by
  cases a with
  | play songId t ar env => exact (play_ui p songId t ar env).1
  | togglePlay env => exact (togglePlay_frame env p).2.1
  | audioPaused b => rfl
  | contextState st => rfl
  | resized r d => rfl
  | frame id sp => rfl

/-- C26. The commands `play()` and `togglePlay()` leave the transport icon and the
elapsed-time text as they are.  The play listener sets the icon to 'pause', the pause and
ended listeners set it to 'play', and each of the three changes nothing else: after `ended`
position, track and trace of requests are unchanged (no playback-start request, no
auto-advance).  Whenever an event changes the icon, the event is one of these three
notifications. -/
theorem icon_only_by_notifications (p : Player) (e : PlayerEvent) (songId : Nat)
    (t : Option String) (a : Bool) (env : Platform) :
    (p.play songId t a env).st.toggleIcon = p.toggleIcon ∧
    (p.play songId t a env).st.timeText = p.timeText ∧
    (p.togglePlay env).st.toggleIcon = p.toggleIcon ∧
    (p.togglePlay env).st.timeText = p.timeText ∧
    p.onPlay = ⟨{ p with toggleIcon := .pause }, none⟩ ∧
    p.onPause = ⟨{ p with toggleIcon := .play }, none⟩ ∧
    p.onEnded = ⟨{ p with toggleIcon := .play }, none⟩ ∧
    p.onEnded.st.audio.currentTime = p.audio.currentTime ∧
    p.onEnded.st.currentSongId = p.currentSongId ∧
    p.onEnded.st.audio.src = p.audio.src ∧
    p.onEnded.st.trace = p.trace ∧
    p.onEnded.st.count .playRequested = p.count .playRequested ∧
    ((e.apply p).st.toggleIcon ≠ p.toggleIcon →
      (e = .played ∧ (e.apply p).st.toggleIcon = .pause) ∨
      ((e = .paused ∨ e = .ended) ∧ (e.apply p).st.toggleIcon = .play)) := by
  refine ⟨(play_ui p songId t a env).1, (play_ui p songId t a env).2,
    (togglePlay_frame env p).2.1, (togglePlay_frame env p).2.2, rfl, rfl, rfl, rfl, rfl, rfl,
    rfl, rfl, ?_⟩
  intro h
  cases e with
  | action act => exact absurd (playerAction_toggleIcon act p) h
  | timeupdate => exact absurd (onTimeUpdate_keeps p).2.1 h
  | played => exact Or.inl ⟨rfl, rfl⟩
  | paused => exact Or.inr ⟨Or.inl rfl, rfl⟩
  | ended => exact Or.inr ⟨Or.inr rfl, rfl⟩
  | canvasClick cx r => exact absurd (onCanvasClick_keeps p cx r).2.1 h

/-- Witness of C26: on a new player (icon 'play') the play notification is an event that
changes the icon, to 'pause'. -/
theorem icon_only_by_notifications_witness :
    (PlayerEvent.played.apply (Player.new ⟨0, 400, 100⟩ 1)).st.toggleIcon
      ≠ (Player.new ⟨0, 400, 100⟩ 1).toggleIcon ∧
    ((PlayerEvent.played = .played ∧
        (PlayerEvent.played.apply (Player.new ⟨0, 400, 100⟩ 1)).st.toggleIcon = .pause) ∨
      ((PlayerEvent.played = .paused ∨ PlayerEvent.played = .ended) ∧
        (PlayerEvent.played.apply (Player.new ⟨0, 400, 100⟩ 1)).st.toggleIcon = .play)) :=
  ⟨by decide, (icon_only_by_notifications (Player.new ⟨0, 400, 100⟩ 1) .played 7 none false
    ⟨none, .running, [], true⟩).2.2.2.2.2.2.2.2.2.2.2.2 (by decide)⟩

theorem animate_connected (sp : List Nat) (s : WaveformRenderer) (a : AnalyserNode)
    (d : List Nat) (ha : s.analyser = some a) (hd : s.data = some d) :
    s.animate sp =
      ⟨{ s with
          data := some (a.getByteFrequencyData sp d)
          reads := s.reads + 1
          draws := s.draws ++
            [{ live := true, data := some (a.getByteFrequencyData sp d),
               progress := s.progress, w := s.w, h := s.h }]
          lastHandle := s.lastHandle + 1
          frames := s.frames ++ [s.lastHandle + 1]
          animId := some (s.lastHandle + 1) }, none⟩ := by
  simp [animate, ha, hd, draw, requestAnimationFrame]

theorem animate_disconnected (sp : List Nat) (s : WaveformRenderer) (ha : s.analyser = none) :
    s.animate sp = ⟨s, none⟩ := by
  simp [animate, ha]

/-- C28. While an analyser is connected, one run of `_animate` reads one snapshot into the
buffer, performs exactly one draw (a live one, of the new buffer), schedules exactly one
frame and stores its handle; so a frame that fires is replaced by exactly one new frame.
After `disconnect()`, `_animate` does nothing: a frame that still fires reads nothing, draws
nothing and schedules nothing, it only leaves the queue; and the frame `disconnect`
cancelled does not run at all. -/
theorem render_loop_tick (s : WaveformRenderer) (a : AnalyserNode) (d sp : List Nat)
    (id : Nat) :
    (s.analyser = some a → s.data = some d →
      (s.animate sp).err = none ∧
      (s.animate sp).st.data = some (a.getByteFrequencyData sp d) ∧
      (s.animate sp).st.reads = s.reads + 1 ∧
      (s.animate sp).st.draws = s.draws ++
        [{ live := true, data := some (a.getByteFrequencyData sp d),
           progress := s.progress, w := s.w, h := s.h }] ∧
      (s.animate sp).st.frames = s.frames ++ [s.lastHandle + 1] ∧
      (s.animate sp).st.animId = some (s.lastHandle + 1) ∧
      (id ∈ s.frames →
        (s.tick id sp).st.frames = s.frames.erase id ++ [s.lastHandle + 1] ∧
        (s.tick id sp).st.reads = s.reads + 1 ∧
        (s.tick id sp).st.draws.length = s.draws.length + 1)) ∧
    s.disconnect.st.animate sp = ⟨s.disconnect.st, none⟩ ∧
    (s.disconnect.st.tick id sp).err = none ∧
    (s.disconnect.st.tick id sp).st =
      { s.disconnect.st with frames := s.disconnect.st.frames.erase id } ∧
    (s.disconnect.st.tick id sp).st.frames.length ≤ s.disconnect.st.frames.length ∧
    (s.animId = some id → id ≠ 0 → s.disconnect.st.tick id sp = ⟨s.disconnect.st, none⟩) := by
  have hdis : s.disconnect.st.analyser = none := by rw [disconnect_st]
  have hmem : s.animId = some id → id ≠ 0 → id ∉ s.disconnect.st.frames := by
    intro h hid
    rw [disconnect_st]
    simp [h, hid]
  have htick : s.disconnect.st.tick id sp
      = ⟨{ s.disconnect.st with frames := s.disconnect.st.frames.erase id }, none⟩ := by
    unfold tick
    by_cases hm : id ∈ s.disconnect.st.frames
    · rw [if_pos hm]
      exact animate_disconnected sp _ hdis
    · rw [if_neg hm, List.erase_of_not_mem hm]
  refine ⟨?_, animate_disconnected sp _ hdis, by rw [htick], by rw [htick], ?_, ?_⟩
  · intro ha hd
    rw [animate_connected sp s a d ha hd]
    refine ⟨rfl, rfl, rfl, rfl, rfl, rfl, ?_⟩
    intro hm
    unfold tick
    rw [if_pos hm, animate_connected sp { s with frames := s.frames.erase id } a d ha hd]
    simp
  · rw [htick]
    exact List.length_erase_le _ _
  · intro h hid
    unfold tick
    rw [if_neg (hmem h hid)]

/-- Witness of C28: on a renderer with a connected analyser the frame with handle 1 is
scheduled; when it fires the queue holds exactly the next frame. -/
theorem render_loop_tick_witness :
    (1 : Nat) ∈ ((WaveformRenderer.new ⟨0, 400, 100⟩ 1).connectAnalyser ⟨128⟩ []).st.frames ∧
    (((WaveformRenderer.new ⟨0, 400, 100⟩ 1).connectAnalyser ⟨128⟩ []).st.tick 1
      [9, 8]).st.frames
      = ((WaveformRenderer.new ⟨0, 400, 100⟩ 1).connectAnalyser ⟨128⟩ []).st.frames.erase 1
        ++ [((WaveformRenderer.new ⟨0, 400, 100⟩ 1).connectAnalyser ⟨128⟩
          []).st.lastHandle + 1] :=
  ⟨by decide,
    ((render_loop_tick ((WaveformRenderer.new ⟨0, 400, 100⟩ 1).connectAnalyser ⟨128⟩ []).st
      ⟨128⟩ (List.replicate 64 0) [9, 8] 1).1 rfl (by decide)).2.2.2.2.2.2 (by decide) |>.1⟩

end Squalus

/-! ## Theorems: idle pattern, buffer index, highlighted bars -/

namespace Squalus

open WaveformRenderer

theorem mathSinPi_range :
    ∀ i : Nat, i < 40 → 0 ≤ mathSinPi (frac i) ∧ mathSinPi (frac i) ≤ 1 := by decide!

theorem idleFactor_range (s : ℚ) (h0 : 0 ≤ s) (h1 : s ≤ 1) :
    15 / 100 * (1 - 1 / 2 ^ 51) ≤ idleFactor s ∧
    idleFactor s ≤ 35 / 100 * (1 + 1 / 2 ^ 51) := by
  unfold idleFactor
  have ha : toDouble (15 / 100) = 5404319552844595 / 36028797018963968 := by decide!
  have hb : toDouble (2 / 10) = 3602879701896397 / 18014398509481984 := by decide!
  rw [ha, hb]
  have hp : (0 : ℚ) ≤ 3602879701896397 / 18014398509481984 * s := by positivity
  have p0 := toDouble_nonneg _ hp
  have p1 := toDouble_le _ hp
  have hsum : (0 : ℚ) ≤ 5404319552844595 / 36028797018963968
      + toDouble (3602879701896397 / 18014398509481984 * s) := by positivity
  have q1 := toDouble_le _ hsum
  have q2 := le_toDouble _ hsum
  norm_num at p1 q1 q2 ⊢
  constructor <;> linarith

theorem idleBarH_range (s H : ℚ) (h0 : 0 ≤ s) (h1 : s ≤ 1) (hH : 0 ≤ H) :
    15 / 100 * H * (1 - 1 / 2 ^ 50) ≤ idleBarH s H ∧
    idleBarH s H ≤ 35 / 100 * H * (1 + 1 / 2 ^ 50) := by
  obtain ⟨f1, f2⟩ := idleFactor_range s h0 h1
  have hf0 : 0 ≤ idleFactor s := le_trans (by norm_num) f1
  unfold idleBarH
  have hx : 0 ≤ H * idleFactor s := mul_nonneg hH hf0
  have u1 := toDouble_le _ hx
  have u2 := le_toDouble _ hx
  have m1 := mul_le_mul_of_nonneg_left f1 hH
  have m2 := mul_le_mul_of_nonneg_left f2 hH
  norm_num at u1 u2 m1 m2 ⊢
  constructor <;> linarith

theorem idleFactor_mirror : ∀ i : Nat, i < 40 → 1 ≤ i →
    |idleFactor (mathSinPi (frac i)) - idleFactor (mathSinPi (frac (40 - i)))|
      ≤ 1 / 2 ^ 54 := by decide!

theorem idleBarH_mirror (i : Nat) (H : ℚ) (hi : i < 40) (h1 : 1 ≤ i) (hH : 0 ≤ H) :
    |idleBarH (mathSinPi (frac i)) H - idleBarH (mathSinPi (frac (40 - i))) H|
      ≤ H / 2 ^ 52 := by
  have hj : 40 - i < 40 := by omega
  obtain ⟨a0, a1⟩ := mathSinPi_range i hi
  obtain ⟨b0, b1⟩ := mathSinPi_range (40 - i) hj
  obtain ⟨f1, f2⟩ := idleFactor_range _ a0 a1
  obtain ⟨g1, g2⟩ := idleFactor_range _ b0 b1
  have hd := abs_le.mp (idleFactor_mirror i hi h1)
  have hf0 : 0 ≤ idleFactor (mathSinPi (frac i)) := le_trans (by norm_num) f1
  have hg0 : 0 ≤ idleFactor (mathSinPi (frac (40 - i))) := le_trans (by norm_num) g1
  unfold idleBarH
  have hx := mul_nonneg hH hf0
  have hy := mul_nonneg hH hg0
  have u1 := toDouble_le _ hx
  have u2 := le_toDouble _ hx
  have v1 := toDouble_le _ hy
  have v2 := le_toDouble _ hy
  have m1 := mul_le_mul_of_nonneg_left f2 hH
  have m2 := mul_le_mul_of_nonneg_left g2 hH
  have d1 := mul_le_mul_of_nonneg_left hd.1 hH
  have d2 := mul_le_mul_of_nonneg_left hd.2 hH
  rw [abs_le]
  norm_num at u1 u2 v1 v2 m1 m2 d1 d2 ⊢
  constructor <;> linarith

/-- C27, as stated, fails in the arithmetic of the code: the idle hump is not symmetric.  The
sine the platform returns for bar 10 is 0.7071067811865475 and for bar 30
0.7071067811865476, and on a surface of height 100 an idle draw gives bar 10 the height
29.142135623730947 and bar 30 the height 29.14213562373095. -/
theorem idle_hump_not_symmetric :
    mathSinPi (frac 10) = 1592262918131443 / 2251799813685248 ∧
    mathSinPi (frac 30) = 6369051672525773 / 9007199254740992 ∧
    ∃ b b', (paint ⟨"", ""⟩ mathSinPi
        { live := false, data := none, progress := .fin 0, w := 400, h := 100 }
        ⟨"", 1, []⟩).rects[10]? = some b ∧
      (paint ⟨"", ""⟩ mathSinPi
        { live := false, data := none, progress := .fin 0, w := 400, h := 100 }
        ⟨"", 1, []⟩).rects[30]? = some b' ∧
      b.height = .fin (8202781945988447 / 281474976710656) ∧
      b'.height = .fin (256336935812139 / 8796093022208) ∧
      b.height ≠ b'.height := by
  have h10 : idleBarH (mathSinPi (frac 10)) 100 = 8202781945988447 / 281474976710656 := by
    decide!
  have h30 : idleBarH (mathSinPi (frac 30)) 100 = 256336935812139 / 8796093022208 := by
    decide!
  have e10 : (barAt ⟨"", ""⟩ mathSinPi
      { live := false, data := none, progress := .fin 0, w := 400, h := 100 } 10).height
      = .fin (8202781945988447 / 281474976710656) := by
    show JSNum.fin (idleBarH (mathSinPi (frac 10)) 100) = _
    rw [h10]
  have e30 : (barAt ⟨"", ""⟩ mathSinPi
      { live := false, data := none, progress := .fin 0, w := 400, h := 100 } 30).height
      = .fin (256336935812139 / 8796093022208) := by
    show JSNum.fin (idleBarH (mathSinPi (frac 30)) 100) = _
    rw [h30]
  refine ⟨by decide!, by decide!, _, _, paint_rects_get _ _ _ _ 10 (by decide),
    paint_rects_get _ _ _ _ 30 (by decide), e10, e30, ?_⟩
  rw [e10, e30]
  intro h
  have := JSNum.fin.inj h
  norm_num at this

/-- C27, amended.  When no live data exists (buffer or analyser null) the draw is idle and
bar `i` has the height `h * (0.15 + 0.2 * s)`, each operation rounded to a double, where `s`
is the value the platform returns for `Math.sin(frac * Math.PI)`: the same for every
progress and every buffer content.  With the sine of the platform (`mathSinPi`, a value in
`[0, 1]`) and a height `H >= 0` the bar height lies in `[0.15 * H, 0.35 * H]` up to a
relative rounding error of `2 ^ -50`, and the heights of bar `i` and bar `40 - i` differ by
at most `H / 2 ^ 52`: the hump is symmetric up to rounding, not exactly. -/
theorem idle_bar_height (H : ℚ) (i : Nat) (hH : 0 ≤ H) (hi : i < 40) :
    (∀ s : WaveformRenderer, s.data = none ∨ s.analyser = none →
      ∃ c, s.draw.draws = s.draws ++ [c] ∧ c.live = false ∧ c.h = s.h) ∧
    (∀ (sinPi : ℚ → ℚ) (c : DrawCall), c.live = false →
      barH sinPi c i = .fin (toDouble (c.h * toDouble (toDouble (15 / 100)
        + toDouble (toDouble (2 / 10) * sinPi (toDouble ((i : ℚ) / 40))))))) ∧
    (∀ (sinPi : ℚ → ℚ) (c c' : DrawCall), c.live = false → c'.live = false → c.h = c'.h →
      barH sinPi c i = barH sinPi c' i) ∧
    0 ≤ mathSinPi (frac i) ∧ mathSinPi (frac i) ≤ 1 ∧
    (∀ c : DrawCall, c.live = false → c.h = H →
      ∃ v, barH mathSinPi c i = .fin v ∧
        15 / 100 * H * (1 - 1 / 2 ^ 50) ≤ v ∧ v ≤ 35 / 100 * H * (1 + 1 / 2 ^ 50)) ∧
    (1 ≤ i → ∀ c : DrawCall, c.live = false → c.h = H →
      ∃ v v', barH mathSinPi c i = .fin v ∧ barH mathSinPi c (40 - i) = .fin v' ∧
        |v - v'| ≤ H / 2 ^ 52) := by
  obtain ⟨s0, s1⟩ := mathSinPi_range i hi
  refine ⟨?_, ?_, ?_, s0, s1, ?_, ?_⟩
  · intro s hs
    refine ⟨_, rfl, ?_, rfl⟩
    rcases hs with hs | hs <;> simp [hs]
  · intro sinPi c hl
    simp [barH, hl, idleBarH, idleFactor, frac, bars]
  · intro sinPi c c' hl hl' hh
    simp [barH, hl, hl', hh]
  · intro c hl hh
    refine ⟨idleBarH (mathSinPi (frac i)) H, by simp [barH, hl, hh], ?_⟩
    exact idleBarH_range _ H s0 s1 hH
  · intro h1 c hl hh
    exact ⟨_, _, by simp [barH, hl, hh], by simp [barH, hl, hh],
      idleBarH_mirror i H hi h1 hH⟩

/-- Witness of the amended C27 at height 100 and bar 10: an idle draw gives the bars 10 and
30 heights that differ by at most `100 / 2 ^ 52`. -/
theorem idle_bar_height_witness :
    (0 : ℚ) ≤ 100 ∧ (10 : Nat) < 40 ∧
    ∃ v v', barH mathSinPi
        { live := false, data := none, progress := .fin 0, w := 400, h := 100 } 10 = .fin v ∧
      barH mathSinPi
        { live := false, data := none, progress := .fin 0, w := 400, h := 100 } (40 - 10)
        = .fin v' ∧
      |v - v'| ≤ 100 / 2 ^ 52 :=
  ⟨by norm_num, by decide,
    (idle_bar_height 100 10 (by norm_num) (by decide)).2.2.2.2.2.2 (by decide) _ rfl rfl⟩

theorem sampleIndex_sixty_four : ∀ i : Nat, i < 40 →
    sampleIndex i 64 = 8 * i / 5 ∧ sampleIndex i 64 = ⌊(16 / 10 : ℚ) * i⌋.toNat := by
  decide!

theorem getByteFrequencyData_length (a : AnalyserNode) (sp d : List Nat) :
    (a.getByteFrequencyData sp d).length = d.length := by
  simp [AnalyserNode.getByteFrequencyData]

theorem initAudioCtx_waveform (env : Platform) (p : Player) (h0 : p.audioCtx = none)
    (h1 : env.failAt = none) :
    (p.initAudioCtx env).st.waveform
      = (p.waveform.connectAnalyser { fftSize := 128 } env.spectrum).st := by
  simp [Player.initAudioCtx, h0, h1, Player.emit]

/-- C29. For a buffer of `n >= 1` buckets and a bar index `i` in 0..39 the sampled index
`floor((i / 40) * n)` is at most `n - 1`, so the read `this.data[idx]` of a live draw hits
the buffer and the height is a number.  The player builds its analyser with transform size
128, hence 64 buckets, and the renderer allocates a buffer of that length; the indices are
then `floor(1.6 * i) = floor(8 * i / 5)`, at most 62, and 62 for bar 39. -/
theorem sample_index_in_bounds (n i : Nat) (hn : 1 ≤ n) (hi : i < 40) :
    sampleIndex i n ≤ n - 1 ∧
    (∀ d : List Nat, d.length = n → ∃ b, d[sampleIndex i d.length]? = some b) ∧
    (∀ (sinPi : ℚ → ℚ) (c : DrawCall) (d : List Nat), c.live = true → c.data = some d →
      d.length = n → barH sinPi c i ≠ .nan) ∧
    AnalyserNode.frequencyBinCount ⟨128⟩ = 64 ∧
    (∀ (env : Platform) (p : Player), p.audioCtx = none → env.failAt = none →
      ∃ d, (p.initAudioCtx env).st.waveform.data = some d ∧ d.length = 64) ∧
    sampleIndex i 64 = ⌊(16 / 10 : ℚ) * i⌋.toNat ∧
    sampleIndex i 64 = 8 * i / 5 ∧
    sampleIndex i 64 ≤ 62 ∧ sampleIndex 39 64 = 62 := by
  have hlt := sampleIndex_lt i n hi hn
  have hget : ∀ d : List Nat, d.length = n → ∃ b, d[sampleIndex i d.length]? = some b := by
    intro d hd
    have : sampleIndex i d.length < d.length := by rw [hd]; exact hlt
    exact ⟨d[sampleIndex i d.length], List.getElem?_eq_getElem this⟩
  refine ⟨by omega, hget, ?_, rfl, ?_, (sampleIndex_sixty_four i hi).2,
    (sampleIndex_sixty_four i hi).1, ?_, (sampleIndex_sixty_four 39 (by decide)).1⟩
  · intro sinPi c d hl hd hlen
    obtain ⟨b, hb⟩ := hget d hlen
    simp [barH, hl, hd, hb]
  · intro env p h0 h1
    rw [initAudioCtx_waveform env p h0 h1, (connectAnalyser_st _ _ _).1]
    exact ⟨_, rfl, by simp [getByteFrequencyData_length, AnalyserNode.frequencyBinCount]⟩
  · rw [(sampleIndex_sixty_four i hi).1]; omega

/-- Witness of C29 for bar 39 and a buffer of 64 buckets: the index is at most 63. -/
theorem sample_index_in_bounds_witness :
    (1 : Nat) ≤ 64 ∧ (39 : Nat) < 40 ∧ sampleIndex 39 64 ≤ 64 - 1 :=
  ⟨by decide, by decide, (sample_index_in_bounds 64 39 (by decide) (by decide)).1⟩

end Squalus

namespace Squalus

open WaveformRenderer

theorem countP_range_le (n k : Nat) :
    (List.range n).countP (fun i => decide (i ≤ k)) = min n (k + 1) := by
  induction n with
  | zero => simp
  | succ n ih =>
    rw [List.range_succ, List.countP_append, ih]
    by_cases h : n ≤ k
    · simp [List.countP_cons, h]
      omega
    · simp [List.countP_cons, h]
      omega

theorem countP_range_lt (n k : Nat) :
    (List.range n).countP (fun i => decide (i < k)) = min n k := by
  induction n with
  | zero => simp
  | succ n ih =>
    rw [List.range_succ, List.countP_append, ih]
    by_cases h : n < k
    · simp [List.countP_cons, h]
      omega
    · simp [List.countP_cons, h]
      omega

theorem frac_mono : ∀ i : Nat, i < 40 → ∀ j : Nat, j ≤ i → frac j ≤ frac i := by decide!

theorem frac_near : ∀ i : Nat, i < 40 →
    (i : ℚ) / 40 - 1 / 40 < frac i ∧ frac i < (i : ℚ) / 40 + 1 / 40 := by decide!

theorem barAt_alpha (theme : Theme) (sinPi : ℚ → ℚ) (c : DrawCall) (p : ℚ)
    (hc : c.progress = .fin p) (i : Nat) :
    ((barAt theme sinPi c i).globalAlpha = 1 ↔ frac i ≤ p) ∧
    ((barAt theme sinPi c i).globalAlpha = 1 →
      (barAt theme sinPi c i).fillStyle = theme.accentColor) ∧
    ((barAt theme sinPi c i).globalAlpha ≠ 1 →
      (barAt theme sinPi c i).fillStyle = theme.mutedColor ∧
      (barAt theme sinPi c i).globalAlpha = 3 / 10) := by
  by_cases hle : frac i ≤ p
  · simp [barAt, hc, JSNum.le, hle]
  · simp [barAt, hc, JSNum.le, hle]
    norm_num

/-- C30, as stated, fails in the arithmetic of the code.  At the stored progress 0.3 (the
double `5404319552844595 / 2 ^ 54`, which is also the fraction of bar 12) a draw highlights
13 bars, while `min(40, floor(40 * p) + 1)` is 12.  With the product rounded as the code
would round it the formula fails too: at the stored progress 0.22499999999999998 a draw
highlights 9 bars and the formula gives 10. -/
theorem thirteen_bars_at_three_tenths :
    ((paint ⟨"", ""⟩ mathSinPi
        { live := false, data := none,
          progress := .fin (5404319552844595 / 18014398509481984), w := 400, h := 100 }
        ⟨"", 1, []⟩).rects.filter fun b => decide (b.globalAlpha = 1)).length = 13 ∧
    min 40 (⌊(40 : ℚ) * (5404319552844595 / 18014398509481984)⌋.toNat + 1) = 12 ∧
    ((paint ⟨"", ""⟩ mathSinPi
        { live := false, data := none,
          progress := .fin (2026619832316723 / 9007199254740992), w := 400, h := 100 }
        ⟨"", 1, []⟩).rects.filter fun b => decide (b.globalAlpha = 1)).length = 9 ∧
    min 40 (⌊toDouble (40 * (2026619832316723 / 9007199254740992))⌋.toNat + 1) = 10 := by
  refine ⟨?_, by decide!, ?_, by decide!⟩
  · rw [paint_rects, ← List.countP_eq_length_filter, List.countP_map]
    decide!
  · rw [paint_rects, ← List.countP_eq_length_filter, List.countP_map]
    decide!

/-- C30, amended.  For a stored progress `p >= 0` the bars a draw paints at opacity 1, which
are the bars in the accent colour, are the bars whose fraction `frac`, the double nearest to
`i / 40`, is at most `p`.  Bar 0 is one of them even at `p = 0`; they form a prefix of the
bar sequence; for `p >= 39/40` all 40 bars are highlighted.  Their number is
`min(40, floor(40 * p) + 1)` up to one bar: at least `min(40, floor(40 * p))` and at most
`min(40, floor(40 * p) + 2)`. -/
theorem highlighted_bar_count (theme : Theme) (sinPi : ℚ → ℚ) (c : DrawCall) (ctx : Canvas2D)
    (p : ℚ) (hc : c.progress = .fin p) (hp0 : 0 ≤ p) :
    ((paint theme sinPi c ctx).rects.filter fun b => decide (b.globalAlpha = 1)).length
      = ((List.range 40).filter fun i => decide (frac i ≤ p)).length ∧
    (∀ b ∈ (paint theme sinPi c ctx).rects, b.globalAlpha = 1 →
      b.fillStyle = theme.accentColor) ∧
    (∀ b ∈ (paint theme sinPi c ctx).rects, b.globalAlpha ≠ 1 →
      b.fillStyle = theme.mutedColor ∧ b.globalAlpha = 3 / 10) ∧
    (∃ b, (paint theme sinPi c ctx).rects[0]? = some b ∧ b.globalAlpha = 1) ∧
    1 ≤ ((paint theme sinPi c ctx).rects.filter fun b => decide (b.globalAlpha = 1)).length ∧
    (∀ (i j : Nat) (b b' : Bar), j ≤ i → (paint theme sinPi c ctx).rects[i]? = some b →
      (paint theme sinPi c ctx).rects[j]? = some b' → b.globalAlpha = 1 →
      b'.globalAlpha = 1) ∧
    (39 / 40 ≤ p →
      ((paint theme sinPi c ctx).rects.filter fun b => decide (b.globalAlpha = 1)).length
        = 40) ∧
    min 40 ⌊40 * p⌋.toNat
      ≤ ((paint theme sinPi c ctx).rects.filter fun b => decide (b.globalAlpha = 1)).length ∧
    ((paint theme sinPi c ctx).rects.filter fun b => decide (b.globalAlpha = 1)).length
      ≤ min 40 (⌊40 * p⌋.toNat + 2) := by
  have h40 : (0 : ℚ) ≤ 40 * p := by positivity
  have hcount : ((paint theme sinPi c ctx).rects.filter
      fun b => decide (b.globalAlpha = 1)).length
      = (List.range 40).countP (fun i => decide (frac i ≤ p)) := by
    rw [paint_rects, ← List.countP_eq_length_filter, List.countP_map]
    congr 1
    funext i
    simp only [Function.comp]
    exact decide_eq_decide.mpr (barAt_alpha theme sinPi c p hc i).1
  have hget : ∀ i b, (paint theme sinPi c ctx).rects[i]? = some b →
      i < 40 ∧ b = barAt theme sinPi c i := by
    intro i b h
    rw [paint_rects, List.getElem?_map] at h
    by_cases hi : i < 40
    · rw [List.getElem?_range hi] at h
      exact ⟨hi, (Option.some.inj h).symm⟩
    · rw [List.getElem?_eq_none (by simpa using not_lt.mp hi)] at h
      cases h
  have hzero : frac 0 ≤ p := by
    have : frac 0 = 0 := by decide!
    rw [this]; exact hp0
  have hlow : min 40 ⌊40 * p⌋.toNat
      ≤ (List.range 40).countP (fun i => decide (frac i ≤ p)) := by
    rw [← countP_range_lt 40 ⌊40 * p⌋.toNat]
    apply List.countP_mono_left
    intro i hi hlt
    have hi' : i < 40 := List.mem_range.mp hi
    have hlt' : i + 1 ≤ ⌊40 * p⌋.toNat := of_decide_eq_true hlt
    rw [Int.floor_toNat, Nat.le_floor_iff h40] at hlt'
    push_cast at hlt'
    have := (frac_near i hi').2
    exact decide_eq_true (by linarith)
  have hhigh : (List.range 40).countP (fun i => decide (frac i ≤ p))
      ≤ min 40 (⌊40 * p⌋.toNat + 2) := by
    rw [← countP_range_le 40 (⌊40 * p⌋.toNat + 1)]
    apply List.countP_mono_left
    intro i hi hle
    have hi' : i < 40 := List.mem_range.mp hi
    have hle' : frac i ≤ p := of_decide_eq_true hle
    have h1 := (frac_near i hi').1
    have h2 : ((i - 1 : Nat) : ℚ) ≤ 40 * p := by
      rcases Nat.eq_zero_or_pos i with h | h
      · rw [h]; simpa using h40
      · rw [Nat.cast_sub h]; push_cast; linarith
    have h3 : i - 1 ≤ ⌊40 * p⌋.toNat := by
      rw [Int.floor_toNat, Nat.le_floor_iff h40]; exact h2
    exact decide_eq_true (by omega)
  refine ⟨?_, ?_, ?_, ?_, ?_, ?_, ?_, ?_, ?_⟩
  · rw [hcount, List.countP_eq_length_filter]
  · intro b hb h1
    rw [paint_rects] at hb
    obtain ⟨i, -, rfl⟩ := List.mem_map.mp hb
    exact (barAt_alpha theme sinPi c p hc i).2.1 h1
  · intro b hb h1
    rw [paint_rects] at hb
    obtain ⟨i, -, rfl⟩ := List.mem_map.mp hb
    exact (barAt_alpha theme sinPi c p hc i).2.2 h1
  · refine ⟨barAt theme sinPi c 0, paint_rects_get theme sinPi c ctx 0 (by decide), ?_⟩
    exact (barAt_alpha theme sinPi c p hc 0).1.mpr hzero
  · rw [hcount]
    exact List.countP_pos_iff.mpr ⟨0, by simp, decide_eq_true hzero⟩
  · intro i j b b' hji hi hj hb
    obtain ⟨hi40, rfl⟩ := hget i b hi
    obtain ⟨-, rfl⟩ := hget j b' hj
    have := (barAt_alpha theme sinPi c p hc i).1.mp hb
    exact (barAt_alpha theme sinPi c p hc j).1.mpr ((frac_mono i hi40 j hji).trans this)
  · intro h39
    rw [hcount]
    have hall : ∀ i ∈ List.range 40, decide (frac i ≤ p) = true := by
      intro i hi
      have hi' : i < 40 := List.mem_range.mp hi
      exact decide_eq_true (((frac_range i hi').2).trans h39)
    rw [List.countP_eq_length.mpr hall]
    simp
  · rw [hcount]; exact hlow
  · rw [hcount]; exact hhigh

/-- Witness of the amended C30 at progress 0: bar 0 is highlighted. -/
theorem highlighted_bar_count_witness :
    (0 : ℚ) ≤ 0 ∧
    ∃ b, (paint ⟨"", ""⟩ mathSinPi
        { live := false, data := none, progress := .fin 0, w := 400, h := 100 }
        ⟨"", 1, []⟩).rects[0]? = some b ∧ b.globalAlpha = 1 :=
  ⟨le_rfl,
    (highlighted_bar_count ⟨"", ""⟩ mathSinPi
      { live := false, data := none, progress := .fin 0, w := 400, h := 100 }
      ⟨"", 1, []⟩ 0 rfl le_rfl).2.2.2.1⟩

end Squalus
